import Mathlib

/-!
Shopping cart and product search of `whales-collective/function-calling`.

A shallow embedding of

* `models/products.go`  (`Product`),
* `cart/cart.go`        (`CartItem`, `Cart`, `NewCart`, `AddToCart`, `UpdateCartQuantity`,
  `RemoveFromCart`, `GetCartItemCount`, `ClearCart`),
* `tools/search.go`     (`SearchProducts`),
* `main.go`             (the `add_to_cart` and `search_products` cases of the loop over the
  tool calls),

followed by the properties of the specification that concern them.

Modelling conventions.

* A Go slice is a `List`; the catalog `products []models.Product` that every cart method
  mutates in place, and the receiver `c *Cart`, are passed in and handed back in a `CallResult`
  next to the returned `error` (`none` is Go's `nil`).  The state is handed back on the error
  paths too, so that "nothing changed on failure" is a statement about the code and not about
  the type of the model.
* Go's `int` is `GoInt`, the integers from -2^63 to 2^63 - 1 (the `int` of a 64-bit platform);
  `+` and `-` on `GoInt` wrap around as Go's do.  What the specification says about sums and
  differences is stated on the mathematical integers, through `GoInt.val`.  The `limit` of
  `SearchProducts` is only compared and never computed with; it ranges over all integers, those
  of Go's `int` among them.
* A `float64` is `Float64`, the 64 bits of its IEEE-754 encoding.  Prices are stored and copied
  and never computed with below: `GetCartTotal`, which adds and multiplies them with rounding,
  is not part of the embedding.
* An index variable initialised to `-1` and tested against `-1` after the loop is an `Option`.
* `strings.EqualFold`, `strings.ToLower` and `strings.Contains` belong to Go's standard library.
  They are modelled rune by rune; the Unicode tables they consult are parameters:
  `foldEq a b` says that the runes `a` and `b` are in one simple-folding orbit, `lower` is
  `unicode.ToLower`.  The theorems hold for every choice of these tables; the one property of
  the folding table that a theorem relies on (its orbits: the relation is symmetric and, with
  equality, transitive) is a hypothesis there.  `asciiFoldEq` and `asciiLower` are the
  restrictions of the tables to ASCII, used to evaluate examples.
* `json.Unmarshal` of the arguments of a tool call into a struct leaves the field of a missing
  key at Go's zero value; the arguments are records of optional values.
-/

namespace FunctionCalling

/-! ## Go's numbers -/

/-- The representative of an integer in the range of Go's `int`: what is left of a sum or a
difference after it wraps around. -/
def wrap (x : Int) : Int :=
  (x + 9223372036854775808) % 18446744073709551616 - 9223372036854775808

/-- Go's `int` on a 64-bit platform: the integers from -2^63 to 2^63 - 1. -/
structure GoInt where
  val : Int
  inRange : -9223372036854775808 ≤ val ∧ val < 9223372036854775808
deriving DecidableEq

/-- The `int` that an integer wraps around to. -/
def GoInt.ofInt (x : Int) : GoInt :=
  ⟨wrap x, by unfold wrap; omega⟩

instance : Repr GoInt := ⟨fun x p => reprPrec x.val p⟩

instance (n : Nat) : OfNat GoInt n := ⟨GoInt.ofInt n⟩

/-- Go's `+` on `int`. -/
instance : Add GoInt := ⟨fun a b => GoInt.ofInt (a.val + b.val)⟩

/-- Go's `-` on `int`. -/
instance : Sub GoInt := ⟨fun a b => GoInt.ofInt (a.val - b.val)⟩

/-- Go's comparisons on `int`: those of the values. -/
instance : LinearOrder GoInt :=
  LinearOrder.lift' GoInt.val (fun a b h => by cases a; cases b; simp_all)

/-- Whether an integer is a value of Go's `int`. -/
def Representable (x : Int) : Prop :=
  -9223372036854775808 ≤ x ∧ x < 9223372036854775808

instance (x : Int) : Decidable (Representable x) :=
  inferInstanceAs (Decidable (-9223372036854775808 ≤ x ∧ x < 9223372036854775808))

/-- The largest `int`, `math.MaxInt64`. -/
def maxInt : GoInt := GoInt.ofInt 9223372036854775807

/-- The least `int`, `math.MinInt64`. -/
def minInt : GoInt := GoInt.ofInt (-9223372036854775808)

/-- Go's `float64`: the 64 bits of the IEEE-754 encoding. -/
structure Float64 where
  bits : Nat
deriving DecidableEq, Repr

/-- The `float64` 15.0. -/
def price15 : Float64 := ⟨4624633867356078080⟩

/-! ## models/products.go -/

/-- The struct `models.Product`. -/
structure Product where
  ID : String
  Name : String
  Description : String
  Price : Float64
  Category : String
  Stock : GoInt
deriving DecidableEq, Repr

/-! ## cart/cart.go: data -/

/-- The struct `cart.CartItem`: a copy of a product and a quantity. -/
structure CartItem where
  Product : Product
  Quantity : GoInt
deriving DecidableEq, Repr

/-- The struct `cart.Cart`. -/
structure Cart where
  Items : List CartItem
deriving DecidableEq, Repr

/-- The constructor `NewCart`: a cart with `make([]CartItem, 0)`. -/
def NewCart : Cart := ⟨[]⟩

/-- The call sites of `fmt.Errorf` in `cart.go`, each with the values it formats. -/
inductive CartError where
  /-- "quantity must be greater than 0" (`AddToCart`, `RemoveFromCart`). -/
  | quantityNotPositive
  /-- "quantity cannot be negative" (`UpdateCartQuantity`). -/
  | quantityNegative
  /-- "product '%s' not found" (`AddToCart`). -/
  | productNotFound (productName : String)
  /-- "insufficient stock for '%s'. Available: %d, Requested: %d" (`AddToCart`). -/
  | insufficientStock (productName : String) (available requested : GoInt)
  /-- "product '%s' not found in cart" (`UpdateCartQuantity`, `RemoveFromCart`). -/
  | notFoundInCart (productName : String)
  /-- "product '%s' not found in inventory" (`UpdateCartQuantity`). -/
  | notFoundInInventory (productName : String)
  /-- "insufficient stock for '%s'. Available: %d, Additional needed: %d"
  (`UpdateCartQuantity`). -/
  | insufficientStockForIncrease (productName : String) (available needed : GoInt)
  /-- "cannot remove %d items. Only %d in cart" (`RemoveFromCart`). -/
  | cannotRemove (quantity inCart : GoInt)
deriving DecidableEq, Repr

/-- The text of the error, as `fmt.Errorf` builds it. -/
def CartError.message : CartError → String
  | .quantityNotPositive => "quantity must be greater than 0"
  | .quantityNegative => "quantity cannot be negative"
  | .productNotFound n => "product \x27" ++ n ++ "\x27 not found"
  | .insufficientStock n a r =>
      "insufficient stock for \x27" ++ n ++ "\x27. Available: " ++ toString a.val
        ++ ", Requested: " ++ toString r.val
  | .notFoundInCart n => "product \x27" ++ n ++ "\x27 not found in cart"
  | .notFoundInInventory n => "product \x27" ++ n ++ "\x27 not found in inventory"
  | .insufficientStockForIncrease n a d =>
      "insufficient stock for \x27" ++ n ++ "\x27. Available: " ++ toString a.val
        ++ ", Additional needed: " ++ toString d.val
  | .cannotRemove q have_ =>
      "cannot remove " ++ toString q.val ++ " items. Only " ++ toString have_.val ++ " in cart"

/-- The error kinds of the specification (its section 7). -/
inductive ErrorKind where
  | InvalidQuantity
  | ProductNotFound
  | ItemNotInCart
  | InsufficientStock
  | InsufficientCartQuantity
deriving DecidableEq, Repr

/-- The kind of each error the cart returns. -/
def CartError.kind : CartError → ErrorKind
  | .quantityNotPositive => .InvalidQuantity
  | .quantityNegative => .InvalidQuantity
  | .productNotFound _ => .ProductNotFound
  | .insufficientStock _ _ _ => .InsufficientStock
  | .notFoundInCart _ => .ItemNotInCart
  | .notFoundInInventory _ => .ProductNotFound
  | .insufficientStockForIncrease _ _ _ => .InsufficientStock
  | .cannotRemove _ _ => .InsufficientCartQuantity

/-- What a cart method leaves behind: the returned `error`, the catalog slice and the cart. -/
structure CallResult where
  err : Option CartError
  products : List Product
  cart : Cart
deriving DecidableEq, Repr

/-! ## Go's loops and the standard library -/

/-- The loop `for i, x := range xs { if p x { idx = i; found = x; break } }`:
the first index whose element satisfies `p`, with that element. -/
def firstMatch {α : Type} (p : α → Bool) : List α → Option (Nat × α)
  | [] => none
  | x :: xs =>
    if p x then some (0, x)
    else match firstMatch p xs with
      | some (i, y) => some (i + 1, y)
      | none => none

/-- The rune loop of `strings.EqualFold`: equal runes, or runes of one folding orbit, and both
strings used up together. -/
def equalFoldRunes (foldEq : Char → Char → Bool) : List Char → List Char → Bool
  | [], [] => true
  | a :: s, b :: t => (a == b || foldEq a b) && equalFoldRunes foldEq s t
  | _, _ => false

/-- Go's `strings.EqualFold`. -/
def EqualFold (foldEq : Char → Char → Bool) (s t : String) : Bool :=
  equalFoldRunes foldEq s.data t.data

/-- Go's `strings.ToLower`: `unicode.ToLower` on every rune. -/
def ToLower (lower : Char → Char) (s : String) : String :=
  ⟨s.data.map lower⟩

/-- Whether `sub` starts at some position of `s`. -/
def containsRunes : List Char → List Char → Bool
  | [], sub => sub.isEmpty
  | c :: s, sub => sub.isPrefixOf (c :: s) || containsRunes s sub

/-- Go's `strings.Contains`. -/
def Contains (s substr : String) : Bool :=
  containsRunes s.data substr.data

/-- The simple-folding table restricted to ASCII: a letter and its other case. -/
def asciiFoldEq (a b : Char) : Bool :=
  a.toLower == b.toLower

/-- The lower-case table restricted to ASCII. -/
def asciiLower (a : Char) : Char :=
  a.toLower

/-! ## cart/cart.go: operations -/

/-- The method `AddToCart`. -/
def Cart.AddToCart (foldEq : Char → Char → Bool) (c : Cart) (products : List Product)
    (productName : String) (quantity : GoInt) : CallResult :=
  if quantity ≤ 0 then
    ⟨some .quantityNotPositive, products, c⟩
  else
    -- Find the product by name (case-insensitive exact match)
    match firstMatch (fun product => EqualFold foldEq product.Name productName) products with
    | none => ⟨some (.productNotFound productName), products, c⟩
    | some (productIndex, foundProduct) =>
      -- Check if there is enough stock
      if foundProduct.Stock < quantity then
        ⟨some (.insufficientStock productName foundProduct.Stock quantity), products, c⟩
      else
        -- Update stock in the products slice
        let products1 :=
          products.set productIndex { foundProduct with Stock := foundProduct.Stock - quantity }
        -- Check if product already exists in cart
        match firstMatch (fun item => item.Product.ID == foundProduct.ID) c.Items with
        | some (i, item) =>
          ⟨none, products1, ⟨c.Items.set i { item with Quantity := item.Quantity + quantity }⟩⟩
        | none =>
          ⟨none, products1, ⟨c.Items ++ [⟨foundProduct, quantity⟩]⟩⟩

/-- The method `UpdateCartQuantity`. -/
def Cart.UpdateCartQuantity (foldEq : Char → Char → Bool) (c : Cart) (products : List Product)
    (productName : String) (newQuantity : GoInt) : CallResult :=
  if newQuantity < 0 then
    ⟨some .quantityNegative, products, c⟩
  else
    -- Find the item in cart
    match firstMatch (fun item => EqualFold foldEq item.Product.Name productName) c.Items with
    | none => ⟨some (.notFoundInCart productName), products, c⟩
    | some (cartItemIndex, cartItem) =>
      let currentQuantity := cartItem.Quantity
      let quantityDifference := newQuantity - currentQuantity
      -- Find product in products slice to check/update stock
      match firstMatch (fun product => product.ID == cartItem.Product.ID) products with
      | none => ⟨some (.notFoundInInventory productName), products, c⟩
      | some (productIndex, product) =>
        -- If increasing quantity, check if enough stock available
        if quantityDifference > 0 ∧ product.Stock < quantityDifference then
          ⟨some (.insufficientStockForIncrease productName product.Stock quantityDifference),
            products, c⟩
        else
          -- Update stock in products slice
          let products1 :=
            products.set productIndex { product with Stock := product.Stock - quantityDifference }
          -- Update cart
          if newQuantity = 0 then
            ⟨none, products1, ⟨c.Items.take cartItemIndex ++ c.Items.drop (cartItemIndex + 1)⟩⟩
          else
            ⟨none, products1, ⟨c.Items.set cartItemIndex { cartItem with Quantity := newQuantity }⟩⟩

/-- The loop that `RemoveFromCart` and `ClearCart` run to give stock back: the first product
with the given ID gets `quantity` more stock; a catalog without that ID is left as it is. -/
def restoreStock (products : List Product) (id : String) (quantity : GoInt) : List Product :=
  match firstMatch (fun product => product.ID == id) products with
  | some (i, product) => products.set i { product with Stock := product.Stock + quantity }
  | none => products

/-- The method `RemoveFromCart`. -/
def Cart.RemoveFromCart (foldEq : Char → Char → Bool) (c : Cart) (products : List Product)
    (productName : String) (quantity : GoInt) : CallResult :=
  if quantity ≤ 0 then
    ⟨some .quantityNotPositive, products, c⟩
  else
    -- Find the item in cart
    match firstMatch (fun item => EqualFold foldEq item.Product.Name productName) c.Items with
    | none => ⟨some (.notFoundInCart productName), products, c⟩
    | some (cartItemIndex, cartItem) =>
      if cartItem.Quantity < quantity then
        ⟨some (.cannotRemove quantity cartItem.Quantity), products, c⟩
      else
        -- Find product in products slice to restore stock
        let products1 := restoreStock products cartItem.Product.ID quantity
        -- Update cart
        if cartItem.Quantity = quantity then
          ⟨none, products1, ⟨c.Items.take cartItemIndex ++ c.Items.drop (cartItemIndex + 1)⟩⟩
        else
          ⟨none, products1,
            ⟨c.Items.set cartItemIndex { cartItem with Quantity := cartItem.Quantity - quantity }⟩⟩

/-- The method `GetCartItemCount`. -/
def Cart.GetCartItemCount (c : Cart) : GoInt :=
  c.Items.foldl (fun count item => count + item.Quantity) 0

/-- The method `ClearCart`: stock is given back item by item, then the cart is emptied.
The Go method returns nothing, so the result is the catalog and the cart. -/
def Cart.ClearCart (c : Cart) (products : List Product) : List Product × Cart :=
  (c.Items.foldl (fun ps item => restoreStock ps item.Product.ID item.Quantity) products, ⟨[]⟩)

/-! ## tools/search.go -/

/-- The loop of `SearchProducts` over the products not yet visited, `results` being the slice
built so far. -/
def searchLoop (lower : Char → Char) (name category : String) (limit : Int) :
    List Product → List Product → List Product
  | [], results => results
  | product :: rest, results =>
    -- Check if we have reached the limit
    if limit > 0 ∧ (results.length : Int) ≥ limit then results
    else
      let productName := ToLower lower product.Name
      let productCategory := ToLower lower product.Category
      let nameMatch := name == "" || Contains productName (ToLower lower name)
      let categoryMatch := category == "" || productCategory == ToLower lower category
      if nameMatch && categoryMatch then
        searchLoop lower name category limit rest (results ++ [product])
      else
        searchLoop lower name category limit rest results

/-- The function `SearchProducts`. -/
def SearchProducts (lower : Char → Char) (products : List Product) (name category : String)
    (limit : Int) : List Product :=
  searchLoop lower name category limit products []

/-! ## The vocabulary of the specification -/

/-- The specification's `sum(item.Quantity for item in Cart where item.Product.ID == id)`,
a sum of integers. -/
def cartQuantity (items : List CartItem) (id : String) : Int :=
  ((items.filter (fun item => item.Product.ID == id)).map (fun item => item.Quantity.val)).sum

/-- The product IDs of a catalog, in catalog order. -/
def catalogIDs (products : List Product) : List String :=
  products.map (fun p => p.ID)

/-- A call of one of the four mutating cart operations, with its arguments. -/
inductive CartOp where
  | add (productName : String) (quantity : GoInt)
  | update (productName : String) (newQuantity : GoInt)
  | remove (productName : String) (quantity : GoInt)
  | clear
deriving DecidableEq, Repr

/-- The catalog and the cart after one call, whether or not the call returned an error. -/
def CartOp.apply (foldEq : Char → Char → Bool) (op : CartOp) (s : List Product × Cart) :
    List Product × Cart :=
  match op with
  | .add n q => let r := s.2.AddToCart foldEq s.1 n q; (r.products, r.cart)
  | .update n q => let r := s.2.UpdateCartQuantity foldEq s.1 n q; (r.products, r.cart)
  | .remove n q => let r := s.2.RemoveFromCart foldEq s.1 n q; (r.products, r.cart)
  | .clear => s.2.ClearCart s.1

/-- The catalog and the cart after a sequence of calls, made from left to right. -/
def runOps (foldEq : Char → Char → Bool) (ops : List CartOp) (s : List Product × Cart) :
    List Product × Cart :=
  ops.foldl (fun st op => op.apply foldEq st) s

/-- The catalog of the specification's scenario: one product, "Dune". -/
def duneCatalog : List Product :=
  [⟨"b1", "Dune", "", price15, "books", 10⟩]

/-- The specification's "first": `x` is the element at index `i` of `l`, it satisfies `p`, and
no element before index `i` does. -/
def IsFirst {α : Type} (p : α → Bool) (l : List α) (i : Nat) (x : α) : Prop :=
  l[i]? = some x ∧ p x = true ∧ ∀ y ∈ l.take i, p y = false

instance instDecidableIsFirst {α : Type} [DecidableEq α] (p : α → Bool) (l : List α) (i : Nat)
    (x : α) : Decidable (IsFirst p l i x) :=
  inferInstanceAs (Decidable (l[i]? = some x ∧ p x = true ∧ ∀ y ∈ l.take i, p y = false))

/-- The catalog `ps2` has, at the indices of `ps1`, products with the same IDs, and for each of
them the stock plus the cart's quantity for its ID is the same in (`ps2`, `items2`) as in
(`ps1`, `items1`). -/
def SameBalance (ps1 : List Product) (items1 : List CartItem) (ps2 : List Product)
    (items2 : List CartItem) : Prop :=
  ps2.length = ps1.length
  ∧ ∀ (j : Nat) (p : Product), ps1[j]? = some p →
      ∃ p2, ps2[j]? = some p2 ∧ p2.ID = p.ID
        ∧ p2.Stock.val + cartQuantity items2 p.ID = p.Stock.val + cartQuantity items1 p.ID

/-- The filter of the specification's product search: the name asked for is empty or the
lowercased `Name` contains it, lowercased, as a substring; and the category asked for is empty
or the lowercased `Category` equals it, lowercased. -/
def searchMatches (lower : Char → Char) (name category : String) (p : Product) : Bool :=
  (name == "" || decide ((ToLower lower name).data <:+: (ToLower lower p.Name).data))
    && (category == "" || ToLower lower p.Category == ToLower lower category)

/-- The reference definition of the specification's product search: the matching products in
catalog order, cut to the first `limit` when `limit > 0`. -/
def SearchReference (lower : Char → Char) (products : List Product) (name category : String)
    (limit : Int) : List Product :=
  if limit > 0 then (products.filter (searchMatches lower name category)).take limit.toNat
  else products.filter (searchMatches lower name category)

/-! ## main.go: the handlers of the tool calls -/

/-- The JSON object of arguments of an `add_to_cart` tool call: a key the object does not have
is `none`. -/
structure AddToCartArgs where
  product_name : Option String
  quantity : Option GoInt
deriving DecidableEq, Repr

/-- The JSON object of arguments of a `search_products` tool call: a key the object does not
have is `none`. -/
structure SearchProductsArgs where
  query : Option String
  category : Option String
  limit : Option Int
deriving DecidableEq, Repr

/-- The `case "add_to_cart"` of the loop over the tool calls in `main`.  `json.Unmarshal` into
`struct { ProductName string; Quantity int }` leaves a field whose key is missing at Go's zero
value; the branch that prints "Invalid quantity for adding to cart" touches neither the
catalog nor the cart. -/
def toolCallAddToCart (foldEq : Char → Char → Bool) (c : Cart) (products : List Product)
    (arguments : AddToCartArgs) : List Product × Cart :=
  let argsProductName := arguments.product_name.getD ""
  let argsQuantity := arguments.quantity.getD 0
  if argsQuantity ≤ 0 then
    (products, c)
  else
    let r := c.AddToCart foldEq products argsProductName argsQuantity
    (r.products, r.cart)

/-- The `case "search_products"` of the loop over the tool calls in `main`: the `results` that
are printed and sent back.  `json.Unmarshal` into
`struct { Query string; Category string; Limit int }` leaves a field whose key is missing at
Go's zero value. -/
def toolCallSearchProducts (lower : Char → Char) (products : List Product)
    (arguments : SearchProductsArgs) : List Product :=
  SearchProducts lower products (arguments.query.getD "") (arguments.category.getD "")
    (arguments.limit.getD 0)

/-- A catalog of eleven books in stock. -/
def elevenBooks : List Product :=
  [⟨"b01", "Dune", "", price15, "books", 10⟩, ⟨"b02", "Emma", "", price15, "books", 4⟩,
   ⟨"b03", "Ulysses", "", price15, "books", 2⟩, ⟨"b04", "Walden", "", price15, "books", 5⟩,
   ⟨"b05", "Beloved", "", price15, "books", 3⟩, ⟨"b06", "Hamlet", "", price15, "books", 6⟩,
   ⟨"b07", "Ivanhoe", "", price15, "books", 1⟩, ⟨"b08", "Solaris", "", price15, "books", 8⟩,
   ⟨"b09", "Persuasion", "", price15, "books", 2⟩, ⟨"b10", "Candide", "", price15, "books", 7⟩,
   ⟨"b11", "Dracula", "", price15, "books", 9⟩]

/-- The product IDs of the items of a cart, in cart order. -/
def cartIDs (items : List CartItem) : List String :=
  items.map (fun item => item.Product.ID)

/-- A state without room for a wrap: the catalog has pairwise distinct IDs, every item of the
cart has a positive quantity, and for every catalog product the stock plus the cart's quantity
for its ID is at most the largest `int`. -/
def NoWrapState (s : List Product × Cart) : Prop :=
  (catalogIDs s.1).Nodup
  ∧ (∀ I ∈ s.2.Items, 0 < I.Quantity)
  ∧ ∀ p ∈ s.1, p.Stock.val + cartQuantity s.2.Items p.ID ≤ maxInt.val

/-! ## Lemmas on Go's numbers -/

theorem wrap_of_representable (x : Int) (h : Representable x) : wrap x = x := by
  unfold Representable at h
  unfold wrap
  omega

theorem wrap_wrap_add (x y : Int) : wrap (wrap x + y) = wrap (x + y) := by
  unfold wrap
  omega

theorem GoInt.ext {a b : GoInt} (h : a.val = b.val) : a = b := by
  cases a
  cases b
  simp_all

theorem GoInt.representable (a : GoInt) : Representable a.val := a.inRange

theorem GoInt.val_ofInt (x : Int) : (GoInt.ofInt x).val = wrap x := rfl

theorem GoInt.val_zero : (0 : GoInt).val = 0 := rfl

theorem GoInt.val_one : (1 : GoInt).val = 1 := rfl

theorem GoInt.val_add (a b : GoInt) : (a + b).val = wrap (a.val + b.val) := rfl

theorem GoInt.val_sub (a b : GoInt) : (a - b).val = wrap (a.val - b.val) := rfl

theorem GoInt.le_iff (a b : GoInt) : a ≤ b ↔ a.val ≤ b.val := Iff.rfl

theorem GoInt.lt_iff (a b : GoInt) : a < b ↔ a.val < b.val := Iff.rfl

theorem GoInt.pos_iff (a : GoInt) : 0 < a ↔ 0 < a.val := Iff.rfl

theorem GoInt.nonneg_iff (a : GoInt) : 0 ≤ a ↔ 0 ≤ a.val := Iff.rfl

/-- A sum that fits is the sum. -/
theorem GoInt.val_add_of_fits (a b : GoInt) (h : Representable (a.val + b.val)) :
    (a + b).val = a.val + b.val := by
  rw [GoInt.val_add, wrap_of_representable _ h]

/-- A difference that fits is the difference. -/
theorem GoInt.val_sub_of_fits (a b : GoInt) (h : Representable (a.val - b.val)) :
    (a - b).val = a.val - b.val := by
  rw [GoInt.val_sub, wrap_of_representable _ h]

/-- Taking a positive amount that is at most `a` from `a` does not wrap. -/
theorem GoInt.val_sub_of_le (a b : GoInt) (hb : 0 < b) (hba : b ≤ a) :
    (a - b).val = a.val - b.val := by
  apply GoInt.val_sub_of_fits
  have h1 : (0 : Int) < b.val := hb
  have h2 : b.val ≤ a.val := hba
  have := a.inRange
  have := b.inRange
  unfold Representable
  omega

/-! ## Lemmas on the loops -/

theorem firstMatch_eq_none_iff {α : Type} (p : α → Bool) (l : List α) :
    firstMatch p l = none ↔ ∀ x ∈ l, p x = false := by
  induction l with
  | nil => simp [firstMatch]
  | cons a l ih =>
    by_cases ha : p a = true
    · simp [firstMatch, ha]
    · have ha' : p a = false := by simpa using ha
      cases hm : firstMatch p l with
      | none => simpa [firstMatch, ha', hm] using ih.mp hm
      | some r =>
        have hne : ¬ ∀ x ∈ l, p x = false := fun h => by simp [ih.mpr h] at hm
        simpa [firstMatch, ha', hm] using hne

theorem firstMatch_eq_some_iff {α : Type} (p : α → Bool) (l : List α) (i : Nat) (x : α) :
    firstMatch p l = some (i, x) ↔ IsFirst p l i x := by
  induction l generalizing i with
  | nil => simp [firstMatch, IsFirst]
  | cons a l ih =>
    by_cases ha : p a = true
    · cases i with
      | zero =>
        simp only [firstMatch, ha, if_true, IsFirst]
        constructor
        · intro h
          simp only [Option.some.injEq, Prod.mk.injEq, true_and] at h
          subst h
          simp [ha]
        · rintro ⟨h, -, -⟩
          simp only [List.getElem?_cons_zero, Option.some.injEq] at h
          simp [h]
      | succ n =>
        simp only [firstMatch, ha, if_true, IsFirst]
        constructor
        · intro h
          simp at h
        · rintro ⟨-, -, h⟩
          have := h a (by simp)
          simp [ha] at this
    · have ha' : p a = false := by simpa using ha
      cases i with
      | zero =>
        simp only [firstMatch, ha', IsFirst]
        constructor
        · intro h
          cases hm : firstMatch p l with
          | none => simp [hm] at h
          | some r => obtain ⟨k, y⟩ := r; simp [hm] at h
        · rintro ⟨h, hx, -⟩
          simp only [List.getElem?_cons_zero, Option.some.injEq] at h
          subst h
          simp [ha'] at hx
      | succ n =>
        have ih' := ih n
        simp only [IsFirst] at ih' ⊢
        simp only [firstMatch, ha', List.getElem?_cons_succ, List.take_succ_cons,
          List.mem_cons, forall_eq_or_imp, true_and]
        rw [← ih']
        cases hm : firstMatch p l with
        | none => simp
        | some r => obtain ⟨k, y⟩ := r; simp

/-! ## Effects of `List.set` and of deleting one element, index by index -/

theorem getElem?_take_append_drop_succ {α : Type} (l : List α) (k j : Nat) :
    (l.take k ++ l.drop (k + 1))[j]? = if j < k then l[j]? else l[j + 1]? := by
  rw [← List.eraseIdx_eq_take_drop_succ, List.getElem?_eraseIdx]

theorem length_take_append_drop_succ {α : Type} (l : List α) (k : Nat) (hk : k < l.length) :
    (l.take k ++ l.drop (k + 1)).length + 1 = l.length := by
  simp only [List.length_append, List.length_take, List.length_drop]
  omega

/-! ## The three branches in which `AddToCart` returns an error, and the two in which it
does not -/

theorem AddToCart_nonpos (foldEq : Char → Char → Bool) (c : Cart) (products : List Product)
    (productName : String) (q : GoInt) (hq : q ≤ 0) :
    c.AddToCart foldEq products productName q = ⟨some .quantityNotPositive, products, c⟩ := by
  simp [Cart.AddToCart, hq]

theorem AddToCart_noMatch (foldEq : Char → Char → Bool) (c : Cart) (products : List Product)
    (productName : String) (q : GoInt) (hq : 0 < q)
    (hno : ∀ p ∈ products, EqualFold foldEq p.Name productName = false) :
    c.AddToCart foldEq products productName q
      = ⟨some (.productNotFound productName), products, c⟩ := by
  have h := (firstMatch_eq_none_iff (fun p : Product => EqualFold foldEq p.Name productName)
    products).mpr hno
  simp [Cart.AddToCart, not_le.mpr hq, h]

theorem AddToCart_short (foldEq : Char → Char → Bool) (c : Cart) (products : List Product)
    (productName : String) (q : GoInt) (i : Nat) (P : Product) (hq : 0 < q)
    (hP : IsFirst (fun p : Product => EqualFold foldEq p.Name productName) products i P)
    (hstock : P.Stock < q) :
    c.AddToCart foldEq products productName q
      = ⟨some (.insufficientStock productName P.Stock q), products, c⟩ := by
  have h := (firstMatch_eq_some_iff _ _ _ _).mpr hP
  simp [Cart.AddToCart, not_le.mpr hq, h, hstock]

theorem AddToCart_merge (foldEq : Char → Char → Bool) (c : Cart) (products : List Product)
    (productName : String) (q : GoInt) (i : Nat) (P : Product) (k : Nat) (I : CartItem)
    (hq : 0 < q)
    (hP : IsFirst (fun p : Product => EqualFold foldEq p.Name productName) products i P)
    (hstock : q ≤ P.Stock)
    (hI : IsFirst (fun item : CartItem => item.Product.ID == P.ID) c.Items k I) :
    c.AddToCart foldEq products productName q
      = ⟨none, products.set i { P with Stock := P.Stock - q },
          ⟨c.Items.set k { I with Quantity := I.Quantity + q }⟩⟩ := by
  have h := (firstMatch_eq_some_iff _ _ _ _).mpr hP
  have h2 := (firstMatch_eq_some_iff _ _ _ _).mpr hI
  simp [Cart.AddToCart, not_le.mpr hq, h, not_lt.mpr hstock, h2]

theorem AddToCart_append (foldEq : Char → Char → Bool) (c : Cart) (products : List Product)
    (productName : String) (q : GoInt) (i : Nat) (P : Product)
    (hq : 0 < q)
    (hP : IsFirst (fun p : Product => EqualFold foldEq p.Name productName) products i P)
    (hstock : q ≤ P.Stock)
    (hno : ∀ I ∈ c.Items, (I.Product.ID == P.ID) = false) :
    c.AddToCart foldEq products productName q
      = ⟨none, products.set i { P with Stock := P.Stock - q },
          ⟨c.Items ++ [⟨P, q⟩]⟩⟩ := by
  have h := (firstMatch_eq_some_iff _ _ _ _).mpr hP
  have h2 := (firstMatch_eq_none_iff (fun item : CartItem => item.Product.ID == P.ID)
    c.Items).mpr hno
  simp [Cart.AddToCart, not_le.mpr hq, h, not_lt.mpr hstock, h2]

/-- Every list either has a first element satisfying `p` or has none at all. -/
theorem first_or_none {α : Type} (p : α → Bool) (l : List α) :
    (∃ i x, IsFirst p l i x) ∨ ∀ x ∈ l, p x = false := by
  cases h : firstMatch p l with
  | none => exact Or.inr ((firstMatch_eq_none_iff p l).mp h)
  | some r => exact Or.inl ⟨r.1, r.2, (firstMatch_eq_some_iff p l r.1 r.2).mp h⟩

theorem IsFirst.not_none {α : Type} {p : α → Bool} {l : List α} {i : Nat} {x : α}
    (h : IsFirst p l i x) : ¬ ∀ y ∈ l, p y = false := by
  intro hno
  have := hno x (List.getElem?_mem h.1)
  rw [h.2.1] at this
  exact Bool.noConfusion this

theorem IsFirst.unique {α : Type} {p : α → Bool} {l : List α} {i j : Nat} {x y : α}
    (h : IsFirst p l i x) (h2 : IsFirst p l j y) : i = j ∧ x = y := by
  have a := (firstMatch_eq_some_iff p l i x).mpr h
  have b := (firstMatch_eq_some_iff p l j y).mpr h2
  rw [a] at b
  simpa using b

/-! ## The branches of `UpdateCartQuantity` -/

theorem UpdateCartQuantity_negative (foldEq : Char → Char → Bool) (c : Cart)
    (products : List Product) (productName : String) (n : GoInt) (hn : n < 0) :
    c.UpdateCartQuantity foldEq products productName n
      = ⟨some .quantityNegative, products, c⟩ := by
  simp [Cart.UpdateCartQuantity, hn]

theorem UpdateCartQuantity_noItem (foldEq : Char → Char → Bool) (c : Cart)
    (products : List Product) (productName : String) (n : GoInt) (hn : 0 ≤ n)
    (hno : ∀ I ∈ c.Items, EqualFold foldEq I.Product.Name productName = false) :
    c.UpdateCartQuantity foldEq products productName n
      = ⟨some (.notFoundInCart productName), products, c⟩ := by
  have h := (firstMatch_eq_none_iff
    (fun I : CartItem => EqualFold foldEq I.Product.Name productName) c.Items).mpr hno
  simp [Cart.UpdateCartQuantity, not_lt.mpr hn, h]

theorem UpdateCartQuantity_noProduct (foldEq : Char → Char → Bool) (c : Cart)
    (products : List Product) (productName : String) (n : GoInt) (k : Nat) (I : CartItem)
    (hn : 0 ≤ n)
    (hI : IsFirst (fun J : CartItem => EqualFold foldEq J.Product.Name productName) c.Items k I)
    (hno : ∀ p ∈ products, (p.ID == I.Product.ID) = false) :
    c.UpdateCartQuantity foldEq products productName n
      = ⟨some (.notFoundInInventory productName), products, c⟩ := by
  have h := (firstMatch_eq_some_iff _ _ _ _).mpr hI
  have h2 := (firstMatch_eq_none_iff (fun p : Product => p.ID == I.Product.ID)
    products).mpr hno
  simp [Cart.UpdateCartQuantity, not_lt.mpr hn, h, h2]

theorem UpdateCartQuantity_short (foldEq : Char → Char → Bool) (c : Cart)
    (products : List Product) (productName : String) (n : GoInt) (k : Nat) (I : CartItem)
    (i : Nat) (P : Product) (hn : 0 ≤ n)
    (hI : IsFirst (fun J : CartItem => EqualFold foldEq J.Product.Name productName) c.Items k I)
    (hP : IsFirst (fun p : Product => p.ID == I.Product.ID) products i P)
    (hpos : 0 < n - I.Quantity) (hstock : P.Stock < n - I.Quantity) :
    c.UpdateCartQuantity foldEq products productName n
      = ⟨some (.insufficientStockForIncrease productName P.Stock (n - I.Quantity)),
          products, c⟩ := by
  have h := (firstMatch_eq_some_iff _ _ _ _).mpr hI
  have h2 := (firstMatch_eq_some_iff _ _ _ _).mpr hP
  simp [Cart.UpdateCartQuantity, not_lt.mpr hn, h, h2, hpos, hstock]

theorem UpdateCartQuantity_zero (foldEq : Char → Char → Bool) (c : Cart)
    (products : List Product) (productName : String) (k : Nat) (I : CartItem)
    (i : Nat) (P : Product)
    (hI : IsFirst (fun J : CartItem => EqualFold foldEq J.Product.Name productName) c.Items k I)
    (hP : IsFirst (fun p : Product => p.ID == I.Product.ID) products i P)
    (hok : 0 - I.Quantity ≤ 0 ∨ 0 - I.Quantity ≤ P.Stock) :
    c.UpdateCartQuantity foldEq products productName 0
      = ⟨none, products.set i { P with Stock := P.Stock - (0 - I.Quantity) },
          ⟨c.Items.take k ++ c.Items.drop (k + 1)⟩⟩ := by
  have h := (firstMatch_eq_some_iff _ _ _ _).mpr hI
  have h2 := (firstMatch_eq_some_iff _ _ _ _).mpr hP
  have h3 : ¬ (0 < 0 - I.Quantity ∧ P.Stock < 0 - I.Quantity) := fun h =>
    hok.elim (fun h1 => absurd h.1 (not_lt.mpr h1)) (fun h2 => absurd h.2 (not_lt.mpr h2))
  simp only [Cart.UpdateCartQuantity, lt_irrefl, if_false, h, h2, gt_iff_lt, h3, if_true]

theorem UpdateCartQuantity_set (foldEq : Char → Char → Bool) (c : Cart)
    (products : List Product) (productName : String) (n : GoInt) (k : Nat) (I : CartItem)
    (i : Nat) (P : Product) (hn : 0 < n)
    (hI : IsFirst (fun J : CartItem => EqualFold foldEq J.Product.Name productName) c.Items k I)
    (hP : IsFirst (fun p : Product => p.ID == I.Product.ID) products i P)
    (hok : n - I.Quantity ≤ 0 ∨ n - I.Quantity ≤ P.Stock) :
    c.UpdateCartQuantity foldEq products productName n
      = ⟨none, products.set i { P with Stock := P.Stock - (n - I.Quantity) },
          ⟨c.Items.set k { I with Quantity := n }⟩⟩ := by
  have h := (firstMatch_eq_some_iff _ _ _ _).mpr hI
  have h2 := (firstMatch_eq_some_iff _ _ _ _).mpr hP
  have h3 : ¬ (0 < n - I.Quantity ∧ P.Stock < n - I.Quantity) := fun h =>
    hok.elim (fun h1 => absurd h.1 (not_lt.mpr h1)) (fun h2 => absurd h.2 (not_lt.mpr h2))
  have h4 : ¬ n < 0 := not_lt.mpr (le_of_lt hn)
  have h5 : ¬ n = 0 := ne_of_gt hn
  simp only [Cart.UpdateCartQuantity, h4, if_false, h, h2, gt_iff_lt, h3, h5]

/-! ## The stock-restoring loop and the branches of `RemoveFromCart` -/

theorem restoreStock_first (products : List Product) (id : String) (q : GoInt) (i : Nat)
    (P : Product) (hP : IsFirst (fun p : Product => p.ID == id) products i P) :
    restoreStock products id q = products.set i { P with Stock := P.Stock + q } := by
  have h := (firstMatch_eq_some_iff _ _ _ _).mpr hP
  simp [restoreStock, h]

theorem restoreStock_none (products : List Product) (id : String) (q : GoInt)
    (hno : ∀ p ∈ products, (p.ID == id) = false) :
    restoreStock products id q = products := by
  have h := (firstMatch_eq_none_iff (fun p : Product => p.ID == id) products).mpr hno
  simp [restoreStock, h]

theorem RemoveFromCart_nonpos (foldEq : Char → Char → Bool) (c : Cart)
    (products : List Product) (productName : String) (q : GoInt) (hq : q ≤ 0) :
    c.RemoveFromCart foldEq products productName q
      = ⟨some .quantityNotPositive, products, c⟩ := by
  simp [Cart.RemoveFromCart, hq]

theorem RemoveFromCart_noItem (foldEq : Char → Char → Bool) (c : Cart)
    (products : List Product) (productName : String) (q : GoInt) (hq : 0 < q)
    (hno : ∀ I ∈ c.Items, EqualFold foldEq I.Product.Name productName = false) :
    c.RemoveFromCart foldEq products productName q
      = ⟨some (.notFoundInCart productName), products, c⟩ := by
  have h := (firstMatch_eq_none_iff
    (fun I : CartItem => EqualFold foldEq I.Product.Name productName) c.Items).mpr hno
  simp [Cart.RemoveFromCart, not_le.mpr hq, h]

theorem RemoveFromCart_tooMany (foldEq : Char → Char → Bool) (c : Cart)
    (products : List Product) (productName : String) (q : GoInt) (k : Nat) (I : CartItem)
    (hq : 0 < q)
    (hI : IsFirst (fun J : CartItem => EqualFold foldEq J.Product.Name productName) c.Items k I)
    (hlt : I.Quantity < q) :
    c.RemoveFromCart foldEq products productName q
      = ⟨some (.cannotRemove q I.Quantity), products, c⟩ := by
  have h := (firstMatch_eq_some_iff _ _ _ _).mpr hI
  simp [Cart.RemoveFromCart, not_le.mpr hq, h, hlt]

theorem RemoveFromCart_all (foldEq : Char → Char → Bool) (c : Cart)
    (products : List Product) (productName : String) (q : GoInt) (k : Nat) (I : CartItem)
    (hq : 0 < q)
    (hI : IsFirst (fun J : CartItem => EqualFold foldEq J.Product.Name productName) c.Items k I)
    (heq : I.Quantity = q) :
    c.RemoveFromCart foldEq products productName q
      = ⟨none, restoreStock products I.Product.ID q,
          ⟨c.Items.take k ++ c.Items.drop (k + 1)⟩⟩ := by
  have h := (firstMatch_eq_some_iff _ _ _ _).mpr hI
  simp [Cart.RemoveFromCart, not_le.mpr hq, h, heq]

theorem RemoveFromCart_some (foldEq : Char → Char → Bool) (c : Cart)
    (products : List Product) (productName : String) (q : GoInt) (k : Nat) (I : CartItem)
    (hq : 0 < q)
    (hI : IsFirst (fun J : CartItem => EqualFold foldEq J.Product.Name productName) c.Items k I)
    (hlt : q < I.Quantity) :
    c.RemoveFromCart foldEq products productName q
      = ⟨none, restoreStock products I.Product.ID q,
          ⟨c.Items.set k { I with Quantity := I.Quantity - q }⟩⟩ := by
  have h := (firstMatch_eq_some_iff _ _ _ _).mpr hI
  have h1 : ¬ I.Quantity < q := not_lt.mpr (le_of_lt hlt)
  have h2 : ¬ I.Quantity = q := ne_of_gt hlt
  simp [Cart.RemoveFromCart, not_le.mpr hq, h, h1, h2]

/-! ## Failure leaves the state alone -/

theorem AddToCart_err_unchanged (foldEq : Char → Char → Bool) (c : Cart)
    (products : List Product) (productName : String) (q : GoInt)
    (herr : (c.AddToCart foldEq products productName q).err ≠ none) :
    (c.AddToCart foldEq products productName q).products = products
      ∧ (c.AddToCart foldEq products productName q).cart = c := by
  by_cases hq : q ≤ 0
  · rw [AddToCart_nonpos foldEq c products productName q hq]
    exact ⟨rfl, rfl⟩
  · have hq' : 0 < q := not_le.mp hq
    rcases first_or_none (fun p : Product => EqualFold foldEq p.Name productName) products
      with ⟨i, P, hP⟩ | hno
    · by_cases hs : P.Stock < q
      · rw [AddToCart_short foldEq c products productName q i P hq' hP hs]
        exact ⟨rfl, rfl⟩
      · exfalso
        apply herr
        rcases first_or_none (fun item : CartItem => item.Product.ID == P.ID) c.Items
          with ⟨k, I, hI⟩ | hnoI
        · rw [AddToCart_merge foldEq c products productName q i P k I hq' hP (not_lt.mp hs) hI]
        · rw [AddToCart_append foldEq c products productName q i P hq' hP (not_lt.mp hs) hnoI]
    · rw [AddToCart_noMatch foldEq c products productName q hq' hno]
      exact ⟨rfl, rfl⟩

theorem UpdateCartQuantity_err_unchanged (foldEq : Char → Char → Bool) (c : Cart)
    (products : List Product) (productName : String) (n : GoInt)
    (herr : (c.UpdateCartQuantity foldEq products productName n).err ≠ none) :
    (c.UpdateCartQuantity foldEq products productName n).products = products
      ∧ (c.UpdateCartQuantity foldEq products productName n).cart = c := by
  by_cases hn : n < 0
  · rw [UpdateCartQuantity_negative foldEq c products productName n hn]
    exact ⟨rfl, rfl⟩
  · have hn' : 0 ≤ n := not_lt.mp hn
    rcases first_or_none (fun J : CartItem => EqualFold foldEq J.Product.Name productName)
      c.Items with ⟨k, I, hI⟩ | hnoI
    · rcases first_or_none (fun p : Product => p.ID == I.Product.ID) products
        with ⟨i, P, hP⟩ | hnoP
      · by_cases hs : 0 < n - I.Quantity ∧ P.Stock < n - I.Quantity
        · rw [UpdateCartQuantity_short foldEq c products productName n k I i P hn' hI hP
            hs.1 hs.2]
          exact ⟨rfl, rfl⟩
        · exfalso
          apply herr
          have hok : n - I.Quantity ≤ 0 ∨ n - I.Quantity ≤ P.Stock := by
            by_cases h1 : 0 < n - I.Quantity
            · exact Or.inr (not_lt.mp (fun h2 => hs ⟨h1, h2⟩))
            · exact Or.inl (not_lt.mp h1)
          by_cases h0 : n = 0
          · subst h0
            rw [UpdateCartQuantity_zero foldEq c products productName k I i P hI hP hok]
          · rw [UpdateCartQuantity_set foldEq c products productName n k I i P
              (lt_of_le_of_ne hn' (Ne.symm h0)) hI hP hok]
      · rw [UpdateCartQuantity_noProduct foldEq c products productName n k I hn' hI hnoP]
        exact ⟨rfl, rfl⟩
    · rw [UpdateCartQuantity_noItem foldEq c products productName n hn' hnoI]
      exact ⟨rfl, rfl⟩

theorem RemoveFromCart_err_unchanged (foldEq : Char → Char → Bool) (c : Cart)
    (products : List Product) (productName : String) (q : GoInt)
    (herr : (c.RemoveFromCart foldEq products productName q).err ≠ none) :
    (c.RemoveFromCart foldEq products productName q).products = products
      ∧ (c.RemoveFromCart foldEq products productName q).cart = c := by
  by_cases hq : q ≤ 0
  · rw [RemoveFromCart_nonpos foldEq c products productName q hq]
    exact ⟨rfl, rfl⟩
  · have hq' : 0 < q := not_le.mp hq
    rcases first_or_none (fun J : CartItem => EqualFold foldEq J.Product.Name productName)
      c.Items with ⟨k, I, hI⟩ | hnoI
    · by_cases hs : I.Quantity < q
      · rw [RemoveFromCart_tooMany foldEq c products productName q k I hq' hI hs]
        exact ⟨rfl, rfl⟩
      · exfalso
        apply herr
        by_cases he : I.Quantity = q
        · rw [RemoveFromCart_all foldEq c products productName q k I hq' hI he]
        · rw [RemoveFromCart_some foldEq c products productName q k I hq' hI
            (lt_of_le_of_ne (not_lt.mp hs) (Ne.symm he))]
    · rw [RemoveFromCart_noItem foldEq c products productName q hq' hnoI]
      exact ⟨rfl, rfl⟩

/-- C2. Atomicity on failure: when `AddToCart`, `UpdateCartQuantity` or `RemoveFromCart`
returns an error, the cart and the whole catalog (every product, its `Stock` included) are
what they were before the call. -/
theorem failure_changes_nothing (foldEq : Char → Char → Bool) (c : Cart)
    (products : List Product) (productName : String) (q : GoInt) (r : CallResult)
    (hr : r = c.AddToCart foldEq products productName q
      ∨ r = c.UpdateCartQuantity foldEq products productName q
      ∨ r = c.RemoveFromCart foldEq products productName q)
    (herr : r.err ≠ none) :
    r.cart.Items = c.Items ∧ r.products = products := by
  rcases hr with rfl | rfl | rfl
  · have h := AddToCart_err_unchanged foldEq c products productName q herr
    exact ⟨by rw [h.2], h.1⟩
  · have h := UpdateCartQuantity_err_unchanged foldEq c products productName q herr
    exact ⟨by rw [h.2], h.1⟩
  · have h := RemoveFromCart_err_unchanged foldEq c products productName q herr
    exact ⟨by rw [h.2], h.1⟩

/-- An instance of C2: asking for 11 copies of "Dune" when 10 are in stock fails and changes
neither the cart nor the catalog. -/
theorem failure_changes_nothing_witness :
    (NewCart.AddToCart asciiFoldEq duneCatalog "Dune" 11).err ≠ none
      ∧ (NewCart.AddToCart asciiFoldEq duneCatalog "Dune" 11).cart.Items = NewCart.Items
      ∧ (NewCart.AddToCart asciiFoldEq duneCatalog "Dune" 11).products = duneCatalog :=
  ⟨by decide,
    failure_changes_nothing asciiFoldEq NewCart duneCatalog "Dune" 11 _ (Or.inl rfl)
      (by decide)⟩


/-! ## `AddToCart` -/

theorem equalFoldRunes_length (foldEq : Char → Char → Bool) (s t : List Char)
    (h : equalFoldRunes foldEq s t = true) : s.length = t.length := by
  induction s generalizing t with
  | nil =>
    cases t with
    | nil => rfl
    | cons b t => simp [equalFoldRunes] at h
  | cons a s ih =>
    cases t with
    | nil => simp [equalFoldRunes] at h
    | cons b t =>
      simp only [equalFoldRunes, Bool.and_eq_true] at h
      simp [ih t h.2]

theorem AddToCart_err_none (foldEq : Char → Char → Bool) (c : Cart)
    (products : List Product) (productName : String) (q : GoInt) (i : Nat) (P : Product)
    (hq : 0 < q)
    (hP : IsFirst (fun p : Product => EqualFold foldEq p.Name productName) products i P)
    (hstock : q ≤ P.Stock) :
    (c.AddToCart foldEq products productName q).err = none := by
  rcases first_or_none (fun item : CartItem => item.Product.ID == P.ID) c.Items
    with ⟨k, I, hI⟩ | hnoI
  · rw [AddToCart_merge foldEq c products productName q i P k I hq hP hstock hI]
  · rw [AddToCart_append foldEq c products productName q i P hq hP hstock hnoI]
theorem stock_ok_of_not_short {d s : GoInt} (h : ¬ (0 < d ∧ s < d)) : d ≤ 0 ∨ d ≤ s := by
  by_cases h1 : 0 < d
  · exact Or.inr (not_lt.mp (fun h2 => h ⟨h1, h2⟩))
  · exact Or.inl (not_lt.mp h1)

theorem maxInt_val : maxInt.val = 9223372036854775807 := by decide

theorem minInt_val : minInt.val = -9223372036854775808 := by decide

/-- C3, the claim as stated fails: the cart holds the largest `int` of copies of "Dune" and
the catalog has one more in stock; `AddToCart("Dune", 1)` returns no error and the item's
quantity wraps around to the least `int` instead of being higher by 1. -/
theorem AddToCart_merge_wraps :
    ((Cart.mk [⟨⟨"b1", "Dune", "", price15, "books", 1⟩, maxInt⟩]).AddToCart asciiFoldEq
        [⟨"b1", "Dune", "", price15, "books", 1⟩] "Dune" 1).err = none
    ∧ ((Cart.mk [⟨⟨"b1", "Dune", "", price15, "books", 1⟩, maxInt⟩]).AddToCart asciiFoldEq
        [⟨"b1", "Dune", "", price15, "books", 1⟩] "Dune" 1).cart.Items
        = [⟨⟨"b1", "Dune", "", price15, "books", 1⟩, minInt⟩]
    ∧ minInt.val = -9223372036854775808
    ∧ maxInt.val + (1 : GoInt).val = 9223372036854775808 := by
  decide

/-- C3, amended. `AddToCart` success effect: with `q > 0` and `P`, at index `i`, the first
catalog product whose name equals `productName` under case folding, and `P.Stock >= q`, the
call returns no error; the catalog keeps its length, entry `i` is `P` with `Stock` lowered by
exactly `q` and every other entry is unchanged; if the cart has a first item `I` (at index
`k`) with `P`'s ID, the cart keeps its length, item `k` is `I` with `Quantity` the sum
`I.Quantity + q` of Go's `int`, which is higher by exactly `q` when `I.Quantity + q` does not
exceed the largest `int`, and every other item is unchanged; if the cart has no item with
`P`'s ID, the new cart is the old one followed by the item (`P` as it was before the call,
`q`). -/
theorem AddToCart_success_effect (foldEq : Char → Char → Bool) (c : Cart)
    (products : List Product) (productName : String) (q : GoInt) (i : Nat) (P : Product)
    (hq : 0 < q)
    (hP : IsFirst (fun p : Product => EqualFold foldEq p.Name productName) products i P)
    (hstock : q ≤ P.Stock) :
    (c.AddToCart foldEq products productName q).err = none
    ∧ (c.AddToCart foldEq products productName q).products.length = products.length
    ∧ (c.AddToCart foldEq products productName q).products[i]?
        = some { P with Stock := P.Stock - q }
    ∧ (P.Stock - q).val = P.Stock.val - q.val
    ∧ (∀ j, j ≠ i →
        (c.AddToCart foldEq products productName q).products[j]? = products[j]?)
    ∧ (∀ k I, IsFirst (fun item : CartItem => item.Product.ID == P.ID) c.Items k I →
        (c.AddToCart foldEq products productName q).cart.Items.length = c.Items.length
        ∧ (c.AddToCart foldEq products productName q).cart.Items[k]?
            = some { I with Quantity := I.Quantity + q }
        ∧ (I.Quantity.val + q.val ≤ maxInt.val →
            (I.Quantity + q).val = I.Quantity.val + q.val)
        ∧ ∀ j, j ≠ k →
            (c.AddToCart foldEq products productName q).cart.Items[j]? = c.Items[j]?)
    ∧ ((∀ I ∈ c.Items, I.Product.ID ≠ P.ID) →
        (c.AddToCart foldEq products productName q).cart.Items = c.Items ++ [⟨P, q⟩]) := by
  have hi : i < products.length := (List.getElem?_eq_some_iff.mp hP.1).1
  have hsub := GoInt.val_sub_of_le P.Stock q hq hstock
  rcases first_or_none (fun item : CartItem => item.Product.ID == P.ID) c.Items
    with ⟨k, I, hI⟩ | hnoI
  · have hk : k < c.Items.length := (List.getElem?_eq_some_iff.mp hI.1).1
    rw [AddToCart_merge foldEq c products productName q i P k I hq hP hstock hI]
    refine ⟨rfl, by simp, by simp [hi], hsub,
      fun j hj => by simp [List.getElem?_set_ne hj.symm], ?_, ?_⟩
    · intro k2 I2 hI2
      obtain ⟨rfl, rfl⟩ := hI.unique hI2
      refine ⟨by simp, by simp [hk], ?_, fun j hj => by simp [List.getElem?_set_ne hj.symm]⟩
      intro hfit
      apply GoInt.val_add_of_fits
      have hq0 : (0 : Int) < q.val := hq
      have := I.Quantity.inRange
      rw [maxInt_val] at hfit
      unfold Representable
      omega
    · intro hno
      exfalso
      have := hno I (List.getElem?_mem hI.1)
      have h2 := hI.2.1
      simp only [beq_iff_eq] at h2
      exact this h2
  · rw [AddToCart_append foldEq c products productName q i P hq hP hstock hnoI]
    refine ⟨rfl, by simp, by simp [hi], hsub,
      fun j hj => by simp [List.getElem?_set_ne hj.symm], ?_, fun _ => rfl⟩
    intro k I hI
    exact absurd hnoI hI.not_none

/-- An instance of C3 as amended: two copies of "dune" are added to a cart that holds three;
the item then holds five and the stock falls from seven to five. -/
theorem AddToCart_success_effect_witness :
    IsFirst (fun p : Product => EqualFold asciiFoldEq p.Name "dune")
        [⟨"b1", "Dune", "", price15, "books", 7⟩] 0 ⟨"b1", "Dune", "", price15, "books", 7⟩
    ∧ ((Cart.mk [⟨⟨"b1", "Dune", "", price15, "books", 10⟩, 3⟩]).AddToCart asciiFoldEq
        [⟨"b1", "Dune", "", price15, "books", 7⟩] "dune" 2).err = none
    ∧ ((Cart.mk [⟨⟨"b1", "Dune", "", price15, "books", 10⟩, 3⟩]).AddToCart asciiFoldEq
        [⟨"b1", "Dune", "", price15, "books", 7⟩] "dune" 2).products[0]?
        = some ⟨"b1", "Dune", "", price15, "books", 7 - 2⟩
    ∧ ((7 : GoInt) - 2).val = (7 : GoInt).val - (2 : GoInt).val :=
  ⟨by decide,
    (AddToCart_success_effect asciiFoldEq
      (Cart.mk [⟨⟨"b1", "Dune", "", price15, "books", 10⟩, 3⟩])
      [⟨"b1", "Dune", "", price15, "books", 7⟩] "dune" 2 0
      ⟨"b1", "Dune", "", price15, "books", 7⟩ (by decide) (by decide) (by decide)).1,
    (AddToCart_success_effect asciiFoldEq
      (Cart.mk [⟨⟨"b1", "Dune", "", price15, "books", 10⟩, 3⟩])
      [⟨"b1", "Dune", "", price15, "books", 7⟩] "dune" 2 0
      ⟨"b1", "Dune", "", price15, "books", 7⟩ (by decide) (by decide) (by decide)).2.2.1,
    (AddToCart_success_effect asciiFoldEq
      (Cart.mk [⟨⟨"b1", "Dune", "", price15, "books", 10⟩, 3⟩])
      [⟨"b1", "Dune", "", price15, "books", 7⟩] "dune" 2 0
      ⟨"b1", "Dune", "", price15, "books", 7⟩ (by decide) (by decide) (by decide)).2.2.2.1⟩

/-- C4. `AddToCart` returns an error exactly when (1) `quantity <= 0`, or (2) no catalog
product's name equals `productName` under case folding, or (3) the first such product has
`Stock < quantity`; the error is that of the first of these that holds: "quantity must be
greater than 0" of kind `InvalidQuantity` (whatever the catalog), then `ProductNotFound`, then
`InsufficientStock` with the stock and the request.  A product name that has `productName`
as a proper substring does not match it. -/
theorem AddToCart_fails_iff (foldEq : Char → Char → Bool) (c : Cart)
    (products : List Product) (productName : String) (q : GoInt) :
    ((c.AddToCart foldEq products productName q).err ≠ none ↔
      (q ≤ 0
        ∨ (∀ p ∈ products, EqualFold foldEq p.Name productName = false)
        ∨ ∃ i P, IsFirst (fun p : Product => EqualFold foldEq p.Name productName) products i P
            ∧ P.Stock < q))
    ∧ (q ≤ 0 →
        (c.AddToCart foldEq products productName q).err = some .quantityNotPositive
        ∧ (c.AddToCart foldEq products productName q).err.map CartError.kind
            = some .InvalidQuantity
        ∧ (c.AddToCart foldEq products productName q).err.map CartError.message
            = some "quantity must be greater than 0")
    ∧ (0 < q → (∀ p ∈ products, EqualFold foldEq p.Name productName = false) →
        (c.AddToCart foldEq products productName q).err
            = some (.productNotFound productName)
        ∧ (c.AddToCart foldEq products productName q).err.map CartError.kind
            = some .ProductNotFound)
    ∧ (0 < q → ∀ i P,
        IsFirst (fun p : Product => EqualFold foldEq p.Name productName) products i P →
        P.Stock < q →
        (c.AddToCart foldEq products productName q).err
            = some (.insufficientStock productName P.Stock q)
        ∧ (c.AddToCart foldEq products productName q).err.map CartError.kind
            = some .InsufficientStock)
    ∧ (∀ p ∈ products, ∀ before after : List Char,
        p.Name.data = before ++ productName.data ++ after → (before ≠ [] ∨ after ≠ []) →
        EqualFold foldEq p.Name productName = false) := by
  refine ⟨?_, ?_, ?_, ?_, ?_⟩
  · constructor
    · intro herr
      by_contra hcon
      simp only [not_or, not_le, not_exists, not_and, not_lt] at hcon
      obtain ⟨hq, hsome, hstock⟩ := hcon
      rcases first_or_none (fun p : Product => EqualFold foldEq p.Name productName) products
        with ⟨i, P, hP⟩ | hno
      · exact herr (AddToCart_err_none foldEq c products productName q i P hq hP
          (hstock i P hP))
      · exact hsome hno
    · rintro (hq | hno | ⟨i, P, hP, hs⟩)
      · rw [AddToCart_nonpos foldEq c products productName q hq]
        simp
      · by_cases hq : q ≤ 0
        · rw [AddToCart_nonpos foldEq c products productName q hq]
          simp
        · rw [AddToCart_noMatch foldEq c products productName q (not_le.mp hq) hno]
          simp
      · by_cases hq : q ≤ 0
        · rw [AddToCart_nonpos foldEq c products productName q hq]
          simp
        · rw [AddToCart_short foldEq c products productName q i P (not_le.mp hq) hP hs]
          simp
  · intro hq
    rw [AddToCart_nonpos foldEq c products productName q hq]
    exact ⟨rfl, rfl, rfl⟩
  · intro hq hno
    rw [AddToCart_noMatch foldEq c products productName q hq hno]
    exact ⟨rfl, rfl⟩
  · intro hq i P hP hs
    rw [AddToCart_short foldEq c products productName q i P hq hP hs]
    exact ⟨rfl, rfl⟩
  · intro p _ before after hdata hne
    cases hE : EqualFold foldEq p.Name productName with
    | false => rfl
    | true =>
      exfalso
      have hlen := equalFoldRunes_length foldEq _ _ hE
      rw [hdata] at hlen
      simp only [List.length_append] at hlen
      rcases hne with h | h
      · have := List.length_pos.mpr h
        omega
      · have := List.length_pos.mpr h
        omega

/-! ## `UpdateCartQuantity` -/

theorem UpdateCartQuantity_err_none (foldEq : Char → Char → Bool) (c : Cart)
    (products : List Product) (productName : String) (n : GoInt) (k : Nat) (I : CartItem)
    (i : Nat) (P : Product)
    (hn : 0 ≤ n)
    (hI : IsFirst (fun J : CartItem => EqualFold foldEq J.Product.Name productName) c.Items k I)
    (hP : IsFirst (fun p : Product => p.ID == I.Product.ID) products i P)
    (hok : n - I.Quantity ≤ 0 ∨ n - I.Quantity ≤ P.Stock) :
    (c.UpdateCartQuantity foldEq products productName n).err = none := by
  by_cases h0 : n = 0
  · subst h0
    rw [UpdateCartQuantity_zero foldEq c products productName k I i P hI hP hok]
  · rw [UpdateCartQuantity_set foldEq c products productName n k I i P
      (lt_of_le_of_ne hn (Ne.symm h0)) hI hP hok]

/-- The difference between a quantity that is not negative and a positive one does not
wrap. -/
theorem GoInt.val_sub_of_nonneg_of_pos (n x : GoInt) (hn : 0 ≤ n) (hx : 0 < x) :
    (n - x).val = n.val - x.val := by
  apply GoInt.val_sub_of_fits
  have h1 : (0 : Int) ≤ n.val := hn
  have h2 : (0 : Int) < x.val := hx
  have := n.inRange
  have := x.inRange
  unfold Representable
  omega

/-- C5, the claim as stated fails: the catalog has the largest `int` of copies of "Dune" in
stock and the cart holds five; `UpdateCartQuantity("Dune", 4)` returns no error and the stock
wraps around to the least `int` instead of being the old stock minus `delta = -1`. -/
theorem UpdateCartQuantity_stock_wraps :
    ((Cart.mk [⟨⟨"b1", "Dune", "", price15, "books", 10⟩, 5⟩]).UpdateCartQuantity asciiFoldEq
        [⟨"b1", "Dune", "", price15, "books", maxInt⟩] "Dune" 4).err = none
    ∧ ((Cart.mk [⟨⟨"b1", "Dune", "", price15, "books", 10⟩, 5⟩]).UpdateCartQuantity asciiFoldEq
        [⟨"b1", "Dune", "", price15, "books", maxInt⟩] "Dune" 4).products
        = [⟨"b1", "Dune", "", price15, "books", minInt⟩]
    ∧ minInt.val = -9223372036854775808
    ∧ maxInt.val - ((4 : GoInt).val - (5 : GoInt).val) = 9223372036854775808 := by
  decide

/-- C5, amended. `UpdateCartQuantity` success effect: with `newQuantity >= 0`, `I` (at index
`k`) the first cart item whose product name equals `productName` under case folding, `P` (at
index `i`) the first catalog product with `I`'s product ID, `delta = newQuantity - I.Quantity`
either `<= 0` or `<= P.Stock`, and both `delta` and `P.Stock - delta` within the range of Go's
`int`, the call returns no error; the catalog keeps its length, entry `i` is `P` with `Stock`
lowered by exactly `delta` and every other entry is unchanged; if `newQuantity = 0` the stock
of `P` is raised by exactly `I.Quantity` and the cart is the old cart without its item `k`
(the items before `k` stay, the items after `k` move up by one); otherwise the cart keeps its
length, item `k` is `I` with `Quantity = newQuantity` and every other item is unchanged. -/
theorem UpdateCartQuantity_success_effect (foldEq : Char → Char → Bool) (c : Cart)
    (products : List Product) (productName : String) (n : GoInt) (k : Nat) (I : CartItem)
    (i : Nat) (P : Product)
    (hn : 0 ≤ n)
    (hI : IsFirst (fun J : CartItem => EqualFold foldEq J.Product.Name productName) c.Items k I)
    (hP : IsFirst (fun p : Product => p.ID == I.Product.ID) products i P)
    (hdelta : Representable (n.val - I.Quantity.val))
    (hok : n.val - I.Quantity.val ≤ 0 ∨ n.val - I.Quantity.val ≤ P.Stock.val)
    (hfit : Representable (P.Stock.val - (n.val - I.Quantity.val))) :
    (c.UpdateCartQuantity foldEq products productName n).err = none
    ∧ (c.UpdateCartQuantity foldEq products productName n).products.length = products.length
    ∧ (c.UpdateCartQuantity foldEq products productName n).products[i]?
        = some { P with Stock := P.Stock - (n - I.Quantity) }
    ∧ (P.Stock - (n - I.Quantity)).val = P.Stock.val - (n.val - I.Quantity.val)
    ∧ (∀ j, j ≠ i →
        (c.UpdateCartQuantity foldEq products productName n).products[j]? = products[j]?)
    ∧ (n = 0 →
        (P.Stock - (n - I.Quantity)).val = P.Stock.val + I.Quantity.val
        ∧ (c.UpdateCartQuantity foldEq products productName n).cart.Items.length + 1
            = c.Items.length
        ∧ ∀ j, (c.UpdateCartQuantity foldEq products productName n).cart.Items[j]?
            = if j < k then c.Items[j]? else c.Items[j + 1]?)
    ∧ (n ≠ 0 →
        (c.UpdateCartQuantity foldEq products productName n).cart.Items.length = c.Items.length
        ∧ (c.UpdateCartQuantity foldEq products productName n).cart.Items[k]?
            = some { I with Quantity := n }
        ∧ ∀ j, j ≠ k →
            (c.UpdateCartQuantity foldEq products productName n).cart.Items[j]?
              = c.Items[j]?) := by
  have hi : i < products.length := (List.getElem?_eq_some_iff.mp hP.1).1
  have hk : k < c.Items.length := (List.getElem?_eq_some_iff.mp hI.1).1
  have hd : (n - I.Quantity).val = n.val - I.Quantity.val :=
    GoInt.val_sub_of_fits n I.Quantity hdelta
  have hs : (P.Stock - (n - I.Quantity)).val = P.Stock.val - (n.val - I.Quantity.val) := by
    rw [GoInt.val_sub, hd, wrap_of_representable _ hfit]
  have hok2 : n - I.Quantity ≤ 0 ∨ n - I.Quantity ≤ P.Stock := by
    rcases hok with h | h
    · left
      show (n - I.Quantity).val ≤ (0 : GoInt).val
      rw [hd, GoInt.val_zero]
      exact h
    · right
      show (n - I.Quantity).val ≤ P.Stock.val
      rw [hd]
      exact h
  by_cases h0 : n = 0
  · have hs0 : (P.Stock - (n - I.Quantity)).val = P.Stock.val + I.Quantity.val := by
      rw [hs, h0, GoInt.val_zero]
      omega
    subst h0
    rw [UpdateCartQuantity_zero foldEq c products productName k I i P hI hP hok2]
    exact ⟨rfl, by simp, by simp [hi], hs, fun j hj => by simp [List.getElem?_set_ne hj.symm],
      fun _ => ⟨hs0, length_take_append_drop_succ c.Items k hk,
        fun j => getElem?_take_append_drop_succ c.Items k j⟩,
      fun h => absurd rfl h⟩
  · rw [UpdateCartQuantity_set foldEq c products productName n k I i P
      (lt_of_le_of_ne hn (Ne.symm h0)) hI hP hok2]
    exact ⟨rfl, by simp, by simp [hi], hs, fun j hj => by simp [List.getElem?_set_ne hj.symm],
      fun h => absurd h h0,
      fun _ => ⟨by simp, by simp [hk], fun j hj => by simp [List.getElem?_set_ne hj.symm]⟩⟩

/-- An instance of C5 as amended: a cart holding three copies of "Dune", seven left in stock,
is updated to five copies. -/
theorem UpdateCartQuantity_success_effect_witness :
    IsFirst (fun J : CartItem => EqualFold asciiFoldEq J.Product.Name "Dune")
        [⟨⟨"b1", "Dune", "", price15, "books", 10⟩, 3⟩] 0
        ⟨⟨"b1", "Dune", "", price15, "books", 10⟩, 3⟩
    ∧ Representable ((7 : GoInt).val - ((5 : GoInt).val - (3 : GoInt).val))
    ∧ ((Cart.mk [⟨⟨"b1", "Dune", "", price15, "books", 10⟩, 3⟩]).UpdateCartQuantity asciiFoldEq
        [⟨"b1", "Dune", "", price15, "books", 7⟩] "Dune" 5).err = none
    ∧ ((Cart.mk [⟨⟨"b1", "Dune", "", price15, "books", 10⟩, 3⟩]).UpdateCartQuantity asciiFoldEq
        [⟨"b1", "Dune", "", price15, "books", 7⟩] "Dune" 5).products[0]?
        = some ⟨"b1", "Dune", "", price15, "books", 7 - (5 - 3)⟩ :=
  ⟨by decide, by decide,
    (UpdateCartQuantity_success_effect asciiFoldEq
      (Cart.mk [⟨⟨"b1", "Dune", "", price15, "books", 10⟩, 3⟩])
      [⟨"b1", "Dune", "", price15, "books", 7⟩] "Dune" 5 0
      ⟨⟨"b1", "Dune", "", price15, "books", 10⟩, 3⟩
      0 ⟨"b1", "Dune", "", price15, "books", 7⟩ (by decide) (by decide) (by decide)
      (by decide) (by decide) (by decide)).1,
    (UpdateCartQuantity_success_effect asciiFoldEq
      (Cart.mk [⟨⟨"b1", "Dune", "", price15, "books", 10⟩, 3⟩])
      [⟨"b1", "Dune", "", price15, "books", 7⟩] "Dune" 5 0
      ⟨⟨"b1", "Dune", "", price15, "books", 10⟩, 3⟩
      0 ⟨"b1", "Dune", "", price15, "books", 7⟩ (by decide) (by decide) (by decide)
      (by decide) (by decide) (by decide)).2.2.1⟩

/-- C6. On a cart of the data model (every item has `Quantity > 0`), `UpdateCartQuantity`
returns an error exactly when (1) `newQuantity < 0`, or (2) no cart item's product name equals
`productName` under case folding, or (3) no catalog product has the ID stored in the first
such item, or (4) `delta = newQuantity - I.Quantity` is `> 0` and the first catalog product
with that ID has `Stock < delta`; the error is that of the first of these that holds
(`InvalidQuantity`, `ItemNotInCart`, `ProductNotFound`, `InsufficientStock`).  In particular
`newQuantity = 0` and any `newQuantity` at or below the quantity of the first matching item
never fail for lack of stock. -/
theorem UpdateCartQuantity_fails_iff (foldEq : Char → Char → Bool) (c : Cart)
    (products : List Product) (productName : String) (n : GoInt)
    (hpos : ∀ J ∈ c.Items, 0 < J.Quantity) :
    ((c.UpdateCartQuantity foldEq products productName n).err ≠ none ↔
      (n < 0
        ∨ (∀ J ∈ c.Items, EqualFold foldEq J.Product.Name productName = false)
        ∨ (∃ k I,
            IsFirst (fun J : CartItem => EqualFold foldEq J.Product.Name productName)
              c.Items k I
            ∧ ∀ p ∈ products, p.ID ≠ I.Product.ID)
        ∨ ∃ k I i P,
            IsFirst (fun J : CartItem => EqualFold foldEq J.Product.Name productName)
              c.Items k I
            ∧ IsFirst (fun p : Product => p.ID == I.Product.ID) products i P
            ∧ 0 < n.val - I.Quantity.val ∧ P.Stock.val < n.val - I.Quantity.val))
    ∧ (n < 0 →
        (c.UpdateCartQuantity foldEq products productName n).err = some .quantityNegative
        ∧ (c.UpdateCartQuantity foldEq products productName n).err.map CartError.kind
            = some .InvalidQuantity)
    ∧ (0 ≤ n → (∀ J ∈ c.Items, EqualFold foldEq J.Product.Name productName = false) →
        (c.UpdateCartQuantity foldEq products productName n).err
            = some (.notFoundInCart productName)
        ∧ (c.UpdateCartQuantity foldEq products productName n).err.map CartError.kind
            = some .ItemNotInCart)
    ∧ (0 ≤ n → ∀ k I,
        IsFirst (fun J : CartItem => EqualFold foldEq J.Product.Name productName) c.Items k I →
        (∀ p ∈ products, p.ID ≠ I.Product.ID) →
        (c.UpdateCartQuantity foldEq products productName n).err
            = some (.notFoundInInventory productName)
        ∧ (c.UpdateCartQuantity foldEq products productName n).err.map CartError.kind
            = some .ProductNotFound)
    ∧ (0 ≤ n → ∀ k I i P,
        IsFirst (fun J : CartItem => EqualFold foldEq J.Product.Name productName) c.Items k I →
        IsFirst (fun p : Product => p.ID == I.Product.ID) products i P →
        0 < n.val - I.Quantity.val → P.Stock.val < n.val - I.Quantity.val →
        (c.UpdateCartQuantity foldEq products productName n).err
            = some (.insufficientStockForIncrease productName P.Stock (n - I.Quantity))
        ∧ (n - I.Quantity).val = n.val - I.Quantity.val
        ∧ (c.UpdateCartQuantity foldEq products productName n).err.map CartError.kind
            = some .InsufficientStock)
    ∧ (∀ k I,
        IsFirst (fun J : CartItem => EqualFold foldEq J.Product.Name productName) c.Items k I →
        (n ≤ I.Quantity ∨ n = 0) →
        (c.UpdateCartQuantity foldEq products productName n).err.map CartError.kind
            ≠ some .InsufficientStock) := by
  have hnoP : ∀ I : CartItem, (∀ p ∈ products, p.ID ≠ I.Product.ID) →
      ∀ p ∈ products, (p.ID == I.Product.ID) = false := by
    intro I h p hp
    simpa using h p hp
  -- on this cart the difference computed by the code is the difference of the integers
  have hd : ∀ k I, 0 ≤ n →
      IsFirst (fun J : CartItem => EqualFold foldEq J.Product.Name productName) c.Items k I →
      (n - I.Quantity).val = n.val - I.Quantity.val := fun k I hn hI =>
    GoInt.val_sub_of_nonneg_of_pos n I.Quantity hn (hpos I (List.getElem?_mem hI.1))
  have hshort : ∀ k I (P : Product), 0 ≤ n →
      IsFirst (fun J : CartItem => EqualFold foldEq J.Product.Name productName) c.Items k I →
      ((0 < n - I.Quantity ∧ P.Stock < n - I.Quantity)
        ↔ (0 < n.val - I.Quantity.val ∧ P.Stock.val < n.val - I.Quantity.val)) := by
    intro k I P hn hI
    rw [GoInt.lt_iff, GoInt.lt_iff, hd k I hn hI, GoInt.val_zero]
  refine ⟨?_, ?_, ?_, ?_, ?_, ?_⟩
  · constructor
    · intro herr
      by_contra hcon
      simp only [not_or, not_lt, not_exists, not_and] at hcon
      obtain ⟨hn, hsome, hcat, hstock⟩ := hcon
      rcases first_or_none (fun J : CartItem => EqualFold foldEq J.Product.Name productName)
        c.Items with ⟨k, I, hI⟩ | hno
      · rcases first_or_none (fun p : Product => p.ID == I.Product.ID) products
          with ⟨i, P, hP⟩ | hnoP2
        · have hns : ¬ (0 < n - I.Quantity ∧ P.Stock < n - I.Quantity) := by
            rw [hshort k I P hn hI]
            intro h
            exact absurd h.2 (not_lt.mpr (hstock k I i P hI hP h.1))
          exact herr (UpdateCartQuantity_err_none foldEq c products productName n k I
            i P hn hI hP (stock_ok_of_not_short hns))
        · apply hcat k I hI
          intro p hp
          simpa using hnoP2 p hp
      · exact hsome hno
    · intro h
      by_cases hn : n < 0
      · rw [UpdateCartQuantity_negative foldEq c products productName n hn]
        simp
      · have hn' : 0 ≤ n := not_lt.mp hn
        rcases h with h | hno | ⟨k, I, hI, hcat⟩ | ⟨k, I, i, P, hI, hP, hd1, hs⟩
        · exact absurd h hn
        · rw [UpdateCartQuantity_noItem foldEq c products productName n hn' hno]
          simp
        · rw [UpdateCartQuantity_noProduct foldEq c products productName n k I hn' hI
            (hnoP I hcat)]
          simp
        · have h2 := (hshort k I P hn' hI).mpr ⟨hd1, hs⟩
          rw [UpdateCartQuantity_short foldEq c products productName n k I i P hn' hI hP
            h2.1 h2.2]
          simp
  · intro hn
    rw [UpdateCartQuantity_negative foldEq c products productName n hn]
    exact ⟨rfl, rfl⟩
  · intro hn hno
    rw [UpdateCartQuantity_noItem foldEq c products productName n hn hno]
    exact ⟨rfl, rfl⟩
  · intro hn k I hI hcat
    rw [UpdateCartQuantity_noProduct foldEq c products productName n k I hn hI (hnoP I hcat)]
    exact ⟨rfl, rfl⟩
  · intro hn k I i P hI hP hd1 hs
    have h2 := (hshort k I P hn hI).mpr ⟨hd1, hs⟩
    rw [UpdateCartQuantity_short foldEq c products productName n k I i P hn hI hP h2.1 h2.2]
    exact ⟨rfl, hd k I hn hI, rfl⟩
  · intro k I hI hle
    by_cases hn : n < 0
    · rw [UpdateCartQuantity_negative foldEq c products productName n hn]
      simp [CartError.kind]
    · have hn' : 0 ≤ n := not_lt.mp hn
      have hIpos : (0 : Int) < I.Quantity.val := hpos I (List.getElem?_mem hI.1)
      have hle2 : n - I.Quantity ≤ 0 := by
        show (n - I.Quantity).val ≤ (0 : GoInt).val
        rw [hd k I hn' hI, GoInt.val_zero]
        rcases hle with h | h
        · have h1 : n.val ≤ I.Quantity.val := h
          omega
        · rw [h, GoInt.val_zero]
          omega
      rcases first_or_none (fun p : Product => p.ID == I.Product.ID) products
        with ⟨i, P, hP⟩ | hnoP2
      · rw [UpdateCartQuantity_err_none foldEq c products productName n k I
          i P hn' hI hP (Or.inl hle2)]
        simp
      · rw [UpdateCartQuantity_noProduct foldEq c products productName n k I hn' hI hnoP2]
        simp [CartError.kind]

/-- An instance of C6: a cart with three copies of "Dune" is updated to zero copies against a
catalog with none in stock; the call does not fail for lack of stock. -/
theorem UpdateCartQuantity_fails_iff_witness :
    (∀ J ∈ (Cart.mk [⟨⟨"b1", "Dune", "", price15, "books", 10⟩, 3⟩]).Items, 0 < J.Quantity)
    ∧ ((Cart.mk [⟨⟨"b1", "Dune", "", price15, "books", 10⟩, 3⟩]).UpdateCartQuantity
        asciiFoldEq [⟨"b1", "Dune", "", price15, "books", 0⟩] "Dune" 0).err.map CartError.kind
        ≠ some .InsufficientStock :=
  ⟨by decide,
    (UpdateCartQuantity_fails_iff asciiFoldEq
      (Cart.mk [⟨⟨"b1", "Dune", "", price15, "books", 10⟩, 3⟩])
      [⟨"b1", "Dune", "", price15, "books", 0⟩] "Dune" 0 (by decide)).2.2.2.2.2 0
      ⟨⟨"b1", "Dune", "", price15, "books", 10⟩, 3⟩ (by decide) (Or.inr rfl)⟩

/-! ## `RemoveFromCart` -/

theorem RemoveFromCart_err_none (foldEq : Char → Char → Bool) (c : Cart)
    (products : List Product) (productName : String) (q : GoInt) (k : Nat) (I : CartItem)
    (hq : 0 < q)
    (hI : IsFirst (fun J : CartItem => EqualFold foldEq J.Product.Name productName) c.Items k I)
    (hle : q ≤ I.Quantity) :
    (c.RemoveFromCart foldEq products productName q).err = none := by
  by_cases he : I.Quantity = q
  · rw [RemoveFromCart_all foldEq c products productName q k I hq hI he]
  · rw [RemoveFromCart_some foldEq c products productName q k I hq hI
      (lt_of_le_of_ne hle (Ne.symm he))]

/-- C7, the claim as stated fails: the catalog has the largest `int` of copies of "Dune" in
stock and the cart holds five; `RemoveFromCart("Dune", 1)` returns no error and the stock
wraps around to the least `int` instead of being higher by 1. -/
theorem RemoveFromCart_stock_wraps :
    ((Cart.mk [⟨⟨"b1", "Dune", "", price15, "books", 10⟩, 5⟩]).RemoveFromCart asciiFoldEq
        [⟨"b1", "Dune", "", price15, "books", maxInt⟩] "Dune" 1).err = none
    ∧ ((Cart.mk [⟨⟨"b1", "Dune", "", price15, "books", 10⟩, 5⟩]).RemoveFromCart asciiFoldEq
        [⟨"b1", "Dune", "", price15, "books", maxInt⟩] "Dune" 1).products
        = [⟨"b1", "Dune", "", price15, "books", minInt⟩]
    ∧ minInt.val = -9223372036854775808
    ∧ maxInt.val + (1 : GoInt).val = 9223372036854775808 := by
  decide

/-- C7, amended. `RemoveFromCart` success effect: with `q > 0`, `I` (at index `k`) the first
cart item whose product name equals `productName` under case folding, `I.Quantity >= q`, and
`P` (at index `i`) the first catalog product with `I`'s product ID, the call returns no error;
the catalog keeps its length, entry `i` is `P` with `Stock` the sum `P.Stock + q` of Go's
`int`, which is higher by exactly `q` when `P.Stock + q` does not exceed the largest `int`,
and every other entry is unchanged; if `q = I.Quantity` the cart is the old cart without its
item `k` (the items before `k` stay, the items after `k` move up by one); otherwise the cart
keeps its length, item `k` is `I` with `Quantity` lowered by exactly `q` and every other item
is unchanged. -/
theorem RemoveFromCart_success_effect (foldEq : Char → Char → Bool) (c : Cart)
    (products : List Product) (productName : String) (q : GoInt) (k : Nat) (I : CartItem)
    (i : Nat) (P : Product)
    (hq : 0 < q)
    (hI : IsFirst (fun J : CartItem => EqualFold foldEq J.Product.Name productName) c.Items k I)
    (hle : q ≤ I.Quantity)
    (hP : IsFirst (fun p : Product => p.ID == I.Product.ID) products i P) :
    (c.RemoveFromCart foldEq products productName q).err = none
    ∧ (c.RemoveFromCart foldEq products productName q).products.length = products.length
    ∧ (c.RemoveFromCart foldEq products productName q).products[i]?
        = some { P with Stock := P.Stock + q }
    ∧ (P.Stock.val + q.val ≤ maxInt.val → (P.Stock + q).val = P.Stock.val + q.val)
    ∧ (∀ j, j ≠ i →
        (c.RemoveFromCart foldEq products productName q).products[j]? = products[j]?)
    ∧ (q = I.Quantity →
        (c.RemoveFromCart foldEq products productName q).cart.Items.length + 1
            = c.Items.length
        ∧ ∀ j, (c.RemoveFromCart foldEq products productName q).cart.Items[j]?
            = if j < k then c.Items[j]? else c.Items[j + 1]?)
    ∧ (q ≠ I.Quantity →
        (c.RemoveFromCart foldEq products productName q).cart.Items.length = c.Items.length
        ∧ (c.RemoveFromCart foldEq products productName q).cart.Items[k]?
            = some { I with Quantity := I.Quantity - q }
        ∧ (I.Quantity - q).val = I.Quantity.val - q.val
        ∧ ∀ j, j ≠ k →
            (c.RemoveFromCart foldEq products productName q).cart.Items[j]?
              = c.Items[j]?) := by
  have hi : i < products.length := (List.getElem?_eq_some_iff.mp hP.1).1
  have hk : k < c.Items.length := (List.getElem?_eq_some_iff.mp hI.1).1
  have hadd : P.Stock.val + q.val ≤ maxInt.val → (P.Stock + q).val = P.Stock.val + q.val := by
    intro hfit
    apply GoInt.val_add_of_fits
    have hq0 : (0 : Int) < q.val := hq
    have := P.Stock.inRange
    rw [maxInt_val] at hfit
    unfold Representable
    omega
  by_cases he : I.Quantity = q
  · rw [RemoveFromCart_all foldEq c products productName q k I hq hI he,
      restoreStock_first products I.Product.ID q i P hP]
    exact ⟨rfl, by simp, by simp [hi], hadd,
      fun j hj => by simp [List.getElem?_set_ne hj.symm],
      fun _ => ⟨length_take_append_drop_succ c.Items k hk,
        fun j => getElem?_take_append_drop_succ c.Items k j⟩,
      fun h => absurd he.symm h⟩
  · rw [RemoveFromCart_some foldEq c products productName q k I hq hI
        (lt_of_le_of_ne hle (Ne.symm he)),
      restoreStock_first products I.Product.ID q i P hP]
    exact ⟨rfl, by simp, by simp [hi], hadd,
      fun j hj => by simp [List.getElem?_set_ne hj.symm],
      fun h => absurd h.symm he,
      fun _ => ⟨by simp, by simp [hk], GoInt.val_sub_of_le I.Quantity q hq hle,
        fun j hj => by simp [List.getElem?_set_ne hj.symm]⟩⟩

/-- An instance of C7 as amended: two of the five copies of "Dune" in the cart go back to a
stock of five. -/
theorem RemoveFromCart_success_effect_witness :
    IsFirst (fun J : CartItem => EqualFold asciiFoldEq J.Product.Name "DUNE")
        [⟨⟨"b1", "Dune", "", price15, "books", 10⟩, 5⟩] 0
        ⟨⟨"b1", "Dune", "", price15, "books", 10⟩, 5⟩
    ∧ ((Cart.mk [⟨⟨"b1", "Dune", "", price15, "books", 10⟩, 5⟩]).RemoveFromCart asciiFoldEq
        [⟨"b1", "Dune", "", price15, "books", 5⟩] "DUNE" 2).err = none
    ∧ ((Cart.mk [⟨⟨"b1", "Dune", "", price15, "books", 10⟩, 5⟩]).RemoveFromCart asciiFoldEq
        [⟨"b1", "Dune", "", price15, "books", 5⟩] "DUNE" 2).products[0]?
        = some ⟨"b1", "Dune", "", price15, "books", 5 + 2⟩
    ∧ ((5 : GoInt) + 2).val = (5 : GoInt).val + (2 : GoInt).val :=
  ⟨by decide,
    (RemoveFromCart_success_effect asciiFoldEq
      (Cart.mk [⟨⟨"b1", "Dune", "", price15, "books", 10⟩, 5⟩])
      [⟨"b1", "Dune", "", price15, "books", 5⟩] "DUNE" 2 0
      ⟨⟨"b1", "Dune", "", price15, "books", 10⟩, 5⟩
      0 ⟨"b1", "Dune", "", price15, "books", 5⟩ (by decide) (by decide) (by decide)
      (by decide)).1,
    (RemoveFromCart_success_effect asciiFoldEq
      (Cart.mk [⟨⟨"b1", "Dune", "", price15, "books", 10⟩, 5⟩])
      [⟨"b1", "Dune", "", price15, "books", 5⟩] "DUNE" 2 0
      ⟨⟨"b1", "Dune", "", price15, "books", 10⟩, 5⟩
      0 ⟨"b1", "Dune", "", price15, "books", 5⟩ (by decide) (by decide) (by decide)
      (by decide)).2.2.1,
    (RemoveFromCart_success_effect asciiFoldEq
      (Cart.mk [⟨⟨"b1", "Dune", "", price15, "books", 10⟩, 5⟩])
      [⟨"b1", "Dune", "", price15, "books", 5⟩] "DUNE" 2 0
      ⟨⟨"b1", "Dune", "", price15, "books", 10⟩, 5⟩
      0 ⟨"b1", "Dune", "", price15, "books", 5⟩ (by decide) (by decide) (by decide)
      (by decide)).2.2.2.1 (by decide)⟩

theorem RemoveFromCart_err_catalog_free (foldEq : Char → Char → Bool) (c : Cart)
    (products products2 : List Product) (productName : String) (q : GoInt) :
    (c.RemoveFromCart foldEq products2 productName q).err
      = (c.RemoveFromCart foldEq products productName q).err := by
  by_cases hq : q ≤ 0
  · rw [RemoveFromCart_nonpos foldEq c products productName q hq,
      RemoveFromCart_nonpos foldEq c products2 productName q hq]
  · have hq' : 0 < q := not_le.mp hq
    rcases first_or_none (fun J : CartItem => EqualFold foldEq J.Product.Name productName)
      c.Items with ⟨k, I, hI⟩ | hnoI
    · by_cases hs : I.Quantity < q
      · rw [RemoveFromCart_tooMany foldEq c products productName q k I hq' hI hs,
          RemoveFromCart_tooMany foldEq c products2 productName q k I hq' hI hs]
      · rw [RemoveFromCart_err_none foldEq c products productName q k I hq' hI (not_lt.mp hs),
          RemoveFromCart_err_none foldEq c products2 productName q k I hq' hI (not_lt.mp hs)]
    · rw [RemoveFromCart_noItem foldEq c products productName q hq' hnoI,
        RemoveFromCart_noItem foldEq c products2 productName q hq' hnoI]

/-- C8. `RemoveFromCart` returns an error exactly when (1) `quantity <= 0`, or (2) no cart
item's product name equals `productName` under case folding, or (3) the first such item has
`Quantity < quantity`; the error is that of the first of these that holds
(`InvalidQuantity`, `ItemNotInCart`, `InsufficientCartQuantity`).  Every call on an empty
cart returns an error, `ItemNotInCart` when `quantity > 0`.  The returned error is the same
for every catalog. -/
theorem RemoveFromCart_fails_iff (foldEq : Char → Char → Bool) (c : Cart)
    (products : List Product) (productName : String) (q : GoInt) :
    ((c.RemoveFromCart foldEq products productName q).err ≠ none ↔
      (q ≤ 0
        ∨ (∀ J ∈ c.Items, EqualFold foldEq J.Product.Name productName = false)
        ∨ ∃ k I,
            IsFirst (fun J : CartItem => EqualFold foldEq J.Product.Name productName)
              c.Items k I
            ∧ I.Quantity < q))
    ∧ (q ≤ 0 →
        (c.RemoveFromCart foldEq products productName q).err = some .quantityNotPositive
        ∧ (c.RemoveFromCart foldEq products productName q).err.map CartError.kind
            = some .InvalidQuantity)
    ∧ (0 < q → (∀ J ∈ c.Items, EqualFold foldEq J.Product.Name productName = false) →
        (c.RemoveFromCart foldEq products productName q).err
            = some (.notFoundInCart productName)
        ∧ (c.RemoveFromCart foldEq products productName q).err.map CartError.kind
            = some .ItemNotInCart)
    ∧ (0 < q → ∀ k I,
        IsFirst (fun J : CartItem => EqualFold foldEq J.Product.Name productName) c.Items k I →
        I.Quantity < q →
        (c.RemoveFromCart foldEq products productName q).err
            = some (.cannotRemove q I.Quantity)
        ∧ (c.RemoveFromCart foldEq products productName q).err.map CartError.kind
            = some .InsufficientCartQuantity)
    ∧ (c.Items = [] →
        (c.RemoveFromCart foldEq products productName q).err ≠ none
        ∧ (0 < q → (c.RemoveFromCart foldEq products productName q).err.map CartError.kind
            = some .ItemNotInCart))
    ∧ (∀ products2 : List Product,
        (c.RemoveFromCart foldEq products2 productName q).err
          = (c.RemoveFromCart foldEq products productName q).err) := by
  refine ⟨?_, ?_, ?_, ?_, ?_, ?_⟩
  · constructor
    · intro herr
      by_contra hcon
      simp only [not_or, not_le, not_exists, not_and, not_lt] at hcon
      obtain ⟨hq, hsome, hqty⟩ := hcon
      rcases first_or_none (fun J : CartItem => EqualFold foldEq J.Product.Name productName)
        c.Items with ⟨k, I, hI⟩ | hno
      · exact herr (RemoveFromCart_err_none foldEq c products productName q k I hq hI
          (hqty k I hI))
      · exact hsome hno
    · intro h
      by_cases hq : q ≤ 0
      · rw [RemoveFromCart_nonpos foldEq c products productName q hq]
        simp
      · have hq' : 0 < q := not_le.mp hq
        rcases h with h | hno | ⟨k, I, hI, hs⟩
        · exact absurd h hq
        · rw [RemoveFromCart_noItem foldEq c products productName q hq' hno]
          simp
        · rw [RemoveFromCart_tooMany foldEq c products productName q k I hq' hI hs]
          simp
  · intro hq
    rw [RemoveFromCart_nonpos foldEq c products productName q hq]
    exact ⟨rfl, rfl⟩
  · intro hq hno
    rw [RemoveFromCart_noItem foldEq c products productName q hq hno]
    exact ⟨rfl, rfl⟩
  · intro hq k I hI hs
    rw [RemoveFromCart_tooMany foldEq c products productName q k I hq hI hs]
    exact ⟨rfl, rfl⟩
  · intro hempty
    have hno : ∀ J ∈ c.Items, EqualFold foldEq J.Product.Name productName = false := by
      rw [hempty]
      intro J hJ
      cases hJ
    constructor
    · by_cases hq : q ≤ 0
      · rw [RemoveFromCart_nonpos foldEq c products productName q hq]
        simp
      · rw [RemoveFromCart_noItem foldEq c products productName q (not_le.mp hq) hno]
        simp
    · intro hq
      rw [RemoveFromCart_noItem foldEq c products productName q hq hno]
      rfl
  · intro products2
    exact RemoveFromCart_err_catalog_free foldEq c products products2 productName q

/-! ## The cart's quantity per product ID -/

theorem cartQuantity_nil (id : String) : cartQuantity [] id = 0 := rfl

theorem cartQuantity_cons (a : CartItem) (l : List CartItem) (id : String) :
    cartQuantity (a :: l) id
      = (if a.Product.ID = id then a.Quantity.val else 0) + cartQuantity l id := by
  by_cases h : a.Product.ID = id <;> simp [cartQuantity, List.filter_cons, h]

theorem cartQuantity_append (l1 l2 : List CartItem) (id : String) :
    cartQuantity (l1 ++ l2) id = cartQuantity l1 id + cartQuantity l2 id := by
  simp [cartQuantity, List.filter_append]

theorem cartQuantity_set (items : List CartItem) (k : Nat) (I : CartItem) (n : GoInt)
    (id : String) (hI : items[k]? = some I) :
    cartQuantity (items.set k { I with Quantity := n }) id
      = cartQuantity items id + (if I.Product.ID = id then n.val - I.Quantity.val else 0) := by
  induction items generalizing k with
  | nil => simp at hI
  | cons a l ih =>
    cases k with
    | zero =>
      simp only [List.getElem?_cons_zero, Option.some.injEq] at hI
      subst hI
      simp only [List.set_cons_zero, cartQuantity_cons]
      split <;> omega
    | succ k =>
      simp only [List.getElem?_cons_succ] at hI
      simp only [List.set_cons_succ, cartQuantity_cons, ih k hI]
      omega

theorem cartQuantity_delete (items : List CartItem) (k : Nat) (I : CartItem)
    (id : String) (hI : items[k]? = some I) :
    cartQuantity (items.take k ++ items.drop (k + 1)) id
      = cartQuantity items id - (if I.Product.ID = id then I.Quantity.val else 0) := by
  induction items generalizing k with
  | nil => simp at hI
  | cons a l ih =>
    cases k with
    | zero =>
      simp only [List.getElem?_cons_zero, Option.some.injEq] at hI
      subst hI
      simp only [List.take_zero, List.nil_append, zero_add, List.drop_succ_cons, List.drop_zero,
        cartQuantity_cons]
      split <;> omega
    | succ k =>
      simp only [List.getElem?_cons_succ] at hI
      simp only [List.take_succ_cons, List.cons_append, List.drop_succ_cons, cartQuantity_cons,
        ih k hI]
      omega

/-! ## Catalogs with pairwise distinct IDs -/

theorem catalogIDs_getElem? (products : List Product) (j : Nat) :
    (catalogIDs products)[j]? = (products[j]?).map (fun p => p.ID) := by
  simp [catalogIDs]

theorem index_eq_of_ID_eq (products : List Product)
    (hnodup : (catalogIDs products).Nodup) (i j : Nat) (P p : Product)
    (hP : products[i]? = some P) (hp : products[j]? = some p) (hid : p.ID = P.ID) :
    j = i := by
  have hi : i < (catalogIDs products).length := by
    simpa [catalogIDs] using (List.getElem?_eq_some_iff.mp hP).1
  have hj : j < (catalogIDs products).length := by
    simpa [catalogIDs] using (List.getElem?_eq_some_iff.mp hp).1
  have h1 : (catalogIDs products)[i]? = some P.ID := by
    rw [catalogIDs_getElem?, hP]; rfl
  have h2 : (catalogIDs products)[j]? = some p.ID := by
    rw [catalogIDs_getElem?, hp]; rfl
  rw [List.getElem?_eq_getElem hi] at h1
  rw [List.getElem?_eq_getElem hj] at h2
  have h3 : (catalogIDs products)[j] = (catalogIDs products)[i] := by
    rw [Option.some.injEq] at h1 h2
    rw [h1, h2, hid]
  exact (List.Nodup.getElem_inj_iff hnodup).mp h3

/-- Writing a new stock at the first product with a given ID of a catalog with distinct IDs:
seen from any index, the product there got the new stock when it has that ID and is unchanged
otherwise. -/
theorem getElem?_set_stock (products : List Product)
    (hnodup : (catalogIDs products).Nodup) (i j : Nat) (P p : Product) (s : GoInt)
    (hP : products[i]? = some P) (hp : products[j]? = some p) :
    (products.set i { P with Stock := s })[j]?
      = some (if p.ID = P.ID then { p with Stock := s } else p) := by
  have hi : i < products.length := (List.getElem?_eq_some_iff.mp hP).1
  by_cases hji : j = i
  · subst hji
    rw [hP] at hp
    simp only [Option.some.injEq] at hp
    subst hp
    simp [hi]
  · have hne : p.ID ≠ P.ID := fun hid =>
      hji (index_eq_of_ID_eq products hnodup i j P p hP hp hid)
    rw [List.getElem?_set_ne (Ne.symm hji), hp]
    simp [hne]

theorem restoreStock_getElem? (products : List Product)
    (hnodup : (catalogIDs products).Nodup) (id : String) (q : GoInt) (j : Nat) (p : Product)
    (hp : products[j]? = some p) :
    (restoreStock products id q)[j]?
      = some (if p.ID = id then { p with Stock := p.Stock + q } else p) := by
  rcases first_or_none (fun p : Product => p.ID == id) products with ⟨i, P, hP⟩ | hno
  · have hPid : P.ID = id := by simpa using hP.2.1
    rw [restoreStock_first products id q i P hP,
      getElem?_set_stock products hnodup i j P p (P.Stock + q) hP.1 hp, hPid]
    by_cases hid : p.ID = id
    · have hji := index_eq_of_ID_eq products hnodup i j P p hP.1 hp (hid.trans hPid.symm)
      subst hji
      rw [hP.1] at hp
      simp only [Option.some.injEq] at hp
      subst hp
      simp [hid]
    · simp [hid]
  · have hne : p.ID ≠ id := by simpa using hno p (List.getElem?_mem hp)
    rw [restoreStock_none products id q hno, hp]
    simp [hne]

theorem restoreStock_length (products : List Product) (id : String) (q : GoInt) :
    (restoreStock products id q).length = products.length := by
  unfold restoreStock
  split <;> simp

theorem restoreStock_catalogIDs (products : List Product) (id : String) (q : GoInt) :
    catalogIDs (restoreStock products id q) = catalogIDs products := by
  rcases first_or_none (fun p : Product => p.ID == id) products with ⟨i, P, hP⟩ | hno
  · rw [restoreStock_first products id q i P hP]
    apply List.ext_getElem?
    intro j
    rw [catalogIDs_getElem?, catalogIDs_getElem?]
    by_cases hji : i = j
    · subst hji
      simp [hP.1, (List.getElem?_eq_some_iff.mp hP.1).1]
    · rw [List.getElem?_set_ne hji]
  · rw [restoreStock_none products id q hno]

/-! ## `ClearCart` -/

theorem GoInt.ofInt_val (a : GoInt) : GoInt.ofInt a.val = a :=
  GoInt.ext (wrap_of_representable a.val a.inRange)

theorem GoInt.ofInt_add_ofInt (a : GoInt) (x y : Int) (h : a = GoInt.ofInt x) :
    a + GoInt.ofInt y = GoInt.ofInt (x + y) := by
  apply GoInt.ext
  rw [GoInt.val_add, h, GoInt.val_ofInt, GoInt.val_ofInt, GoInt.val_ofInt]
  unfold wrap
  omega

theorem clearLoop_catalogIDs (items : List CartItem) (products : List Product) :
    catalogIDs (items.foldl (fun ps item => restoreStock ps item.Product.ID item.Quantity)
      products) = catalogIDs products := by
  induction items generalizing products with
  | nil => rfl
  | cons a l ih => rw [List.foldl_cons, ih, restoreStock_catalogIDs]

/-- What the loop of `ClearCart` leaves at an index of a catalog with distinct IDs: the
product with the stock that the old stock plus the cart's quantity for its ID wraps to. -/
theorem clearLoop_getElem? (items : List CartItem) (products : List Product)
    (hnodup : (catalogIDs products).Nodup) (j : Nat) (p : Product)
    (hp : products[j]? = some p) :
    (items.foldl (fun ps item => restoreStock ps item.Product.ID item.Quantity) products)[j]?
      = some { p with Stock := GoInt.ofInt (p.Stock.val + cartQuantity items p.ID) } := by
  induction items generalizing products p with
  | nil =>
    simp only [List.foldl_nil, hp, cartQuantity_nil, add_zero, GoInt.ofInt_val]
  | cons a l ih =>
    have hnodup2 : (catalogIDs (restoreStock products a.Product.ID a.Quantity)).Nodup := by
      rw [restoreStock_catalogIDs]; exact hnodup
    have h1 := restoreStock_getElem? products hnodup a.Product.ID a.Quantity j p hp
    rw [List.foldl_cons, ih _ hnodup2 _ h1, cartQuantity_cons]
    by_cases hid : p.ID = a.Product.ID
    · have hid2 : a.Product.ID = p.ID := hid.symm
      simp only [hid, if_true]
      congr 2
      apply GoInt.ext
      rw [GoInt.val_ofInt, GoInt.val_ofInt]
      show wrap ((p.Stock + a.Quantity).val + cartQuantity l a.Product.ID) = _
      rw [GoInt.val_add, wrap_wrap_add, add_assoc]
    · have hid2 : ¬ a.Product.ID = p.ID := fun h => hid h.symm
      simp [hid, hid2]

theorem restoreStock_absent (products : List Product) (id : String) (q : GoInt)
    (habs : id ∉ catalogIDs products) : restoreStock products id q = products := by
  apply restoreStock_none
  intro p hp
  have : p.ID ≠ id := by
    intro h
    apply habs
    rw [← h]
    exact List.mem_map_of_mem (fun p : Product => p.ID) hp
  simpa using this

/-- C9, the claim as stated fails: the catalog has the largest `int` of copies of "Dune" in
stock and the cart holds five; after `ClearCart` the stock has wrapped around to the least
`int` plus four instead of being the old stock plus five. -/
theorem ClearCart_stock_wraps :
    (catalogIDs [⟨"b1", "Dune", "", price15, "books", maxInt⟩]).Nodup
    ∧ ((Cart.mk [⟨⟨"b1", "Dune", "", price15, "books", 10⟩, 5⟩]).ClearCart
        [⟨"b1", "Dune", "", price15, "books", maxInt⟩]).1
        = [⟨"b1", "Dune", "", price15, "books", GoInt.ofInt (-9223372036854775804)⟩]
    ∧ (GoInt.ofInt (-9223372036854775804)).val = -9223372036854775804
    ∧ maxInt.val + cartQuantity [⟨⟨"b1", "Dune", "", price15, "books", 10⟩, 5⟩] "b1"
        = 9223372036854775812 := by
  decide

/-- C9, amended. `ClearCart` effect: on a catalog with pairwise distinct product IDs, after
`ClearCart` the cart has no items, the catalog has the same length, and the product at each
index is the old product with `Stock` the `int` that the old stock plus the sum of `Quantity`
over the old cart's items with that product's ID wraps to (no other field changes); that is
exactly the old stock plus that sum when this number is within the range of Go's `int`.  A
cart item whose ID no catalog product has contributes nothing, whatever the catalog: clearing
the cart with or without it gives the same catalog.  `ClearCart` has no error result. -/
theorem ClearCart_effect (c : Cart) (products : List Product)
    (hnodup : (catalogIDs products).Nodup) :
    (c.ClearCart products).2.Items = []
    ∧ (c.ClearCart products).1.length = products.length
    ∧ (∀ (j : Nat) (P : Product), products[j]? = some P →
        (c.ClearCart products).1[j]?
          = some { P with Stock := GoInt.ofInt (P.Stock.val + cartQuantity c.Items P.ID) }
        ∧ (Representable (P.Stock.val + cartQuantity c.Items P.ID) →
            (GoInt.ofInt (P.Stock.val + cartQuantity c.Items P.ID)).val
              = P.Stock.val + cartQuantity c.Items P.ID))
    ∧ (∀ (items1 items2 : List CartItem) (I : CartItem),
        c.Items = items1 ++ I :: items2 → (∀ p ∈ products, p.ID ≠ I.Product.ID) →
        (c.ClearCart products).1 = ((Cart.mk (items1 ++ items2)).ClearCart products).1) := by
  refine ⟨rfl, ?_, ?_, ?_⟩
  · have h := congrArg List.length (clearLoop_catalogIDs c.Items products)
    simpa [catalogIDs] using h
  · intro j P hP
    exact ⟨clearLoop_getElem? c.Items products hnodup j P hP,
      fun hfit => wrap_of_representable _ hfit⟩
  · intro items1 items2 I hc habs
    have habs2 : I.Product.ID ∉ catalogIDs
        (items1.foldl (fun ps item => restoreStock ps item.Product.ID item.Quantity)
          products) := by
      rw [clearLoop_catalogIDs]
      intro hmem
      obtain ⟨p, hp, hid⟩ := List.mem_map.mp hmem
      exact habs p hp hid
    simp only [Cart.ClearCart, hc, List.foldl_append, List.foldl_cons]
    rw [restoreStock_absent _ _ _ habs2]

/-- An instance of C9 as amended: a cart with three copies of product "b1" and two of an
unknown product "zz" is cleared against a catalog holding seven copies of "b1". -/
theorem ClearCart_effect_witness :
    (catalogIDs [⟨"b1", "Dune", "", price15, "books", 7⟩]).Nodup
    ∧ ((Cart.mk [⟨⟨"b1", "Dune", "", price15, "books", 10⟩, 3⟩,
          ⟨⟨"zz", "Lost", "", price15, "books", 0⟩, 2⟩]).ClearCart
        [⟨"b1", "Dune", "", price15, "books", 7⟩]).2.Items = []
    ∧ ((Cart.mk [⟨⟨"b1", "Dune", "", price15, "books", 10⟩, 3⟩,
          ⟨⟨"zz", "Lost", "", price15, "books", 0⟩, 2⟩]).ClearCart
        [⟨"b1", "Dune", "", price15, "books", 7⟩]).1[0]?
        = some ⟨"b1", "Dune", "", price15, "books", GoInt.ofInt ((7 : GoInt).val
            + cartQuantity [⟨⟨"b1", "Dune", "", price15, "books", 10⟩, 3⟩,
                ⟨⟨"zz", "Lost", "", price15, "books", 0⟩, 2⟩] "b1")⟩ :=
  ⟨by decide,
    (ClearCart_effect (Cart.mk [⟨⟨"b1", "Dune", "", price15, "books", 10⟩, 3⟩,
      ⟨⟨"zz", "Lost", "", price15, "books", 0⟩, 2⟩]) [⟨"b1", "Dune", "", price15, "books", 7⟩]
      (by decide)).1,
    ((ClearCart_effect (Cart.mk [⟨⟨"b1", "Dune", "", price15, "books", 10⟩, 3⟩,
      ⟨⟨"zz", "Lost", "", price15, "books", 0⟩, 2⟩]) [⟨"b1", "Dune", "", price15, "books", 7⟩]
      (by decide)).2.2.1 0 ⟨"b1", "Dune", "", price15, "books", 7⟩ rfl).1⟩

/-! ## The reconciliation invariant -/

theorem SameBalance.refl (ps : List Product) (items : List CartItem) :
    SameBalance ps items ps items :=
  ⟨rfl, fun _ p hp => ⟨p, hp, rfl, rfl⟩⟩

theorem SameBalance.trans {ps1 ps2 ps3 : List Product} {it1 it2 it3 : List CartItem}
    (h12 : SameBalance ps1 it1 ps2 it2) (h23 : SameBalance ps2 it2 ps3 it3) :
    SameBalance ps1 it1 ps3 it3 := by
  refine ⟨h23.1.trans h12.1, fun j p hp => ?_⟩
  obtain ⟨p2, hp2, hid2, hb2⟩ := h12.2 j p hp
  obtain ⟨p3, hp3, hid3, hb3⟩ := h23.2 j p2 hp2
  refine ⟨p3, hp3, hid3.trans hid2, ?_⟩
  rw [hid2] at hb3
  rw [hb3, hb2]

theorem SameBalance.catalogIDs_eq {ps1 ps2 : List Product} {it1 it2 : List CartItem}
    (h : SameBalance ps1 it1 ps2 it2) : catalogIDs ps2 = catalogIDs ps1 := by
  apply List.ext_getElem?
  intro j
  rw [catalogIDs_getElem?, catalogIDs_getElem?]
  cases hp : ps1[j]? with
  | none =>
    have hj : ps1.length ≤ j := List.getElem?_eq_none_iff.mp hp
    have hj2 : ps2.length ≤ j := by rw [h.1]; exact hj
    rw [List.getElem?_eq_none_iff.mpr hj2]
  | some p =>
    obtain ⟨p2, hp2, hid, -⟩ := h.2 j p hp
    rw [hp2]
    simp [hid]

theorem cartQuantity_nonneg (items : List CartItem) (hpos : ∀ I ∈ items, 0 < I.Quantity)
    (id : String) : 0 ≤ cartQuantity items id := by
  induction items with
  | nil => simp [cartQuantity_nil]
  | cons a l ih =>
    rw [cartQuantity_cons]
    have h1 : (0 : Int) < a.Quantity.val := hpos a (List.mem_cons_self a l)
    have h2 := ih (fun I hI => hpos I (List.mem_cons_of_mem a hI))
    split <;> omega

/-- In a cart with positive quantities an item holds at most the cart's quantity for its
product ID. -/
theorem quantity_le_cartQuantity (items : List CartItem)
    (hpos : ∀ I ∈ items, 0 < I.Quantity) (I : CartItem) (hI : I ∈ items) :
    I.Quantity.val ≤ cartQuantity items I.Product.ID := by
  induction items with
  | nil => cases hI
  | cons a l ih =>
    rw [cartQuantity_cons]
    have hl : ∀ J ∈ l, 0 < J.Quantity := fun J hJ => hpos J (List.mem_cons_of_mem a hJ)
    have h1 : (0 : Int) < a.Quantity.val := hpos a (List.mem_cons_self a l)
    rcases List.mem_cons.mp hI with h | h
    · subst h
      have := cartQuantity_nonneg l hl I.Product.ID
      simp only [if_true]
      omega
    · have := ih hl h
      split <;> omega

/-- Stock moves between one product and the cart: `d` units leave the stock of the product
`P` and the cart's quantity for `P.ID` grows by `d`. -/
theorem sameBalance_transfer (ps : List Product) (hnodup : (catalogIDs ps).Nodup)
    (items items2 : List CartItem) (i : Nat) (P : Product) (s : GoInt) (d : Int)
    (hP : ps[i]? = some P) (hs : s.val = P.Stock.val - d)
    (hitems : ∀ id, cartQuantity items2 id
      = cartQuantity items id + (if P.ID = id then d else 0)) :
    SameBalance ps items (ps.set i { P with Stock := s }) items2 := by
  refine ⟨by simp, fun j p hp => ?_⟩
  refine ⟨_, getElem?_set_stock ps hnodup i j P p s hP hp, ?_, ?_⟩
  · split <;> rfl
  · rw [hitems p.ID]
    by_cases hid : p.ID = P.ID
    · have hji := index_eq_of_ID_eq ps hnodup i j P p hP hp hid
      subst hji
      rw [hP] at hp
      simp only [Option.some.injEq] at hp
      subst hp
      simp only [if_true]
      show s.val + _ = _
      rw [hs]
      omega
    · have hid2 : ¬ P.ID = p.ID := fun h => hid h.symm
      simp [hid, hid2]

/-- A change of the cart that touches only an ID that no catalog product has. -/
theorem sameBalance_foreign (ps : List Product) (items items2 : List CartItem) (id0 : String)
    (hno : ∀ p ∈ ps, (p.ID == id0) = false)
    (hitems : ∀ id, id ≠ id0 → cartQuantity items2 id = cartQuantity items id) :
    SameBalance ps items ps items2 := by
  refine ⟨rfl, fun j p hp => ⟨p, hp, rfl, ?_⟩⟩
  have hne : p.ID ≠ id0 := by simpa using hno p (List.getElem?_mem hp)
  rw [hitems p.ID hne]

/-- In a state without room for a wrap, the stock of a product and the quantity of a cart
item with its ID add up to an `int`. -/
theorem NoWrapState.stock_add_quantity {s : List Product × Cart} (ht : NoWrapState s)
    (P : Product) (hP : P ∈ s.1) (I : CartItem) (hI : I ∈ s.2.Items)
    (hid : I.Product.ID = P.ID) :
    0 < I.Quantity.val ∧ P.Stock.val + I.Quantity.val < 9223372036854775808 := by
  have h1 : (0 : Int) < I.Quantity.val := ht.2.1 I hI
  have h2 := quantity_le_cartQuantity s.2.Items ht.2.1 I hI
  have h3 := ht.2.2 P hP
  rw [maxInt_val] at h3
  rw [hid] at h2
  exact ⟨h1, by omega⟩

theorem AddToCart_keeps (foldEq : Char → Char → Bool) (c : Cart)
    (products : List Product) (productName : String) (q : GoInt)
    (ht : NoWrapState (products, c)) :
    SameBalance products c.Items (c.AddToCart foldEq products productName q).products
        (c.AddToCart foldEq products productName q).cart.Items
    ∧ ∀ I ∈ (c.AddToCart foldEq products productName q).cart.Items, 0 < I.Quantity := by
  have hnodup : (catalogIDs products).Nodup := ht.1
  have hpos : ∀ I ∈ c.Items, 0 < I.Quantity := ht.2.1
  by_cases hq : q ≤ 0
  · rw [AddToCart_nonpos foldEq c products productName q hq]
    exact ⟨SameBalance.refl _ _, hpos⟩
  · have hq' : 0 < q := not_le.mp hq
    have hq0 : (0 : Int) < q.val := hq'
    rcases first_or_none (fun p : Product => EqualFold foldEq p.Name productName) products
      with ⟨i, P, hP⟩ | hno
    · by_cases hs : P.Stock < q
      · rw [AddToCart_short foldEq c products productName q i P hq' hP hs]
        exact ⟨SameBalance.refl _ _, hpos⟩
      · have hle : q ≤ P.Stock := not_lt.mp hs
        have hle0 : q.val ≤ P.Stock.val := hle
        have hsub := GoInt.val_sub_of_le P.Stock q hq' hle
        rcases first_or_none (fun item : CartItem => item.Product.ID == P.ID) c.Items
          with ⟨k, I, hI⟩ | hnoI
        · have hIid : I.Product.ID = P.ID := by simpa using hI.2.1
          have hroom := ht.stock_add_quantity P (List.getElem?_mem hP.1) I
            (List.getElem?_mem hI.1) hIid
          have hadd : (I.Quantity + q).val = I.Quantity.val + q.val := by
            apply GoInt.val_add_of_fits
            have := P.Stock.inRange
            unfold Representable
            omega
          rw [AddToCart_merge foldEq c products productName q i P k I hq' hP hle hI]
          constructor
          · apply sameBalance_transfer products hnodup c.Items _ i P _ q.val hP.1 hsub
            intro id
            rw [cartQuantity_set c.Items k I (I.Quantity + q) id hI.1, hIid, hadd]
            split <;> simp
          · intro J hJ
            rcases List.mem_or_eq_of_mem_set hJ with h | h
            · exact hpos J h
            · rw [h]
              show (0 : GoInt).val < (I.Quantity + q).val
              rw [hadd, GoInt.val_zero]
              omega
        · rw [AddToCart_append foldEq c products productName q i P hq' hP hle hnoI]
          constructor
          · apply sameBalance_transfer products hnodup c.Items _ i P _ q.val hP.1 hsub
            intro id
            rw [cartQuantity_append, cartQuantity_cons, cartQuantity_nil]
            simp
          · intro J hJ
            rcases List.mem_append.mp hJ with h | h
            · exact hpos J h
            · rw [List.mem_singleton.mp h]
              exact hq'
    · rw [AddToCart_noMatch foldEq c products productName q hq' hno]
      exact ⟨SameBalance.refl _ _, hpos⟩

theorem mem_of_mem_take_append_drop {α : Type} (l : List α) (k : Nat) (x : α)
    (h : x ∈ l.take k ++ l.drop (k + 1)) : x ∈ l := by
  rcases List.mem_append.mp h with h | h
  · exact List.mem_of_mem_take h
  · exact List.mem_of_mem_drop h

/-- In a state without room for a wrap, a successful `UpdateCartQuantity` computes the
difference and the new stock exactly. -/
theorem NoWrapState.update_exact {s : List Product × Cart} (ht : NoWrapState s)
    (n : GoInt) (hn : 0 ≤ n) (P : Product) (hP : P ∈ s.1) (I : CartItem) (hI : I ∈ s.2.Items)
    (hid : P.ID = I.Product.ID)
    (hok : n - I.Quantity ≤ 0 ∨ n - I.Quantity ≤ P.Stock) :
    (n - I.Quantity).val = n.val - I.Quantity.val
    ∧ (P.Stock - (n - I.Quantity)).val = P.Stock.val - (n.val - I.Quantity.val)
    ∧ 0 ≤ P.Stock.val - (n.val - I.Quantity.val) - min P.Stock.val 0 := by
  have hroom := ht.stock_add_quantity P hP I hI hid.symm
  have hd : (n - I.Quantity).val = n.val - I.Quantity.val :=
    GoInt.val_sub_of_nonneg_of_pos n I.Quantity hn (ht.2.1 I hI)
  have hn0 : (0 : Int) ≤ n.val := hn
  have hok2 : n.val - I.Quantity.val ≤ 0 ∨ n.val - I.Quantity.val ≤ P.Stock.val := by
    rcases hok with h | h
    · left
      have h1 : (n - I.Quantity).val ≤ (0 : GoInt).val := h
      rw [hd, GoInt.val_zero] at h1
      exact h1
    · right
      have h1 : (n - I.Quantity).val ≤ P.Stock.val := h
      rw [hd] at h1
      exact h1
  have hrange := P.Stock.inRange
  have hnr := n.inRange
  refine ⟨hd, ?_, ?_⟩
  · rw [GoInt.val_sub, hd]
    apply wrap_of_representable
    unfold Representable
    omega
  · omega

theorem UpdateCartQuantity_keeps (foldEq : Char → Char → Bool) (c : Cart)
    (products : List Product) (productName : String) (n : GoInt)
    (ht : NoWrapState (products, c)) :
    SameBalance products c.Items (c.UpdateCartQuantity foldEq products productName n).products
        (c.UpdateCartQuantity foldEq products productName n).cart.Items
    ∧ ∀ I ∈ (c.UpdateCartQuantity foldEq products productName n).cart.Items,
        0 < I.Quantity := by
  have hnodup : (catalogIDs products).Nodup := ht.1
  have hpos : ∀ I ∈ c.Items, 0 < I.Quantity := ht.2.1
  by_cases hn : n < 0
  · rw [UpdateCartQuantity_negative foldEq c products productName n hn]
    exact ⟨SameBalance.refl _ _, hpos⟩
  · have hn' : 0 ≤ n := not_lt.mp hn
    rcases first_or_none (fun J : CartItem => EqualFold foldEq J.Product.Name productName)
      c.Items with ⟨k, I, hI⟩ | hnoI
    · rcases first_or_none (fun p : Product => p.ID == I.Product.ID) products
        with ⟨i, P, hP⟩ | hnoP
      · have hPid : P.ID = I.Product.ID := by simpa using hP.2.1
        by_cases hs : 0 < n - I.Quantity ∧ P.Stock < n - I.Quantity
        · rw [UpdateCartQuantity_short foldEq c products productName n k I i P hn' hI hP
            hs.1 hs.2]
          exact ⟨SameBalance.refl _ _, hpos⟩
        · have hok := stock_ok_of_not_short hs
          obtain ⟨hd, hstock, -⟩ := ht.update_exact n hn' P (List.getElem?_mem hP.1) I
            (List.getElem?_mem hI.1) hPid hok
          by_cases h0 : n = 0
          · subst h0
            rw [UpdateCartQuantity_zero foldEq c products productName k I i P hI hP hok]
            constructor
            · apply sameBalance_transfer products hnodup c.Items _ i P _
                ((0 : GoInt).val - I.Quantity.val) hP.1 hstock
              intro id
              rw [cartQuantity_delete c.Items k I id hI.1, hPid, GoInt.val_zero]
              split <;> omega
            · intro J hJ
              exact hpos J (mem_of_mem_take_append_drop c.Items k J hJ)
          · have hnpos : 0 < n := lt_of_le_of_ne hn' (Ne.symm h0)
            rw [UpdateCartQuantity_set foldEq c products productName n k I i P hnpos
              hI hP hok]
            constructor
            · apply sameBalance_transfer products hnodup c.Items _ i P _
                (n.val - I.Quantity.val) hP.1 hstock
              intro id
              rw [cartQuantity_set c.Items k I n id hI.1, hPid]
            · intro J hJ
              rcases List.mem_or_eq_of_mem_set hJ with h | h
              · exact hpos J h
              · rw [h]
                exact hnpos
      · rw [UpdateCartQuantity_noProduct foldEq c products productName n k I hn' hI hnoP]
        exact ⟨SameBalance.refl _ _, hpos⟩
    · rw [UpdateCartQuantity_noItem foldEq c products productName n hn' hnoI]
      exact ⟨SameBalance.refl _ _, hpos⟩

theorem RemoveFromCart_keeps (foldEq : Char → Char → Bool) (c : Cart)
    (products : List Product) (productName : String) (q : GoInt)
    (ht : NoWrapState (products, c)) :
    SameBalance products c.Items (c.RemoveFromCart foldEq products productName q).products
        (c.RemoveFromCart foldEq products productName q).cart.Items
    ∧ ∀ I ∈ (c.RemoveFromCart foldEq products productName q).cart.Items,
        0 < I.Quantity := by
  have hnodup : (catalogIDs products).Nodup := ht.1
  have hpos : ∀ I ∈ c.Items, 0 < I.Quantity := ht.2.1
  by_cases hq : q ≤ 0
  · rw [RemoveFromCart_nonpos foldEq c products productName q hq]
    exact ⟨SameBalance.refl _ _, hpos⟩
  · have hq' : 0 < q := not_le.mp hq
    have hq0 : (0 : Int) < q.val := hq'
    rcases first_or_none (fun J : CartItem => EqualFold foldEq J.Product.Name productName)
      c.Items with ⟨k, I, hI⟩ | hnoI
    · by_cases hs : I.Quantity < q
      · rw [RemoveFromCart_tooMany foldEq c products productName q k I hq' hI hs]
        exact ⟨SameBalance.refl _ _, hpos⟩
      · have hle : q ≤ I.Quantity := not_lt.mp hs
        have hle0 : q.val ≤ I.Quantity.val := hle
        have hsubq := GoInt.val_sub_of_le I.Quantity q hq' hle
        have hposAfter : ∀ he : I.Quantity ≠ q,
            ∀ J ∈ c.Items.set k { I with Quantity := I.Quantity - q }, 0 < J.Quantity := by
          intro he J hJ
          rcases List.mem_or_eq_of_mem_set hJ with h | h
          · exact hpos J h
          · rw [h]
            show (0 : GoInt).val < (I.Quantity - q).val
            have hne : I.Quantity.val ≠ q.val := fun h2 => he (GoInt.ext h2)
            rw [hsubq, GoInt.val_zero]
            omega
        rcases first_or_none (fun p : Product => p.ID == I.Product.ID) products
          with ⟨i, P, hP⟩ | hnoP
        · have hPid : P.ID = I.Product.ID := by simpa using hP.2.1
          have hroom := ht.stock_add_quantity P (List.getElem?_mem hP.1) I
            (List.getElem?_mem hI.1) hPid.symm
          have hstock : (P.Stock + q).val = P.Stock.val - (-q.val) := by
            rw [GoInt.val_add_of_fits]
            · omega
            · have := P.Stock.inRange
              unfold Representable
              omega
          by_cases he : I.Quantity = q
          · rw [RemoveFromCart_all foldEq c products productName q k I hq' hI he,
              restoreStock_first products I.Product.ID q i P hP]
            constructor
            · apply sameBalance_transfer products hnodup c.Items _ i P _ (-q.val) hP.1 hstock
              intro id
              rw [cartQuantity_delete c.Items k I id hI.1, hPid, he]
              split <;> omega
            · intro J hJ
              exact hpos J (mem_of_mem_take_append_drop c.Items k J hJ)
          · rw [RemoveFromCart_some foldEq c products productName q k I hq' hI
                (lt_of_le_of_ne hle (Ne.symm he)),
              restoreStock_first products I.Product.ID q i P hP]
            constructor
            · apply sameBalance_transfer products hnodup c.Items _ i P _ (-q.val) hP.1 hstock
              intro id
              rw [cartQuantity_set c.Items k I (I.Quantity - q) id hI.1, hPid, hsubq]
              split <;> omega
            · exact hposAfter he
        · by_cases he : I.Quantity = q
          · rw [RemoveFromCart_all foldEq c products productName q k I hq' hI he,
              restoreStock_none products I.Product.ID q hnoP]
            constructor
            · apply sameBalance_foreign products c.Items _ I.Product.ID hnoP
              intro id hid
              rw [cartQuantity_delete c.Items k I id hI.1]
              simp [Ne.symm hid]
            · intro J hJ
              exact hpos J (mem_of_mem_take_append_drop c.Items k J hJ)
          · rw [RemoveFromCart_some foldEq c products productName q k I hq' hI
                (lt_of_le_of_ne hle (Ne.symm he)),
              restoreStock_none products I.Product.ID q hnoP]
            constructor
            · apply sameBalance_foreign products c.Items _ I.Product.ID hnoP
              intro id hid
              rw [cartQuantity_set c.Items k I (I.Quantity - q) id hI.1]
              simp [Ne.symm hid]
            · exact hposAfter he
    · rw [RemoveFromCart_noItem foldEq c products productName q hq' hnoI]
      exact ⟨SameBalance.refl _ _, hpos⟩

theorem ClearCart_keeps (c : Cart) (products : List Product)
    (ht : NoWrapState (products, c)) :
    SameBalance products c.Items (c.ClearCart products).1 (c.ClearCart products).2.Items
    ∧ ∀ I ∈ (c.ClearCart products).2.Items, 0 < I.Quantity := by
  refine ⟨⟨?_, fun j p hp => ?_⟩, fun _ hI => absurd hI (List.not_mem_nil _)⟩
  · have h := congrArg List.length (clearLoop_catalogIDs c.Items products)
    simpa [catalogIDs] using h
  · refine ⟨_, clearLoop_getElem? c.Items products ht.1 j p hp, rfl, ?_⟩
    have h1 := cartQuantity_nonneg c.Items ht.2.1 p.ID
    have h2 : p.Stock.val + cartQuantity c.Items p.ID ≤ maxInt.val :=
      ht.2.2 p (List.getElem?_mem hp)
    rw [maxInt_val] at h2
    have h3 := p.Stock.inRange
    show (GoInt.ofInt (p.Stock.val + cartQuantity c.Items p.ID)).val
      + cartQuantity ([] : List CartItem) p.ID = _
    rw [GoInt.val_ofInt, wrap_of_representable, cartQuantity_nil]
    · omega
    · unfold Representable
      omega

/-- The balance carries the room over: a state with the balance of a state without room for a
wrap has none either, once its cart has positive quantities. -/
theorem NoWrapState.of_sameBalance {s s2 : List Product × Cart} (ht : NoWrapState s)
    (hb : SameBalance s.1 s.2.Items s2.1 s2.2.Items)
    (hpos : ∀ I ∈ s2.2.Items, 0 < I.Quantity) : NoWrapState s2 := by
  refine ⟨by rw [hb.catalogIDs_eq]; exact ht.1, hpos, ?_⟩
  intro p2 hp2
  obtain ⟨j, hj⟩ := List.mem_iff_getElem?.mp hp2
  have hj2 : j < s2.1.length := (List.getElem?_eq_some_iff.mp hj).1
  have hj1 : j < s.1.length := by rw [← hb.1]; exact hj2
  obtain ⟨p3, hp3, hid, hbal⟩ := hb.2 j (s.1[j]) (List.getElem?_eq_getElem hj1)
  rw [hj] at hp3
  simp only [Option.some.injEq] at hp3
  subst hp3
  have := ht.2.2 (s.1[j]) (List.getElem_mem hj1)
  rw [hid]
  omega

theorem apply_keeps (foldEq : Char → Char → Bool) (op : CartOp)
    (s : List Product × Cart) (ht : NoWrapState s) :
    SameBalance s.1 s.2.Items (op.apply foldEq s).1 (op.apply foldEq s).2.Items
    ∧ NoWrapState (op.apply foldEq s) := by
  have h : SameBalance s.1 s.2.Items (op.apply foldEq s).1 (op.apply foldEq s).2.Items
      ∧ ∀ I ∈ (op.apply foldEq s).2.Items, 0 < I.Quantity := by
    cases op with
    | add n q => exact AddToCart_keeps foldEq s.2 s.1 n q ht
    | update n q => exact UpdateCartQuantity_keeps foldEq s.2 s.1 n q ht
    | remove n q => exact RemoveFromCart_keeps foldEq s.2 s.1 n q ht
    | clear => exact ClearCart_keeps s.2 s.1 ht
  exact ⟨h.1, ht.of_sameBalance h.1 h.2⟩

theorem runOps_keeps (foldEq : Char → Char → Bool) (ops : List CartOp)
    (s : List Product × Cart) (ht : NoWrapState s) :
    SameBalance s.1 s.2.Items (runOps foldEq ops s).1 (runOps foldEq ops s).2.Items
    ∧ NoWrapState (runOps foldEq ops s) := by
  induction ops generalizing s with
  | nil => exact ⟨SameBalance.refl _ _, ht⟩
  | cons op ops ih =>
    have h1 := apply_keeps foldEq op s ht
    have h2 := ih (op.apply foldEq s) h1.2
    exact ⟨h1.1.trans h2.1, h2.2⟩

/-- The empty cart on a catalog with distinct IDs is a state without room for a wrap. -/
theorem noWrapState_newCart (products : List Product)
    (hnodup : (catalogIDs products).Nodup) : NoWrapState (products, NewCart) := by
  refine ⟨hnodup, fun _ hI => absurd hI (List.not_mem_nil _), fun p _ => ?_⟩
  have := p.Stock.inRange
  rw [maxInt_val]
  show p.Stock.val + cartQuantity ([] : List CartItem) p.ID ≤ _
  rw [cartQuantity_nil]
  omega

/-- C1. Reconciliation invariant: start from a catalog with pairwise distinct product IDs and
the empty cart of `NewCart`, and make any finite sequence of `AddToCart`,
`UpdateCartQuantity`, `RemoveFromCart` and `ClearCart` calls with any arguments (calls that
return an error included).  Then the catalog has its initial length and, at every index, a
product with the initial ID whose `Stock` plus the sum of `Quantity` over the cart items with
that ID is the `Stock` the initial product had. -/
theorem reconciliation_invariant (foldEq : Char → Char → Bool) (products : List Product)
    (hnodup : (catalogIDs products).Nodup) (ops : List CartOp) :
    (runOps foldEq ops (products, NewCart)).1.length = products.length
    ∧ ∀ (j : Nat) (P : Product), products[j]? = some P →
        ∃ P2, (runOps foldEq ops (products, NewCart)).1[j]? = some P2
          ∧ P2.ID = P.ID
          ∧ P2.Stock.val + cartQuantity (runOps foldEq ops (products, NewCart)).2.Items P2.ID
              = P.Stock.val := by
  have h := (runOps_keeps foldEq ops (products, NewCart) (noWrapState_newCart products hnodup)).1
  refine ⟨h.1, fun j P hP => ?_⟩
  obtain ⟨P2, hP2, hid, hb⟩ := h.2 j P hP
  refine ⟨P2, hP2, hid, ?_⟩
  rw [hid, hb]
  simp [NewCart, cartQuantity_nil]

/-- An instance of C1: on the scenario's catalog, after adding 3, updating to 5, a failing
request for 100 more and removing 1, the stock of "Dune" is 10 minus what the cart holds. -/
theorem reconciliation_invariant_witness :
    (catalogIDs duneCatalog).Nodup
    ∧ ∃ P2 : Product,
        (runOps asciiFoldEq
          [.add "Dune" 3, .update "dune" 5, .add "Dune" 100, .remove "DUNE" 1]
          (duneCatalog, NewCart)).1[0]? = some P2
        ∧ P2.ID = "b1"
        ∧ P2.Stock.val + cartQuantity (runOps asciiFoldEq
            [.add "Dune" 3, .update "dune" 5, .add "Dune" 100, .remove "DUNE" 1]
            (duneCatalog, NewCart)).2.Items P2.ID = (10 : GoInt).val :=
  ⟨by decide,
    (reconciliation_invariant asciiFoldEq duneCatalog (by decide)
      [.add "Dune" 3, .update "dune" 5, .add "Dune" 100, .remove "DUNE" 1]).2 0
      ⟨"b1", "Dune", "", price15, "books", 10⟩ rfl⟩

/-! ## `SearchProducts` -/

theorem containsRunes_iff_infix (s sub : List Char) :
    containsRunes s sub = true ↔ sub <:+: s := by
  induction s with
  | nil => simp [containsRunes]
  | cons c s ih =>
    simp only [containsRunes, Bool.or_eq_true, List.isPrefixOf_iff_prefix, ih]
    exact List.infix_cons_iff.symm

/-- The test in the body of the loop of `SearchProducts` is the filter of the reference
definition. -/
theorem loopTest_eq_searchMatches (lower : Char → Char) (name category : String)
    (product : Product) :
    ((name == "" || Contains (ToLower lower product.Name) (ToLower lower name))
        && (category == "" || ToLower lower product.Category == ToLower lower category))
      = searchMatches lower name category product := by
  have h : Contains (ToLower lower product.Name) (ToLower lower name)
      = decide ((ToLower lower name).data <:+: (ToLower lower product.Name).data) := by
    rw [Bool.eq_iff_iff, decide_eq_true_iff]
    exact containsRunes_iff_infix _ _
  simp only [searchMatches, h]

theorem searchLoop_unlimited (lower : Char → Char) (name category : String) (limit : Int)
    (hlimit : limit ≤ 0) (l results : List Product) :
    searchLoop lower name category limit l results
      = results ++ l.filter (searchMatches lower name category) := by
  induction l generalizing results with
  | nil => simp [searchLoop]
  | cons p rest ih =>
    have hnot : ¬ (limit > 0 ∧ (results.length : Int) ≥ limit) := fun h => by omega
    simp only [searchLoop, hnot, if_false, loopTest_eq_searchMatches, List.filter_cons]
    cases searchMatches lower name category p with
    | true => simp [ih]
    | false => simp [ih]

theorem searchLoop_limited (lower : Char → Char) (name category : String) (limit : Int)
    (hlimit : 0 < limit) (l results : List Product) (hlen : results.length ≤ limit.toNat) :
    searchLoop lower name category limit l results
      = (results ++ l.filter (searchMatches lower name category)).take limit.toNat := by
  induction l generalizing results with
  | nil =>
    simp only [searchLoop, List.filter_nil, List.append_nil]
    exact (List.take_of_length_le hlen).symm
  | cons p rest ih =>
    by_cases hfull : (results.length : Int) ≥ limit
    · have hlen2 : results.length = limit.toNat := by omega
      have hcond : limit > 0 ∧ (results.length : Int) ≥ limit := ⟨hlimit, hfull⟩
      simp only [searchLoop, hcond, if_true]
      exact (List.take_left' hlen2).symm
    · have hcond : ¬ (limit > 0 ∧ (results.length : Int) ≥ limit) := fun h => hfull h.2
      simp only [searchLoop, hcond, if_false, loopTest_eq_searchMatches, List.filter_cons]
      cases searchMatches lower name category p with
      | true =>
        have hlen2 : (results ++ [p]).length ≤ limit.toNat := by
          simp only [List.length_append, List.length_singleton]
          omega
        simp [ih _ hlen2]
      | false => simp [ih _ hlen]

/-- C10. `SearchProducts` equals its reference definition: the catalog products, in catalog
order, for which (the name asked for is empty or the lowercased `Name` contains it,
lowercased, as a substring) and (the category asked for is empty or the lowercased `Category`
equals it, lowercased), cut to the first `limit` of them when `limit > 0` and not cut when
`limit <= 0`.  Hence at most `limit` results when `limit > 0`, the empty result when nothing
matches, and the whole catalog for empty name, empty category and `limit <= 0`. -/
theorem SearchProducts_eq_reference (lower : Char → Char) (products : List Product)
    (name category : String) (limit : Int) :
    SearchProducts lower products name category limit
        = SearchReference lower products name category limit
    ∧ (0 < limit → (SearchProducts lower products name category limit).length ≤ limit.toNat)
    ∧ ((∀ p ∈ products, searchMatches lower name category p = false) →
        SearchProducts lower products name category limit = [])
    ∧ (limit ≤ 0 → SearchProducts lower products "" "" limit = products) := by
  have heq : SearchProducts lower products name category limit
      = SearchReference lower products name category limit := by
    unfold SearchProducts SearchReference
    by_cases hlimit : 0 < limit
    · rw [searchLoop_limited lower name category limit hlimit products [] (by simp)]
      simp [hlimit]
    · rw [searchLoop_unlimited lower name category limit (not_lt.mp hlimit) products []]
      simp [hlimit]
  refine ⟨heq, ?_, ?_, ?_⟩
  · intro hlimit
    rw [heq]
    simp only [SearchReference, gt_iff_lt, hlimit, if_true, List.length_take]
    exact Nat.min_le_left _ _
  · intro hno
    have hfilter : products.filter (searchMatches lower name category) = [] := by
      rw [List.filter_eq_nil_iff]
      intro p hp
      simp [hno p hp]
    rw [heq]
    simp only [SearchReference, hfilter]
    split <;> simp
  · intro hlimit
    unfold SearchProducts
    rw [searchLoop_unlimited lower "" "" limit hlimit products []]
    simp [searchMatches]

/-! ## Positive quantities in the cart, stock that is not negative -/

theorem AddToCart_cart_pos (foldEq : Char → Char → Bool) (c : Cart)
    (products : List Product) (productName : String) (q : GoInt)
    (hpos : ∀ I ∈ c.Items, 0 < I.Quantity)
    (hfit : ∀ (i : Nat) (P : Product) (k : Nat) (I : CartItem),
      IsFirst (fun p : Product => EqualFold foldEq p.Name productName) products i P →
      IsFirst (fun item : CartItem => item.Product.ID == P.ID) c.Items k I →
      I.Quantity.val + q.val ≤ maxInt.val) :
    ∀ I ∈ (c.AddToCart foldEq products productName q).cart.Items, 0 < I.Quantity := by
  by_cases hq : q ≤ 0
  · rw [AddToCart_nonpos foldEq c products productName q hq]
    exact hpos
  · have hq' : 0 < q := not_le.mp hq
    have hq0 : (0 : Int) < q.val := hq'
    rcases first_or_none (fun p : Product => EqualFold foldEq p.Name productName) products
      with ⟨i, P, hP⟩ | hno
    · by_cases hs : P.Stock < q
      · rw [AddToCart_short foldEq c products productName q i P hq' hP hs]
        exact hpos
      · rcases first_or_none (fun item : CartItem => item.Product.ID == P.ID) c.Items
          with ⟨k, I, hI⟩ | hnoI
        · rw [AddToCart_merge foldEq c products productName q i P k I hq' hP (not_lt.mp hs) hI]
          intro J hJ
          rcases List.mem_or_eq_of_mem_set hJ with h | h
          · exact hpos J h
          · have h1 : (0 : Int) < I.Quantity.val := hpos I (List.getElem?_mem hI.1)
            have h2 := hfit i P k I hP hI
            rw [maxInt_val] at h2
            rw [h]
            show (0 : GoInt).val < (I.Quantity + q).val
            rw [GoInt.val_add_of_fits, GoInt.val_zero]
            · omega
            · unfold Representable
              omega
        · rw [AddToCart_append foldEq c products productName q i P hq' hP (not_lt.mp hs) hnoI]
          intro J hJ
          rcases List.mem_append.mp hJ with h | h
          · exact hpos J h
          · rw [List.mem_singleton.mp h]
            exact hq'
    · rw [AddToCart_noMatch foldEq c products productName q hq' hno]
      exact hpos

theorem UpdateCartQuantity_cart_pos (foldEq : Char → Char → Bool) (c : Cart)
    (products : List Product) (productName : String) (n : GoInt)
    (hpos : ∀ I ∈ c.Items, 0 < I.Quantity) :
    ∀ I ∈ (c.UpdateCartQuantity foldEq products productName n).cart.Items,
      0 < I.Quantity := by
  by_cases hn : n < 0
  · rw [UpdateCartQuantity_negative foldEq c products productName n hn]
    exact hpos
  · have hn' : 0 ≤ n := not_lt.mp hn
    rcases first_or_none (fun J : CartItem => EqualFold foldEq J.Product.Name productName)
      c.Items with ⟨k, I, hI⟩ | hnoI
    · rcases first_or_none (fun p : Product => p.ID == I.Product.ID) products
        with ⟨i, P, hP⟩ | hnoP
      · by_cases hs : 0 < n - I.Quantity ∧ P.Stock < n - I.Quantity
        · rw [UpdateCartQuantity_short foldEq c products productName n k I i P hn' hI hP
            hs.1 hs.2]
          exact hpos
        · have hok := stock_ok_of_not_short hs
          by_cases h0 : n = 0
          · subst h0
            rw [UpdateCartQuantity_zero foldEq c products productName k I i P hI hP hok]
            intro J hJ
            exact hpos J (mem_of_mem_take_append_drop c.Items k J hJ)
          · have hnpos : 0 < n := lt_of_le_of_ne hn' (Ne.symm h0)
            rw [UpdateCartQuantity_set foldEq c products productName n k I i P hnpos
              hI hP hok]
            intro J hJ
            rcases List.mem_or_eq_of_mem_set hJ with h | h
            · exact hpos J h
            · rw [h]
              exact hnpos
      · rw [UpdateCartQuantity_noProduct foldEq c products productName n k I hn' hI hnoP]
        exact hpos
    · rw [UpdateCartQuantity_noItem foldEq c products productName n hn' hnoI]
      exact hpos

theorem RemoveFromCart_cart_pos (foldEq : Char → Char → Bool) (c : Cart)
    (products : List Product) (productName : String) (q : GoInt)
    (hpos : ∀ I ∈ c.Items, 0 < I.Quantity) :
    ∀ I ∈ (c.RemoveFromCart foldEq products productName q).cart.Items, 0 < I.Quantity := by
  by_cases hq : q ≤ 0
  · rw [RemoveFromCart_nonpos foldEq c products productName q hq]
    exact hpos
  · have hq' : 0 < q := not_le.mp hq
    rcases first_or_none (fun J : CartItem => EqualFold foldEq J.Product.Name productName)
      c.Items with ⟨k, I, hI⟩ | hnoI
    · by_cases hs : I.Quantity < q
      · rw [RemoveFromCart_tooMany foldEq c products productName q k I hq' hI hs]
        exact hpos
      · have hle : q ≤ I.Quantity := not_lt.mp hs
        by_cases he : I.Quantity = q
        · rw [RemoveFromCart_all foldEq c products productName q k I hq' hI he]
          intro J hJ
          exact hpos J (mem_of_mem_take_append_drop c.Items k J hJ)
        · rw [RemoveFromCart_some foldEq c products productName q k I hq' hI
            (lt_of_le_of_ne hle (Ne.symm he))]
          intro J hJ
          rcases List.mem_or_eq_of_mem_set hJ with h | h
          · exact hpos J h
          · rw [h]
            show (0 : GoInt).val < (I.Quantity - q).val
            have hle0 : q.val ≤ I.Quantity.val := hle
            have hne : I.Quantity.val ≠ q.val := fun h2 => he (GoInt.ext h2)
            rw [GoInt.val_sub_of_le I.Quantity q hq' hle, GoInt.val_zero]
            omega
    · rw [RemoveFromCart_noItem foldEq c products productName q hq' hnoI]
      exact hpos

/-- C18, the claim as stated fails: the cart holds the largest `int` of copies of "Dune", a
positive quantity, and the catalog has one more in stock; after `AddToCart("Dune", 1)`, which
returns no error, the cart's item has the least `int` as its quantity. -/
theorem AddToCart_quantity_turns_negative :
    (∀ I ∈ (Cart.mk [⟨⟨"b1", "Dune", "", price15, "books", 1⟩, maxInt⟩]).Items, 0 < I.Quantity)
    ∧ ¬ (∀ I ∈ ((Cart.mk [⟨⟨"b1", "Dune", "", price15, "books", 1⟩, maxInt⟩]).AddToCart
          asciiFoldEq [⟨"b1", "Dune", "", price15, "books", 1⟩] "Dune" 1).cart.Items,
        0 < I.Quantity) := by
  decide

/-- C18, amended. Cart quantities stay strictly positive: if every item of the cart has
`Quantity > 0` before a call, then after a call of `UpdateCartQuantity`, `RemoveFromCart` or
`ClearCart`, with any catalog and any arguments, with or without an error, every item of the
cart has `Quantity > 0`; after a call of `AddToCart` too, provided that the quantity of the
item the call would merge into (the first item with the ID of the first product of that name)
plus the quantity asked for does not exceed the largest `int`.  That proviso holds in every
state reached from the empty cart on a catalog with pairwise distinct IDs: after any sequence
of calls from there every item of the cart has `Quantity > 0`. -/
theorem cart_quantities_stay_positive (foldEq : Char → Char → Bool) (c : Cart)
    (products : List Product) (productName : String) (q : GoInt)
    (hpos : ∀ I ∈ c.Items, 0 < I.Quantity) :
    ((∀ (i : Nat) (P : Product) (k : Nat) (I : CartItem),
        IsFirst (fun p : Product => EqualFold foldEq p.Name productName) products i P →
        IsFirst (fun item : CartItem => item.Product.ID == P.ID) c.Items k I →
        I.Quantity.val + q.val ≤ maxInt.val) →
      ∀ I ∈ (c.AddToCart foldEq products productName q).cart.Items, 0 < I.Quantity)
    ∧ (∀ I ∈ (c.UpdateCartQuantity foldEq products productName q).cart.Items, 0 < I.Quantity)
    ∧ (∀ I ∈ (c.RemoveFromCart foldEq products productName q).cart.Items, 0 < I.Quantity)
    ∧ (∀ I ∈ (c.ClearCart products).2.Items, 0 < I.Quantity)
    ∧ (∀ (catalog : List Product) (ops : List CartOp), (catalogIDs catalog).Nodup →
        ∀ I ∈ (runOps foldEq ops (catalog, NewCart)).2.Items, 0 < I.Quantity) :=
  ⟨AddToCart_cart_pos foldEq c products productName q hpos,
    UpdateCartQuantity_cart_pos foldEq c products productName q hpos,
    RemoveFromCart_cart_pos foldEq c products productName q hpos,
    fun _ hI => absurd hI (List.not_mem_nil _),
    fun catalog ops hnodup =>
      (runOps_keeps foldEq ops (catalog, NewCart) (noWrapState_newCart catalog hnodup)).2.2.1⟩

/-- An instance of C18: a cart with three copies of "Dune", to which two of the seven in stock
are added and from which two are removed: the cart is left with one item, of quantity 5 and
of quantity 1. -/
theorem cart_quantities_stay_positive_witness :
    (∀ I ∈ (Cart.mk [⟨⟨"b1", "Dune", "", price15, "books", 10⟩, 3⟩]).Items, 0 < I.Quantity)
    ∧ ((Cart.mk [⟨⟨"b1", "Dune", "", price15, "books", 10⟩, 3⟩]).AddToCart asciiFoldEq
        [⟨"b1", "Dune", "", price15, "books", 7⟩] "dune" 2).cart.Items
        = [⟨⟨"b1", "Dune", "", price15, "books", 10⟩, 5⟩]
    ∧ (∀ I ∈ ((Cart.mk [⟨⟨"b1", "Dune", "", price15, "books", 10⟩, 3⟩]).AddToCart
        asciiFoldEq [⟨"b1", "Dune", "", price15, "books", 7⟩] "dune" 2).cart.Items,
        0 < I.Quantity)
    ∧ ((Cart.mk [⟨⟨"b1", "Dune", "", price15, "books", 10⟩, 3⟩]).RemoveFromCart asciiFoldEq
        [⟨"b1", "Dune", "", price15, "books", 7⟩] "dune" 2).cart.Items
        = [⟨⟨"b1", "Dune", "", price15, "books", 10⟩, 1⟩]
    ∧ (∀ I ∈ ((Cart.mk [⟨⟨"b1", "Dune", "", price15, "books", 10⟩, 3⟩]).RemoveFromCart
        asciiFoldEq [⟨"b1", "Dune", "", price15, "books", 7⟩] "dune" 2).cart.Items,
        0 < I.Quantity) :=
  ⟨by decide, by decide,
    (cart_quantities_stay_positive asciiFoldEq
      (Cart.mk [⟨⟨"b1", "Dune", "", price15, "books", 10⟩, 3⟩])
      [⟨"b1", "Dune", "", price15, "books", 7⟩] "dune" 2 (by decide)).1
      (fun i P k I hP hI => by
        have h1 := IsFirst.unique hP
          (show IsFirst (fun p : Product => EqualFold asciiFoldEq p.Name "dune")
            [⟨"b1", "Dune", "", price15, "books", 7⟩] 0
            ⟨"b1", "Dune", "", price15, "books", 7⟩ from by decide)
        rw [h1.2] at hI
        have h2 := IsFirst.unique hI
          (show IsFirst (fun item : CartItem => item.Product.ID == "b1")
            [⟨⟨"b1", "Dune", "", price15, "books", 10⟩, 3⟩] 0
            ⟨⟨"b1", "Dune", "", price15, "books", 10⟩, 3⟩ from by decide)
        rw [h2.2]
        decide),
    by decide,
    (cart_quantities_stay_positive asciiFoldEq
      (Cart.mk [⟨⟨"b1", "Dune", "", price15, "books", 10⟩, 3⟩])
      [⟨"b1", "Dune", "", price15, "books", 7⟩] "dune" 2 (by decide)).2.2.1⟩

theorem stock_nonneg_set (products : List Product) (i : Nat) (P : Product) (s : GoInt)
    (hs : 0 ≤ s) (hst : ∀ p ∈ products, 0 ≤ p.Stock) :
    ∀ p ∈ products.set i { P with Stock := s }, 0 ≤ p.Stock := by
  intro p hp
  rcases List.mem_or_eq_of_mem_set hp with h | h
  · exact hst p h
  · rw [h]
    exact hs

theorem AddToCart_stock_nonneg (foldEq : Char → Char → Bool) (c : Cart)
    (products : List Product) (productName : String) (q : GoInt)
    (hst : ∀ p ∈ products, 0 ≤ p.Stock) :
    ∀ p ∈ (c.AddToCart foldEq products productName q).products, 0 ≤ p.Stock := by
  by_cases hq : q ≤ 0
  · rw [AddToCart_nonpos foldEq c products productName q hq]
    exact hst
  · have hq' : 0 < q := not_le.mp hq
    rcases first_or_none (fun p : Product => EqualFold foldEq p.Name productName) products
      with ⟨i, P, hP⟩ | hno
    · by_cases hs : P.Stock < q
      · rw [AddToCart_short foldEq c products productName q i P hq' hP hs]
        exact hst
      · have hle : q ≤ P.Stock := not_lt.mp hs
        have hle0 : q.val ≤ P.Stock.val := hle
        have hnew : 0 ≤ P.Stock - q := by
          show (0 : GoInt).val ≤ (P.Stock - q).val
          rw [GoInt.val_sub_of_le P.Stock q hq' hle, GoInt.val_zero]
          omega
        rcases first_or_none (fun item : CartItem => item.Product.ID == P.ID) c.Items
          with ⟨k, I, hI⟩ | hnoI
        · rw [AddToCart_merge foldEq c products productName q i P k I hq' hP hle hI]
          exact stock_nonneg_set products i P _ hnew hst
        · rw [AddToCart_append foldEq c products productName q i P hq' hP hle hnoI]
          exact stock_nonneg_set products i P _ hnew hst
    · rw [AddToCart_noMatch foldEq c products productName q hq' hno]
      exact hst

theorem UpdateCartQuantity_stock_nonneg (foldEq : Char → Char → Bool) (c : Cart)
    (products : List Product) (productName : String) (n : GoInt)
    (ht : NoWrapState (products, c)) (hst : ∀ p ∈ products, 0 ≤ p.Stock) :
    ∀ p ∈ (c.UpdateCartQuantity foldEq products productName n).products, 0 ≤ p.Stock := by
  by_cases hn : n < 0
  · rw [UpdateCartQuantity_negative foldEq c products productName n hn]
    exact hst
  · have hn' : 0 ≤ n := not_lt.mp hn
    rcases first_or_none (fun J : CartItem => EqualFold foldEq J.Product.Name productName)
      c.Items with ⟨k, I, hI⟩ | hnoI
    · rcases first_or_none (fun p : Product => p.ID == I.Product.ID) products
        with ⟨i, P, hP⟩ | hnoP
      · have hPst : (0 : Int) ≤ P.Stock.val := hst P (List.getElem?_mem hP.1)
        have hPid : P.ID = I.Product.ID := by simpa using hP.2.1
        by_cases hs : 0 < n - I.Quantity ∧ P.Stock < n - I.Quantity
        · rw [UpdateCartQuantity_short foldEq c products productName n k I i P hn' hI hP
            hs.1 hs.2]
          exact hst
        · have hok := stock_ok_of_not_short hs
          obtain ⟨-, hstock, hge⟩ := ht.update_exact n hn' P (List.getElem?_mem hP.1) I
            (List.getElem?_mem hI.1) hPid hok
          have hnew : 0 ≤ P.Stock - (n - I.Quantity) := by
            show (0 : GoInt).val ≤ (P.Stock - (n - I.Quantity)).val
            rw [hstock, GoInt.val_zero]
            omega
          by_cases h0 : n = 0
          · subst h0
            rw [UpdateCartQuantity_zero foldEq c products productName k I i P hI hP hok]
            exact stock_nonneg_set products i P _ hnew hst
          · rw [UpdateCartQuantity_set foldEq c products productName n k I i P
              (lt_of_le_of_ne hn' (Ne.symm h0)) hI hP hok]
            exact stock_nonneg_set products i P _ hnew hst
      · rw [UpdateCartQuantity_noProduct foldEq c products productName n k I hn' hI hnoP]
        exact hst
    · rw [UpdateCartQuantity_noItem foldEq c products productName n hn' hnoI]
      exact hst

theorem RemoveFromCart_stock_nonneg (foldEq : Char → Char → Bool) (c : Cart)
    (products : List Product) (productName : String) (q : GoInt)
    (ht : NoWrapState (products, c)) (hst : ∀ p ∈ products, 0 ≤ p.Stock) :
    ∀ p ∈ (c.RemoveFromCart foldEq products productName q).products, 0 ≤ p.Stock := by
  by_cases hq : q ≤ 0
  · rw [RemoveFromCart_nonpos foldEq c products productName q hq]
    exact hst
  · have hq' : 0 < q := not_le.mp hq
    have hq0 : (0 : Int) < q.val := hq'
    rcases first_or_none (fun J : CartItem => EqualFold foldEq J.Product.Name productName)
      c.Items with ⟨k, I, hI⟩ | hnoI
    · by_cases hs : I.Quantity < q
      · rw [RemoveFromCart_tooMany foldEq c products productName q k I hq' hI hs]
        exact hst
      · have hle : q ≤ I.Quantity := not_lt.mp hs
        have hle0 : q.val ≤ I.Quantity.val := hle
        have hrestore : ∀ p ∈ restoreStock products I.Product.ID q, 0 ≤ p.Stock := by
          rcases first_or_none (fun p : Product => p.ID == I.Product.ID) products
            with ⟨i, P, hP⟩ | hnoP
          · have hPid : P.ID = I.Product.ID := by simpa using hP.2.1
            have hPst : (0 : Int) ≤ P.Stock.val := hst P (List.getElem?_mem hP.1)
            have hroom := ht.stock_add_quantity P (List.getElem?_mem hP.1) I
              (List.getElem?_mem hI.1) hPid.symm
            rw [restoreStock_first products I.Product.ID q i P hP]
            apply stock_nonneg_set products i P _ _ hst
            show (0 : GoInt).val ≤ (P.Stock + q).val
            rw [GoInt.val_add_of_fits, GoInt.val_zero]
            · omega
            · unfold Representable
              omega
          · rw [restoreStock_none products I.Product.ID q hnoP]
            exact hst
        by_cases he : I.Quantity = q
        · rw [RemoveFromCart_all foldEq c products productName q k I hq' hI he]
          exact hrestore
        · rw [RemoveFromCart_some foldEq c products productName q k I hq' hI
            (lt_of_le_of_ne hle (Ne.symm he))]
          exact hrestore
    · rw [RemoveFromCart_noItem foldEq c products productName q hq' hnoI]
      exact hst

theorem ClearCart_stock_nonneg (c : Cart) (products : List Product)
    (ht : NoWrapState (products, c)) (hst : ∀ p ∈ products, 0 ≤ p.Stock) :
    ∀ p ∈ (c.ClearCart products).1, 0 ≤ p.Stock := by
  intro p2 hp2
  obtain ⟨j, hj⟩ := List.mem_iff_getElem?.mp hp2
  have hlen : (c.ClearCart products).1.length = products.length :=
    (ClearCart_keeps c products ht).1.1
  have hj2 : j < (c.ClearCart products).1.length := (List.getElem?_eq_some_iff.mp hj).1
  have hj1 : j < products.length := by rw [← hlen]; exact hj2
  have hget : products[j]? = some products[j] := List.getElem?_eq_getElem hj1
  have h := clearLoop_getElem? c.Items products ht.1 j products[j] hget
  have hmem : products[j] ∈ products := List.getElem_mem hj1
  have h0 : (0 : Int) ≤ (products[j]).Stock.val := hst _ hmem
  have h1 := cartQuantity_nonneg c.Items ht.2.1 (products[j]).ID
  have h2 : (products[j]).Stock.val + cartQuantity c.Items (products[j]).ID ≤ maxInt.val :=
    ht.2.2 _ hmem
  rw [maxInt_val] at h2
  have h3 : (c.ClearCart products).1[j]? = some p2 := hj
  have h4 : (c.ClearCart products).1[j]?
      = some { products[j] with
          Stock := GoInt.ofInt ((products[j]).Stock.val
            + cartQuantity c.Items (products[j]).ID) } := h
  rw [h3] at h4
  simp only [Option.some.injEq] at h4
  rw [h4]
  show (0 : GoInt).val ≤ (GoInt.ofInt _).val
  rw [GoInt.val_ofInt, wrap_of_representable, GoInt.val_zero]
  · omega
  · unfold Representable
    omega

/-- One call keeps stock that is not negative, in a state without room for a wrap. -/
theorem apply_keeps_stock (foldEq : Char → Char → Bool) (op : CartOp)
    (s : List Product × Cart) (ht : NoWrapState s) (hst : ∀ p ∈ s.1, 0 ≤ p.Stock) :
    ∀ p ∈ (op.apply foldEq s).1, 0 ≤ p.Stock := by
  cases op with
  | add n q => exact AddToCart_stock_nonneg foldEq s.2 s.1 n q hst
  | update n q => exact UpdateCartQuantity_stock_nonneg foldEq s.2 s.1 n q ht hst
  | remove n q => exact RemoveFromCart_stock_nonneg foldEq s.2 s.1 n q ht hst
  | clear => exact ClearCart_stock_nonneg s.2 s.1 ht hst

theorem runOps_keeps_stock (foldEq : Char → Char → Bool) (ops : List CartOp)
    (s : List Product × Cart) (ht : NoWrapState s) (hst : ∀ p ∈ s.1, 0 ≤ p.Stock) :
    ∀ p ∈ (runOps foldEq ops s).1, 0 ≤ p.Stock := by
  induction ops generalizing s with
  | nil => exact hst
  | cons op ops ih =>
    exact ih (op.apply foldEq s) (apply_keeps foldEq op s ht).2
      (apply_keeps_stock foldEq op s ht hst)

/-- C11. Stock is never negative: start from a catalog with pairwise distinct IDs in which
every `Stock >= 0` and from the empty cart, and make any finite sequence of `AddToCart`,
`UpdateCartQuantity`, `RemoveFromCart` and `ClearCart` calls with any arguments.  Then every
catalog product has `Stock >= 0`, and for every product of the initial catalog the cart holds
at most as many units (sum of `Quantity` over the items with its ID) as its initial `Stock`. -/
theorem stock_never_negative (foldEq : Char → Char → Bool) (products : List Product)
    (hnodup : (catalogIDs products).Nodup) (hst : ∀ p ∈ products, 0 ≤ p.Stock)
    (ops : List CartOp) :
    (∀ p ∈ (runOps foldEq ops (products, NewCart)).1, 0 ≤ p.Stock)
    ∧ ∀ (j : Nat) (P : Product), products[j]? = some P →
        cartQuantity (runOps foldEq ops (products, NewCart)).2.Items P.ID ≤ P.Stock.val := by
  have ht := noWrapState_newCart products hnodup
  have hstock := runOps_keeps_stock foldEq ops (products, NewCart) ht hst
  refine ⟨hstock, fun j P hP => ?_⟩
  obtain ⟨P2, hP2, -, hb⟩ := (runOps_keeps foldEq ops (products, NewCart) ht).1.2 j P hP
  have h0 : (0 : Int) ≤ P2.Stock.val := hstock P2 (List.getElem?_mem hP2)
  have hnil : cartQuantity (products, NewCart).2.Items P.ID = 0 := rfl
  rw [hnil] at hb
  omega

/-- An instance of C11: on the scenario's catalog, adding all ten copies, asking for one more
and updating to twelve never brings the stock below zero. -/
theorem stock_never_negative_witness :
    (catalogIDs duneCatalog).Nodup
    ∧ (∀ p ∈ duneCatalog, 0 ≤ p.Stock)
    ∧ ∀ p ∈ (runOps asciiFoldEq [.add "Dune" 10, .add "Dune" 1, .update "Dune" 12]
        (duneCatalog, NewCart)).1, 0 ≤ p.Stock :=
  ⟨by decide, by decide,
    (stock_never_negative asciiFoldEq duneCatalog (by decide) (by decide)
      [.add "Dune" 10, .add "Dune" 1, .update "Dune" 12]).1⟩

/-! ## Calls in a row on one product -/

theorem GoInt.sub_self (a : GoInt) : a - a = 0 := by
  apply GoInt.ext
  rw [GoInt.val_sub, GoInt.val_zero]
  unfold wrap
  omega

theorem GoInt.sub_sub (s a b : GoInt) : s - a - b = s - (a + b) := by
  apply GoInt.ext
  simp only [GoInt.val_sub, GoInt.val_add]
  unfold wrap
  omega

theorem GoInt.sub_sub_sub (s a b : GoInt) : s - a - (b - a) = s - b := by
  apply GoInt.ext
  simp only [GoInt.val_sub]
  unfold wrap
  omega

theorem GoInt.sub_add_cancel (s b : GoInt) : s - b + b = s := by
  apply GoInt.ext
  have := s.inRange
  simp only [GoInt.val_sub, GoInt.val_add]
  unfold wrap
  omega

theorem equalFoldRunes_refl (foldEq : Char → Char → Bool) (s : List Char) :
    equalFoldRunes foldEq s s = true := by
  induction s with
  | nil => rfl
  | cons a s ih => simp [equalFoldRunes, ih]

theorem EqualFold_refl (foldEq : Char → Char → Bool) (s : String) :
    EqualFold foldEq s s = true :=
  equalFoldRunes_refl foldEq s.data

theorem take_set_self {α : Type} (l : List α) (i : Nat) (x : α) :
    (l.set i x).take i = l.take i := by
  induction l generalizing i with
  | nil => simp
  | cons a l ih =>
    cases i with
    | zero => simp
    | succ i => simp [ih]

theorem set_self {α : Type} (l : List α) (i : Nat) (x : α) (h : l[i]? = some x) :
    l.set i x = l := by
  induction l generalizing i with
  | nil => simp
  | cons a l ih =>
    cases i with
    | zero =>
      simp only [List.getElem?_cons_zero, Option.some.injEq] at h
      simp [h]
    | succ i =>
      simp only [List.getElem?_cons_succ] at h
      simp [ih i h]

/-- Writing, at the index of the first element satisfying `p`, an element that satisfies `p`
too: it is the first one of the new list. -/
theorem IsFirst.set {α : Type} {p : α → Bool} {l : List α} {i : Nat} {x : α}
    (h : IsFirst p l i x) (x2 : α) (hx2 : p x2 = true) : IsFirst p (l.set i x2) i x2 := by
  have hi : i < l.length := (List.getElem?_eq_some_iff.mp h.1).1
  refine ⟨by simp [hi], hx2, ?_⟩
  rw [take_set_self]
  exact h.2.2

theorem isFirst_ID_of_nodup (products : List Product)
    (hnodup : (catalogIDs products).Nodup) (i : Nat) (P : Product)
    (hP : products[i]? = some P) :
    IsFirst (fun p : Product => p.ID == P.ID) products i P := by
  refine ⟨hP, by simp, ?_⟩
  intro y hy
  obtain ⟨j, hj, hyj⟩ := List.mem_take_iff_getElem.mp hy
  have hj2 : j < products.length := (lt_min_iff.mp hj).2
  have hji : j < i := (lt_min_iff.mp hj).1
  have hy2 : products[j]? = some y := by
    rw [List.getElem?_eq_getElem hj2, hyj]
  have hne : y.ID ≠ P.ID := by
    intro hid
    have := index_eq_of_ID_eq products hnodup i j P y hP hy2 hid
    omega
  simpa using hne

/-- C12, the claim as stated fails: on the scenario's catalog (ten copies of "Dune") with
a = 6 and b = 6, each at most 10, the first `AddToCart` succeeds and the second one fails for
lack of stock, leaving six copies in the cart. -/
theorem AddToCart_twice_can_fail :
    (NewCart.AddToCart asciiFoldEq duneCatalog "Dune" 6).err = none
    ∧ ((NewCart.AddToCart asciiFoldEq duneCatalog "Dune" 6).cart.AddToCart asciiFoldEq
        (NewCart.AddToCart asciiFoldEq duneCatalog "Dune" 6).products "Dune" 6).err
        = some (.insufficientStock "Dune" 4 6)
    ∧ ((NewCart.AddToCart asciiFoldEq duneCatalog "Dune" 6).cart.AddToCart asciiFoldEq
        (NewCart.AddToCart asciiFoldEq duneCatalog "Dune" 6).products "Dune" 6).cart.Items
        = [⟨⟨"b1", "Dune", "", price15, "books", 10⟩, 6⟩] := by
  decide

/-- C12, amended. Merge behaviour: let `P`, at index `i`, be the first catalog product with
its name, start from the empty cart, and let `a > 0` and `b > 0` with `a + b` at most the
stock of `P`.  Then `AddToCart(P.Name, a)` followed by `AddToCart(P.Name, b)` succeeds both
times; the cart then has exactly one item, for `P`, with `Quantity = a + b`; the stock of `P`
is lower by `a + b` and every other catalog entry is unchanged.  Neither `a + b` nor the new
stock wraps around. -/
theorem AddToCart_twice_merges (foldEq : Char → Char → Bool) (products : List Product)
    (i : Nat) (P : Product) (a b : GoInt)
    (hP : products[i]? = some P)
    (hfirst : ∀ y ∈ products.take i, EqualFold foldEq y.Name P.Name = false)
    (ha : 0 < a) (hb : 0 < b) (hab : a.val + b.val ≤ P.Stock.val) :
    (NewCart.AddToCart foldEq products P.Name a).err = none
    ∧ ((NewCart.AddToCart foldEq products P.Name a).cart.AddToCart foldEq
        (NewCart.AddToCart foldEq products P.Name a).products P.Name b).err = none
    ∧ ((NewCart.AddToCart foldEq products P.Name a).cart.AddToCart foldEq
        (NewCart.AddToCart foldEq products P.Name a).products P.Name b).cart.Items
        = [⟨P, a + b⟩]
    ∧ ((NewCart.AddToCart foldEq products P.Name a).cart.AddToCart foldEq
        (NewCart.AddToCart foldEq products P.Name a).products P.Name b).products[i]?
        = some { P with Stock := P.Stock - (a + b) }
    ∧ (∀ j, j ≠ i →
        ((NewCart.AddToCart foldEq products P.Name a).cart.AddToCart foldEq
          (NewCart.AddToCart foldEq products P.Name a).products P.Name b).products[j]?
          = products[j]?)
    ∧ (a + b).val = a.val + b.val
    ∧ (P.Stock - (a + b)).val = P.Stock.val - (a.val + b.val) := by
  have hi : i < products.length := (List.getElem?_eq_some_iff.mp hP).1
  have hF : IsFirst (fun p : Product => EqualFold foldEq p.Name P.Name) products i P :=
    ⟨hP, EqualFold_refl foldEq P.Name, hfirst⟩
  have ha0 : (0 : Int) < a.val := ha
  have hb0 : (0 : Int) < b.val := hb
  have hSr := P.Stock.inRange
  have haS : a ≤ P.Stock := by
    show a.val ≤ P.Stock.val
    omega
  have hsa := GoInt.val_sub_of_le P.Stock a ha haS
  have hbS : b ≤ P.Stock - a := by
    show b.val ≤ (P.Stock - a).val
    rw [hsa]
    omega
  have hsum : (a + b).val = a.val + b.val := by
    apply GoInt.val_add_of_fits
    unfold Representable
    omega
  have hrest : (P.Stock - (a + b)).val = P.Stock.val - (a.val + b.val) := by
    rw [GoInt.val_sub_of_fits, hsum]
    rw [hsum]
    unfold Representable
    omega
  have h1 : NewCart.AddToCart foldEq products P.Name a
      = ⟨none, products.set i { P with Stock := P.Stock - a }, ⟨[⟨P, a⟩]⟩⟩ := by
    rw [AddToCart_append foldEq NewCart products P.Name a i P ha hF haS
      (fun I hI => absurd hI (List.not_mem_nil _))]
    rfl
  have hF2 : IsFirst (fun p : Product => EqualFold foldEq p.Name P.Name)
      (products.set i { P with Stock := P.Stock - a }) i { P with Stock := P.Stock - a } :=
    hF.set _ (EqualFold_refl foldEq P.Name)
  have hI : IsFirst (fun item : CartItem => item.Product.ID == P.ID) [⟨P, a⟩] 0 ⟨P, a⟩ :=
    ⟨rfl, by simp, by simp⟩
  have h2 : (Cart.mk [⟨P, a⟩]).AddToCart foldEq
      (products.set i { P with Stock := P.Stock - a }) P.Name b
      = ⟨none, products.set i { P with Stock := P.Stock - (a + b) }, ⟨[⟨P, a + b⟩]⟩⟩ := by
    rw [AddToCart_merge foldEq (Cart.mk [⟨P, a⟩]) _ P.Name b i
      { P with Stock := P.Stock - a } 0 ⟨P, a⟩ hb hF2 hbS hI]
    simp only [List.set_set, List.set_cons_zero, CallResult.mk.injEq, true_and]
    constructor
    · congr 2
      exact GoInt.sub_sub P.Stock a b
    · trivial
  rw [h1]
  simp only [h2]
  exact ⟨trivial, trivial, trivial, by simp [hi],
    fun j hj => by simp [List.getElem?_set_ne hj.symm], hsum, hrest⟩

/-- An instance of C12 as amended: three and then four of the ten copies of "Dune". -/
theorem AddToCart_twice_merges_witness :
    ((NewCart.AddToCart asciiFoldEq duneCatalog "Dune" 3).cart.AddToCart asciiFoldEq
        (NewCart.AddToCart asciiFoldEq duneCatalog "Dune" 3).products "Dune" 4).cart.Items
        = [⟨⟨"b1", "Dune", "", price15, "books", 10⟩, 3 + 4⟩] :=
  (AddToCart_twice_merges asciiFoldEq duneCatalog 0 ⟨"b1", "Dune", "", price15, "books", 10⟩ 3 4
    (by decide) (by decide) (by decide) (by decide) (by decide)).2.2.1

/-- C13. Exact-stock boundary: let `P`, at index `i`, be the first catalog product whose name
equals `n` under case folding, with `Stock = s >= 1`, and take any cart.  Then
`AddToCart(n, s)` returns no error and leaves `P` with `Stock = 0`; a following
`AddToCart(n, 1)` returns an error of kind `InsufficientStock` and leaves the cart and the
catalog as the first call left them. -/
theorem AddToCart_exact_stock (foldEq : Char → Char → Bool) (c : Cart)
    (products : List Product) (n : String) (i : Nat) (P : Product)
    (hP : IsFirst (fun p : Product => EqualFold foldEq p.Name n) products i P)
    (hs : 1 ≤ P.Stock) :
    (c.AddToCart foldEq products n P.Stock).err = none
    ∧ (c.AddToCart foldEq products n P.Stock).products[i]? = some { P with Stock := 0 }
    ∧ ((c.AddToCart foldEq products n P.Stock).cart.AddToCart foldEq
        (c.AddToCart foldEq products n P.Stock).products n 1).err.map CartError.kind
        = some .InsufficientStock
    ∧ ((c.AddToCart foldEq products n P.Stock).cart.AddToCart foldEq
        (c.AddToCart foldEq products n P.Stock).products n 1).products
        = (c.AddToCart foldEq products n P.Stock).products
    ∧ ((c.AddToCart foldEq products n P.Stock).cart.AddToCart foldEq
        (c.AddToCart foldEq products n P.Stock).products n 1).cart
        = (c.AddToCart foldEq products n P.Stock).cart := by
  have hi : i < products.length := (List.getElem?_eq_some_iff.mp hP.1).1
  have hpos : 0 < P.Stock := lt_of_lt_of_le (by decide) hs
  have hF2 : IsFirst (fun p : Product => EqualFold foldEq p.Name n)
      (products.set i { P with Stock := P.Stock - P.Stock }) i
      { P with Stock := P.Stock - P.Stock } := hP.set _ hP.2.1
  have hshort : ∀ c2 : Cart,
      c2.AddToCart foldEq (products.set i { P with Stock := P.Stock - P.Stock }) n 1
        = ⟨some (.insufficientStock n (P.Stock - P.Stock) 1),
            products.set i { P with Stock := P.Stock - P.Stock }, c2⟩ := fun c2 =>
    AddToCart_short foldEq c2 _ n 1 i _ (by decide) hF2
      (by show P.Stock - P.Stock < 1; rw [GoInt.sub_self]; decide)
  rcases first_or_none (fun item : CartItem => item.Product.ID == P.ID) c.Items
    with ⟨k, I, hI⟩ | hnoI
  · rw [AddToCart_merge foldEq c products n P.Stock i P k I hpos hP (le_refl _) hI]
    simp only [hshort]
    refine ⟨?_, ?_, ?_, ?_, ?_⟩ <;> first | trivial | rfl | simp [hi, GoInt.sub_self]
  · rw [AddToCart_append foldEq c products n P.Stock i P hpos hP (le_refl _) hnoI]
    simp only [hshort]
    refine ⟨?_, ?_, ?_, ?_, ?_⟩ <;> first | trivial | rfl | simp [hi, GoInt.sub_self]

/-- An instance of C13: all ten copies of "Dune" go to the cart, an eleventh does not. -/
theorem AddToCart_exact_stock_witness :
    (NewCart.AddToCart asciiFoldEq duneCatalog "dune" 10).products[0]?
        = some ⟨"b1", "Dune", "", price15, "books", 0⟩
    ∧ ((NewCart.AddToCart asciiFoldEq duneCatalog "dune" 10).cart.AddToCart asciiFoldEq
        (NewCart.AddToCart asciiFoldEq duneCatalog "dune" 10).products "dune" 1).err.map
          CartError.kind = some .InsufficientStock :=
  ⟨(AddToCart_exact_stock asciiFoldEq NewCart duneCatalog "dune" 0
      ⟨"b1", "Dune", "", price15, "books", 10⟩ (by decide) (by decide)).2.1,
    (AddToCart_exact_stock asciiFoldEq NewCart duneCatalog "dune" 0
      ⟨"b1", "Dune", "", price15, "books", 10⟩ (by decide) (by decide)).2.2.1⟩

/-- C14. Add, update, remove round trip: on a catalog with pairwise distinct IDs in which `P`,
at index `i`, is the first product with its name and has `Stock = S`, from the empty cart, with
`0 < a <= S` and `0 < b <= S`: `AddToCart(P.Name, a)` succeeds, leaves `P` with stock `S - a`
(all else unchanged) and the cart with the one item (`P`, `a`); then
`UpdateCartQuantity(P.Name, b)` succeeds, leaves `P` with stock `S - b` and the cart with the
one item (`P`, `b`); then `RemoveFromCart(P.Name, b)` succeeds and leaves the initial catalog
and the empty cart; then `RemoveFromCart(P.Name, 1)` fails with `ItemNotInCart` and changes
nothing.  The stocks `S - a` and `S - b` do not wrap around. -/
theorem add_update_remove_round_trip (foldEq : Char → Char → Bool) (products : List Product)
    (i : Nat) (P : Product) (a b : GoInt)
    (hnodup : (catalogIDs products).Nodup)
    (hP : products[i]? = some P)
    (hfirst : ∀ y ∈ products.take i, EqualFold foldEq y.Name P.Name = false)
    (ha : 0 < a) (haS : a ≤ P.Stock) (hb : 0 < b) (hbS : b ≤ P.Stock) :
    NewCart.AddToCart foldEq products P.Name a
        = ⟨none, products.set i { P with Stock := P.Stock - a }, ⟨[⟨P, a⟩]⟩⟩
    ∧ (Cart.mk [⟨P, a⟩]).UpdateCartQuantity foldEq
          (products.set i { P with Stock := P.Stock - a }) P.Name b
        = ⟨none, products.set i { P with Stock := P.Stock - b }, ⟨[⟨P, b⟩]⟩⟩
    ∧ (Cart.mk [⟨P, b⟩]).RemoveFromCart foldEq
          (products.set i { P with Stock := P.Stock - b }) P.Name b
        = ⟨none, products, ⟨[]⟩⟩
    ∧ (Cart.mk []).RemoveFromCart foldEq products P.Name 1
        = ⟨some (.notFoundInCart P.Name), products, ⟨[]⟩⟩
    ∧ (CartError.notFoundInCart P.Name).kind = .ItemNotInCart
    ∧ (P.Stock - a).val = P.Stock.val - a.val
    ∧ (P.Stock - b).val = P.Stock.val - b.val := by
  have hF : IsFirst (fun p : Product => EqualFold foldEq p.Name P.Name) products i P :=
    ⟨hP, EqualFold_refl foldEq P.Name, hfirst⟩
  have hID := isFirst_ID_of_nodup products hnodup i P hP
  have hIa : IsFirst (fun J : CartItem => EqualFold foldEq J.Product.Name P.Name)
      [⟨P, a⟩] 0 ⟨P, a⟩ := ⟨rfl, EqualFold_refl foldEq P.Name, by simp⟩
  have hIb : IsFirst (fun J : CartItem => EqualFold foldEq J.Product.Name P.Name)
      [⟨P, b⟩] 0 ⟨P, b⟩ := ⟨rfl, EqualFold_refl foldEq P.Name, by simp⟩
  refine ⟨?_, ?_, ?_, ?_, rfl, GoInt.val_sub_of_le P.Stock a ha haS,
    GoInt.val_sub_of_le P.Stock b hb hbS⟩
  · rw [AddToCart_append foldEq NewCart products P.Name a i P ha hF haS
      (fun I hI => absurd hI (List.not_mem_nil _))]
    rfl
  · have hID2 : IsFirst (fun p : Product => p.ID == P.ID)
        (products.set i { P with Stock := P.Stock - a }) i { P with Stock := P.Stock - a } :=
      hID.set _ (by simp)
    rw [UpdateCartQuantity_set foldEq (Cart.mk [⟨P, a⟩]) _ P.Name b 0 ⟨P, a⟩ i
      { P with Stock := P.Stock - a } hb hIa hID2
      (by
        show (b - a).val ≤ (0 : GoInt).val ∨ (b - a).val ≤ (P.Stock - a).val
        rw [GoInt.val_sub_of_nonneg_of_pos b a (le_of_lt hb) ha,
          GoInt.val_sub_of_le P.Stock a ha haS, GoInt.val_zero]
        have h1 : b.val ≤ P.Stock.val := hbS
        omega)]
    simp only [List.set_set, List.set_cons_zero, CallResult.mk.injEq, true_and]
    refine ⟨?_, trivial⟩
    congr 2
    exact GoInt.sub_sub_sub P.Stock a b
  · have hID2 : IsFirst (fun p : Product => p.ID == P.ID)
        (products.set i { P with Stock := P.Stock - b }) i { P with Stock := P.Stock - b } :=
      hID.set _ (by simp)
    rw [RemoveFromCart_all foldEq (Cart.mk [⟨P, b⟩]) _ P.Name b 0 ⟨P, b⟩ hb hIb rfl,
      restoreStock_first _ P.ID b i _ hID2]
    simp only [List.set_set, CallResult.mk.injEq, true_and]
    refine ⟨?_, by simp⟩
    have hback : ({ P with Stock := P.Stock - b + b } : Product) = P := by
      rw [GoInt.sub_add_cancel]
    show products.set i { P with Stock := P.Stock - b + b } = products
    rw [hback]
    exact set_self products i P hP
  · exact RemoveFromCart_noItem foldEq (Cart.mk []) products P.Name 1 (by decide)
      (fun I hI => absurd hI (List.not_mem_nil _))

/-- An instance of C14: the scenario of the specification, with S = 10, a = 3 and b = 5. -/
theorem add_update_remove_round_trip_witness :
    NewCart.AddToCart asciiFoldEq duneCatalog "Dune" 3
        = ⟨none, [⟨"b1", "Dune", "", price15, "books", 10 - 3⟩],
            ⟨[⟨⟨"b1", "Dune", "", price15, "books", 10⟩, 3⟩]⟩⟩
    ∧ (Cart.mk [⟨⟨"b1", "Dune", "", price15, "books", 10⟩, 3⟩]).UpdateCartQuantity asciiFoldEq
          [⟨"b1", "Dune", "", price15, "books", 10 - 3⟩] "Dune" 5
        = ⟨none, [⟨"b1", "Dune", "", price15, "books", 10 - 5⟩],
            ⟨[⟨⟨"b1", "Dune", "", price15, "books", 10⟩, 5⟩]⟩⟩
    ∧ (Cart.mk [⟨⟨"b1", "Dune", "", price15, "books", 10⟩, 5⟩]).RemoveFromCart asciiFoldEq
          [⟨"b1", "Dune", "", price15, "books", 10 - 5⟩] "Dune" 5
        = ⟨none, duneCatalog, ⟨[]⟩⟩
    ∧ (Cart.mk []).RemoveFromCart asciiFoldEq duneCatalog "Dune" 1
        = ⟨some (.notFoundInCart "Dune"), duneCatalog, ⟨[]⟩⟩
    ∧ (CartError.notFoundInCart "Dune").kind = .ItemNotInCart
    ∧ ((10 : GoInt) - 3).val = (10 : GoInt).val - (3 : GoInt).val
    ∧ ((10 : GoInt) - 5).val = (10 : GoInt).val - (5 : GoInt).val :=
  add_update_remove_round_trip asciiFoldEq duneCatalog 0 ⟨"b1", "Dune", "", price15, "books", 10⟩
    3 5 (by decide) (by decide) (by decide) (by decide) (by decide) (by decide) (by decide)

/-- C15. Silent skip in `RemoveFromCart`: with `q > 0`, `I` (at index `k`) the first cart item
whose product name equals `productName` under case folding, `I.Quantity >= q`, and no catalog
product with `I`'s product ID, the call returns no error and leaves the whole catalog
unchanged; if `q = I.Quantity` the cart is the old cart without its item `k`; otherwise the
cart keeps its length, item `k` is `I` with `Quantity` lowered by `q`, without wrapping
around, and every other item is unchanged. -/
theorem RemoveFromCart_silent_skip (foldEq : Char → Char → Bool) (c : Cart)
    (products : List Product) (productName : String) (q : GoInt) (k : Nat) (I : CartItem)
    (hq : 0 < q)
    (hI : IsFirst (fun J : CartItem => EqualFold foldEq J.Product.Name productName) c.Items k I)
    (hle : q ≤ I.Quantity)
    (hno : ∀ p ∈ products, p.ID ≠ I.Product.ID) :
    (c.RemoveFromCart foldEq products productName q).err = none
    ∧ (c.RemoveFromCart foldEq products productName q).products = products
    ∧ (q = I.Quantity →
        (c.RemoveFromCart foldEq products productName q).cart.Items.length + 1
            = c.Items.length
        ∧ ∀ j, (c.RemoveFromCart foldEq products productName q).cart.Items[j]?
            = if j < k then c.Items[j]? else c.Items[j + 1]?)
    ∧ (q ≠ I.Quantity →
        (c.RemoveFromCart foldEq products productName q).cart.Items.length = c.Items.length
        ∧ (c.RemoveFromCart foldEq products productName q).cart.Items[k]?
            = some { I with Quantity := I.Quantity - q }
        ∧ ∀ j, j ≠ k →
            (c.RemoveFromCart foldEq products productName q).cart.Items[j]?
              = c.Items[j]?)
    ∧ (I.Quantity - q).val = I.Quantity.val - q.val := by
  have hk : k < c.Items.length := (List.getElem?_eq_some_iff.mp hI.1).1
  have hno2 : ∀ p ∈ products, (p.ID == I.Product.ID) = false := by
    intro p hp
    simpa using hno p hp
  by_cases he : I.Quantity = q
  · rw [RemoveFromCart_all foldEq c products productName q k I hq hI he,
      restoreStock_none products I.Product.ID q hno2]
    exact ⟨rfl, rfl,
      fun _ => ⟨length_take_append_drop_succ c.Items k hk,
        fun j => getElem?_take_append_drop_succ c.Items k j⟩,
      fun h => absurd he.symm h, GoInt.val_sub_of_le I.Quantity q hq hle⟩
  · rw [RemoveFromCart_some foldEq c products productName q k I hq hI
        (lt_of_le_of_ne hle (Ne.symm he)),
      restoreStock_none products I.Product.ID q hno2]
    exact ⟨rfl, rfl, fun h => absurd h.symm he,
      fun _ => ⟨by simp, by simp [hk], fun j hj => by simp [List.getElem?_set_ne hj.symm]⟩,
      GoInt.val_sub_of_le I.Quantity q hq hle⟩

/-- An instance of C15: two copies of a product that the catalog does not list are removed
from the cart; the catalog stays as it is. -/
theorem RemoveFromCart_silent_skip_witness :
    ((Cart.mk [⟨⟨"zz", "Lost", "", price15, "books", 0⟩, 2⟩]).RemoveFromCart asciiFoldEq
        duneCatalog "lost" 2).err = none
    ∧ ((Cart.mk [⟨⟨"zz", "Lost", "", price15, "books", 0⟩, 2⟩]).RemoveFromCart asciiFoldEq
        duneCatalog "lost" 2).products = duneCatalog :=
  ⟨(RemoveFromCart_silent_skip asciiFoldEq (Cart.mk [⟨⟨"zz", "Lost", "", price15, "books", 0⟩, 2⟩])
      duneCatalog "lost" 2 0 ⟨⟨"zz", "Lost", "", price15, "books", 0⟩, 2⟩ (by decide) (by decide)
      (by decide) (by decide)).1,
    (RemoveFromCart_silent_skip asciiFoldEq (Cart.mk [⟨⟨"zz", "Lost", "", price15, "books", 0⟩, 2⟩])
      duneCatalog "lost" 2 0 ⟨⟨"zz", "Lost", "", price15, "books", 0⟩, 2⟩ (by decide) (by decide)
      (by decide) (by decide)).2.1⟩

/-- C16. `ClearCart` is idempotent: for every cart and catalog, a second `ClearCart` right
after the first leaves the cart (empty) and the catalog that the first one left; on a cart
that is already empty `ClearCart` changes neither the catalog nor the cart. -/
theorem ClearCart_idempotent (c : Cart) (products : List Product) :
    (c.ClearCart products).2.ClearCart (c.ClearCart products).1 = c.ClearCart products
    ∧ (c.ClearCart products).2.Items = []
    ∧ (c.Items = [] → c.ClearCart products = (products, c)) := by
  refine ⟨rfl, rfl, ?_⟩
  intro h
  cases c with
  | mk items =>
    simp only at h
    subst h
    rfl

/-! ## Case folding of the name asked for -/

theorem equalFoldRunes_symm (foldEq : Char → Char → Bool)
    (hsymm : ∀ x y, foldEq x y = true → foldEq y x = true) (s t : List Char)
    (h : equalFoldRunes foldEq s t = true) : equalFoldRunes foldEq t s = true := by
  induction s generalizing t with
  | nil =>
    cases t with
    | nil => rfl
    | cons b t => simp [equalFoldRunes] at h
  | cons a s ih =>
    cases t with
    | nil => simp [equalFoldRunes] at h
    | cons b t =>
      simp only [equalFoldRunes, Bool.and_eq_true, Bool.or_eq_true, beq_iff_eq] at h ⊢
      refine ⟨?_, ih t h.2⟩
      rcases h.1 with h1 | h1
      · exact Or.inl h1.symm
      · exact Or.inr (hsymm a b h1)

theorem equalFoldRunes_trans (foldEq : Char → Char → Bool)
    (htrans : ∀ x y z, (x == y || foldEq x y) = true → (y == z || foldEq y z) = true →
      (x == z || foldEq x z) = true)
    (s t u : List Char) (h1 : equalFoldRunes foldEq s t = true)
    (h2 : equalFoldRunes foldEq t u = true) : equalFoldRunes foldEq s u = true := by
  induction s generalizing t u with
  | nil =>
    cases t with
    | nil => exact h2
    | cons b t => simp [equalFoldRunes] at h1
  | cons a s ih =>
    cases t with
    | nil => simp [equalFoldRunes] at h1
    | cons b t =>
      cases u with
      | nil => simp [equalFoldRunes] at h2
      | cons d u =>
        simp only [equalFoldRunes, Bool.and_eq_true] at h1 h2 ⊢
        exact ⟨htrans a b d h1.1 h2.1, ih t u h1.2 h2.2⟩

/-- Two names that are equal under case folding match the same strings. -/
theorem EqualFold_congr (foldEq : Char → Char → Bool)
    (hsymm : ∀ x y, foldEq x y = true → foldEq y x = true)
    (htrans : ∀ x y z, (x == y || foldEq x y) = true → (y == z || foldEq y z) = true →
      (x == z || foldEq x z) = true)
    (n1 n2 : String) (hfold : EqualFold foldEq n1 n2 = true) (s : String) :
    EqualFold foldEq s n1 = EqualFold foldEq s n2 := by
  rw [Bool.eq_iff_iff]
  constructor
  · intro h
    exact equalFoldRunes_trans foldEq htrans _ _ _ h hfold
  · intro h
    exact equalFoldRunes_trans foldEq htrans _ _ _ h
      (equalFoldRunes_symm foldEq hsymm _ _ hfold)

theorem asciiFoldEq_symm (x y : Char) (h : asciiFoldEq x y = true) :
    asciiFoldEq y x = true := by
  simp only [asciiFoldEq, beq_iff_eq] at h ⊢
  exact h.symm

theorem asciiFoldEq_trans (x y z : Char) (h1 : (x == y || asciiFoldEq x y) = true)
    (h2 : (y == z || asciiFoldEq y z) = true) : (x == z || asciiFoldEq x z) = true := by
  simp only [asciiFoldEq, Bool.or_eq_true, beq_iff_eq] at h1 h2 ⊢
  right
  have e1 : x.toLower = y.toLower := by
    rcases h1 with h | h
    · rw [h]
    · exact h
  have e2 : y.toLower = z.toLower := by
    rcases h2 with h | h
    · rw [h]
    · exact h
  exact e1.trans e2

/-- C17. Case-insensitive product resolution.  The simple-folding table of `strings.EqualFold`
relates the runes of one orbit: it is symmetric and, together with equality, transitive.  For
every such table, every catalog, cart and quantity, and all names `n1`, `n2` that are equal
under case folding, `AddToCart` with `n1` and `AddToCart` with `n2` return errors of the same
kind or both none, and leave the same catalog and the same cart.  In particular, when the
table folds `D` to `d` and `P`, at index `i`, with `Stock >= 1`, is named "Dune" and no
earlier product matches "dune", `AddToCart("dune", 1)` returns no error, lowers the stock of
`P` by exactly 1, and adds `P` to the cart: the first item `I` with `P`'s ID becomes `I` with
`Quantity` the sum `I.Quantity + 1` of Go's `int`, or, when the cart has no such item, the item
(`P`, 1) is appended; the cart's quantity for `P`'s ID is higher by exactly 1 when the item
merged into holds less than the largest `int`. -/
theorem AddToCart_case_insensitive (foldEq : Char → Char → Bool)
    (hsymm : ∀ x y, foldEq x y = true → foldEq y x = true)
    (htrans : ∀ x y z, (x == y || foldEq x y) = true → (y == z || foldEq y z) = true →
      (x == z || foldEq x z) = true)
    (c : Cart) (products : List Product) (n1 n2 : String) (q : GoInt)
    (hfold : EqualFold foldEq n1 n2 = true) :
    (c.AddToCart foldEq products n1 q).err.map CartError.kind
        = (c.AddToCart foldEq products n2 q).err.map CartError.kind
    ∧ (c.AddToCart foldEq products n1 q).products = (c.AddToCart foldEq products n2 q).products
    ∧ (c.AddToCart foldEq products n1 q).cart = (c.AddToCart foldEq products n2 q).cart
    ∧ (∀ (i : Nat) (P : Product), products[i]? = some P → P.Name = "Dune" →
        (∀ y ∈ products.take i, EqualFold foldEq y.Name "dune" = false) →
        foldEq 'D' 'd' = true → 1 ≤ P.Stock →
        (c.AddToCart foldEq products "dune" 1).err = none
        ∧ (c.AddToCart foldEq products "dune" 1).products[i]?
            = some { P with Stock := P.Stock - 1 }
        ∧ (P.Stock - 1).val = P.Stock.val - 1
        ∧ (∀ (k : Nat) (I : CartItem),
            IsFirst (fun item : CartItem => item.Product.ID == P.ID) c.Items k I →
            (c.AddToCart foldEq products "dune" 1).cart.Items
              = c.Items.set k { I with Quantity := I.Quantity + 1 })
        ∧ ((∀ I ∈ c.Items, (I.Product.ID == P.ID) = false) →
            (c.AddToCart foldEq products "dune" 1).cart.Items = c.Items ++ [⟨P, 1⟩])
        ∧ ((∀ (k : Nat) (I : CartItem),
              IsFirst (fun item : CartItem => item.Product.ID == P.ID) c.Items k I →
              I.Quantity.val + 1 ≤ maxInt.val) →
            cartQuantity (c.AddToCart foldEq products "dune" 1).cart.Items P.ID
              = cartQuantity c.Items P.ID + 1)) := by
  have hpred : (fun p : Product => EqualFold foldEq p.Name n1)
      = (fun p : Product => EqualFold foldEq p.Name n2) :=
    funext fun p => EqualFold_congr foldEq hsymm htrans n1 n2 hfold p.Name
  refine ⟨?_, ?_, ?_, ?_⟩
  · by_cases hq : q ≤ 0
    · rw [AddToCart_nonpos foldEq c products n1 q hq, AddToCart_nonpos foldEq c products n2 q hq]
    · have hq' : 0 < q := not_le.mp hq
      rcases first_or_none (fun p : Product => EqualFold foldEq p.Name n1) products
        with ⟨i, P, hP⟩ | hno
      · have hP2 : IsFirst (fun p : Product => EqualFold foldEq p.Name n2) products i P :=
          hpred ▸ hP
        by_cases hs : P.Stock < q
        · rw [AddToCart_short foldEq c products n1 q i P hq' hP hs,
            AddToCart_short foldEq c products n2 q i P hq' hP2 hs]
          rfl
        · rw [AddToCart_err_none foldEq c products n1 q i P hq' hP (not_lt.mp hs),
            AddToCart_err_none foldEq c products n2 q i P hq' hP2 (not_lt.mp hs)]
      · have hno2 : ∀ p ∈ products, EqualFold foldEq p.Name n2 = false := fun p hp => by
          rw [← EqualFold_congr foldEq hsymm htrans n1 n2 hfold p.Name]
          exact hno p hp
        rw [AddToCart_noMatch foldEq c products n1 q hq' hno,
          AddToCart_noMatch foldEq c products n2 q hq' hno2]
        rfl
  · simp only [Cart.AddToCart, hpred]
    split
    · rfl
    · split
      · rfl
      · split
        · rfl
        · split <;> rfl
  · simp only [Cart.AddToCart, hpred]
    split
    · rfl
    · split
      · rfl
      · split
        · rfl
        · split <;> rfl
  · intro i P hP hname hfirst hD hstock
    have hmatch : EqualFold foldEq P.Name "dune" = true := by
      rw [hname]
      have hdata : EqualFold foldEq "Dune" "dune"
          = equalFoldRunes foldEq ['D', 'u', 'n', 'e'] ['d', 'u', 'n', 'e'] := rfl
      rw [hdata]
      simp [equalFoldRunes, hD]
    have hF : IsFirst (fun p : Product => EqualFold foldEq p.Name "dune") products i P :=
      ⟨hP, hmatch, hfirst⟩
    have hi : i < products.length := (List.getElem?_eq_some_iff.mp hP).1
    have hsub : (P.Stock - 1).val = P.Stock.val - 1 :=
      GoInt.val_sub_of_le P.Stock 1 (by decide) hstock
    rcases first_or_none (fun item : CartItem => item.Product.ID == P.ID) c.Items
      with ⟨k, I, hI⟩ | hnoI
    · have hIid : I.Product.ID = P.ID := by simpa using hI.2.1
      rw [AddToCart_merge foldEq c products "dune" 1 i P k I (by decide) hF hstock hI]
      refine ⟨rfl, by simp [hi], hsub, ?_, ?_, ?_⟩
      · intro k2 I2 hI2
        obtain ⟨hk, hII⟩ := IsFirst.unique hI hI2
        rw [← hk, ← hII]
      · intro hnone
        exact absurd hnone hI.not_none
      · intro hroom
        have h1 := hroom k I hI
        rw [maxInt_val] at h1
        have h2 := I.Quantity.inRange
        have hadd : (I.Quantity + 1).val = I.Quantity.val + 1 := by
          apply GoInt.val_add_of_fits I.Quantity 1
          rw [GoInt.val_one]
          unfold Representable
          omega
        show cartQuantity (c.Items.set k { I with Quantity := I.Quantity + 1 }) P.ID = _
        rw [cartQuantity_set c.Items k I (I.Quantity + 1) P.ID hI.1, hadd]
        simp [hIid]
    · rw [AddToCart_append foldEq c products "dune" 1 i P (by decide) hF hstock hnoI]
      refine ⟨rfl, by simp [hi], hsub, ?_, ?_, ?_⟩
      · intro k2 I2 hI2
        exact absurd hnoI hI2.not_none
      · intro _
        rfl
      · intro _
        show cartQuantity (c.Items ++ [⟨P, 1⟩]) P.ID = _
        rw [cartQuantity_append, cartQuantity_cons, cartQuantity_nil]
        simp [GoInt.val_one]

/-- An instance of C17: "dune" and "DUNE" on the scenario's catalog. -/
theorem AddToCart_case_insensitive_witness :
    EqualFold asciiFoldEq "dune" "DUNE" = true
    ∧ (NewCart.AddToCart asciiFoldEq duneCatalog "dune" 2).cart
        = (NewCart.AddToCart asciiFoldEq duneCatalog "DUNE" 2).cart :=
  ⟨by decide,
    (AddToCart_case_insensitive asciiFoldEq asciiFoldEq_symm asciiFoldEq_trans NewCart
      duneCatalog "dune" "DUNE" 2 (by decide)).2.2.1⟩

/-! ## The handlers of the tool calls -/

/-- C19, at the code: an `add_to_cart` tool call without `quantity` decodes the quantity as 0,
takes the "Invalid quantity" branch and never calls `AddToCart`: the catalog and the cart are
left as they were, for every catalog, cart and product name.  On the scenario's catalog the
call for "Dune" without `quantity` adds nothing, whereas the call with `quantity` 1 puts one
copy in the cart and leaves nine in stock. -/
theorem toolCallAddToCart_quantity_omitted (foldEq : Char → Char → Bool) (c : Cart)
    (products : List Product) (productName : Option String) :
    toolCallAddToCart foldEq c products ⟨productName, none⟩ = (products, c)
    ∧ toolCallAddToCart asciiFoldEq NewCart duneCatalog ⟨some "Dune", none⟩
        = (duneCatalog, NewCart)
    ∧ toolCallAddToCart asciiFoldEq NewCart duneCatalog ⟨some "Dune", some 1⟩
        = ([⟨"b1", "Dune", "", price15, "books", 9⟩],
            ⟨[⟨⟨"b1", "Dune", "", price15, "books", 10⟩, 1⟩]⟩) := by
  refine ⟨?_, by decide, by decide⟩
  simp [toolCallAddToCart]

/-- C20, at the code: a `search_products` tool call without `limit` decodes the limit as 0,
for which `SearchProducts` does not cut the result: every matching product is returned, for
every catalog, query and category.  On a catalog of eleven books the call with no arguments
returns eleven products. -/
theorem toolCallSearchProducts_limit_omitted (lower : Char → Char) (products : List Product)
    (query category : Option String) :
    toolCallSearchProducts lower products ⟨query, category, none⟩
        = products.filter (searchMatches lower (query.getD "") (category.getD ""))
    ∧ (toolCallSearchProducts asciiLower elevenBooks ⟨none, none, none⟩).length = 11 := by
  constructor
  · simp only [toolCallSearchProducts, SearchProducts, Option.getD_none]
    rw [searchLoop_unlimited lower _ _ 0 (le_refl 0) products []]
    simp
  · decide

/-! ## The sum over the cart: `GetCartItemCount` -/

theorem sum_map_set {α β : Type} [AddCommGroup β] (f : α → β) (l : List α) (k : Nat)
    (x y : α) (h : l[k]? = some x) :
    ((l.set k y).map f).sum = (l.map f).sum + (f y - f x) := by
  induction l generalizing k with
  | nil => simp at h
  | cons a l ih =>
    cases k with
    | zero =>
      simp only [List.getElem?_cons_zero, Option.some.injEq] at h
      subst h
      simp only [List.set_cons_zero, List.map_cons, List.sum_cons]
      abel
    | succ k =>
      simp only [List.getElem?_cons_succ] at h
      simp only [List.set_cons_succ, List.map_cons, List.sum_cons, ih k h]
      abel

theorem sum_map_delete {α β : Type} [AddCommGroup β] (f : α → β) (l : List α) (k : Nat)
    (x : α) (h : l[k]? = some x) :
    ((l.take k ++ l.drop (k + 1)).map f).sum = (l.map f).sum - f x := by
  induction l generalizing k with
  | nil => simp at h
  | cons a l ih =>
    cases k with
    | zero =>
      simp only [List.getElem?_cons_zero, Option.some.injEq] at h
      subst h
      simp
    | succ k =>
      simp only [List.getElem?_cons_succ] at h
      simp only [List.take_succ_cons, List.cons_append, List.drop_succ_cons, List.map_cons,
        List.sum_cons, ih k h]
      abel

/-- The counting loop, started at `acc`: the sum of the quantities added to `acc`, wrapped
around as Go's `int` does. -/
theorem countLoop_eq (l : List CartItem) (acc : GoInt) :
    l.foldl (fun count item => count + item.Quantity) acc
      = GoInt.ofInt (acc.val + (l.map (fun item => item.Quantity.val)).sum) := by
  induction l generalizing acc with
  | nil => simp [GoInt.ofInt_val]
  | cons a l ih =>
    rw [List.foldl_cons, ih (acc + a.Quantity)]
    apply GoInt.ext
    simp only [GoInt.val_ofInt, GoInt.val_add, List.map_cons, List.sum_cons]
    unfold wrap
    omega

theorem GetCartItemCount_eq (c : Cart) :
    c.GetCartItemCount = GoInt.ofInt (c.Items.map (fun item => item.Quantity.val)).sum := by
  unfold Cart.GetCartItemCount
  rw [countLoop_eq, GoInt.val_zero, zero_add]

/-- Two sums that differ by `x` up to a multiple of 2^64 wrap to values that differ by `x` in
Go's arithmetic. -/
theorem GoInt.ofInt_eq_add (S S2 : Int) (x : GoInt) (h : wrap (S2 - S) = x.val) :
    GoInt.ofInt S2 = GoInt.ofInt S + x := by
  apply GoInt.ext
  rw [GoInt.val_add, GoInt.val_ofInt, GoInt.val_ofInt, ← h]
  unfold wrap
  omega

theorem GoInt.ofInt_eq_sub (S S2 : Int) (x : GoInt) (h : wrap (S - S2) = x.val) :
    GoInt.ofInt S2 = GoInt.ofInt S - x := by
  apply GoInt.ext
  rw [GoInt.val_sub, GoInt.val_ofInt, GoInt.val_ofInt, ← h]
  unfold wrap
  omega

theorem AddToCart_count (foldEq : Char → Char → Bool) (c : Cart)
    (products : List Product) (productName : String) (q : GoInt)
    (herr : (c.AddToCart foldEq products productName q).err = none) :
    (c.AddToCart foldEq products productName q).cart.GetCartItemCount
      = c.GetCartItemCount + q := by
  have hqr := q.inRange
  by_cases hq : q ≤ 0
  · rw [AddToCart_nonpos foldEq c products productName q hq] at herr
    exact absurd herr (by simp)
  · have hq' : 0 < q := not_le.mp hq
    rcases first_or_none (fun p : Product => EqualFold foldEq p.Name productName) products
      with ⟨i, P, hP⟩ | hno
    · by_cases hs : P.Stock < q
      · rw [AddToCart_short foldEq c products productName q i P hq' hP hs] at herr
        exact absurd herr (by simp)
      · rcases first_or_none (fun item : CartItem => item.Product.ID == P.ID) c.Items
          with ⟨k, I, hI⟩ | hnoI
        · rw [AddToCart_merge foldEq c products productName q i P k I hq' hP
            (not_lt.mp hs) hI, GetCartItemCount_eq, GetCartItemCount_eq]
          apply GoInt.ofInt_eq_add
          show wrap (((c.Items.set k { I with Quantity := I.Quantity + q }).map
            (fun item : CartItem => item.Quantity.val)).sum - _) = _
          rw [sum_map_set (fun item : CartItem => item.Quantity.val) c.Items k I _ hI.1]
          show wrap (_ + ((I.Quantity + q).val - I.Quantity.val) - _) = _
          have hIr := I.Quantity.inRange
          rw [GoInt.val_add]
          unfold wrap
          omega
        · rw [AddToCart_append foldEq c products productName q i P hq' hP
            (not_lt.mp hs) hnoI, GetCartItemCount_eq, GetCartItemCount_eq]
          apply GoInt.ofInt_eq_add
          show wrap (((c.Items ++ [(⟨P, q⟩ : CartItem)]).map
            (fun item : CartItem => item.Quantity.val)).sum - _) = _
          rw [List.map_append, List.sum_append]
          simp only [List.map_cons, List.map_nil, List.sum_cons, List.sum_nil]
          unfold wrap
          omega
    · rw [AddToCart_noMatch foldEq c products productName q hq' hno] at herr
      exact absurd herr (by simp)

theorem RemoveFromCart_count (foldEq : Char → Char → Bool) (c : Cart)
    (products : List Product) (productName : String) (q : GoInt)
    (herr : (c.RemoveFromCart foldEq products productName q).err = none) :
    (c.RemoveFromCart foldEq products productName q).cart.GetCartItemCount
      = c.GetCartItemCount - q := by
  have hqr := q.inRange
  by_cases hq : q ≤ 0
  · rw [RemoveFromCart_nonpos foldEq c products productName q hq] at herr
    exact absurd herr (by simp)
  · have hq' : 0 < q := not_le.mp hq
    rcases first_or_none (fun J : CartItem => EqualFold foldEq J.Product.Name productName)
      c.Items with ⟨k, I, hI⟩ | hnoI
    · by_cases hs : I.Quantity < q
      · rw [RemoveFromCart_tooMany foldEq c products productName q k I hq' hI hs] at herr
        exact absurd herr (by simp)
      · have hle : q ≤ I.Quantity := not_lt.mp hs
        by_cases he : I.Quantity = q
        · rw [RemoveFromCart_all foldEq c products productName q k I hq' hI he,
            GetCartItemCount_eq, GetCartItemCount_eq]
          apply GoInt.ofInt_eq_sub
          show wrap (_ - ((c.Items.take k ++ c.Items.drop (k + 1)).map
            (fun item : CartItem => item.Quantity.val)).sum) = _
          rw [sum_map_delete (fun item : CartItem => item.Quantity.val) c.Items k I hI.1, he]
          unfold wrap
          omega
        · rw [RemoveFromCart_some foldEq c products productName q k I hq' hI
            (lt_of_le_of_ne hle (Ne.symm he)), GetCartItemCount_eq, GetCartItemCount_eq]
          apply GoInt.ofInt_eq_sub
          show wrap (_ - ((c.Items.set k { I with Quantity := I.Quantity - q }).map
            (fun item : CartItem => item.Quantity.val)).sum) = _
          rw [sum_map_set (fun item : CartItem => item.Quantity.val) c.Items k I _ hI.1]
          show wrap (_ - (_ + ((I.Quantity - q).val - I.Quantity.val))) = _
          have hIr := I.Quantity.inRange
          rw [GoInt.val_sub]
          unfold wrap
          omega
    · rw [RemoveFromCart_noItem foldEq c products productName q hq' hnoI] at herr
      exact absurd herr (by simp)

theorem UpdateCartQuantity_count (foldEq : Char → Char → Bool) (c : Cart)
    (products : List Product) (productName : String) (q : GoInt)
    (herr : (c.UpdateCartQuantity foldEq products productName q).err = none) :
    ∃ k I,
      IsFirst (fun J : CartItem => EqualFold foldEq J.Product.Name productName) c.Items k I
      ∧ (c.UpdateCartQuantity foldEq products productName q).cart.GetCartItemCount
          = c.GetCartItemCount + (q - I.Quantity) := by
  by_cases hn : q < 0
  · rw [UpdateCartQuantity_negative foldEq c products productName q hn] at herr
    exact absurd herr (by simp)
  · have hn' : 0 ≤ q := not_lt.mp hn
    rcases first_or_none (fun J : CartItem => EqualFold foldEq J.Product.Name productName)
      c.Items with ⟨k, I, hI⟩ | hnoI
    · refine ⟨k, I, hI, ?_⟩
      rcases first_or_none (fun p : Product => p.ID == I.Product.ID) products
        with ⟨i, P, hP⟩ | hnoP
      · by_cases hs : 0 < q - I.Quantity ∧ P.Stock < q - I.Quantity
        · rw [UpdateCartQuantity_short foldEq c products productName q k I i P hn' hI hP
            hs.1 hs.2] at herr
          exact absurd herr (by simp)
        · have hok := stock_ok_of_not_short hs
          by_cases h0 : q = 0
          · subst h0
            rw [UpdateCartQuantity_zero foldEq c products productName k I i P hI hP hok,
              GetCartItemCount_eq, GetCartItemCount_eq]
            apply GoInt.ofInt_eq_add
            show wrap (((c.Items.take k ++ c.Items.drop (k + 1)).map
              (fun item : CartItem => item.Quantity.val)).sum - _) = _
            rw [sum_map_delete (fun item : CartItem => item.Quantity.val) c.Items k I hI.1,
              GoInt.val_sub, GoInt.val_zero]
            unfold wrap
            omega
          · rw [UpdateCartQuantity_set foldEq c products productName q k I i P
              (lt_of_le_of_ne hn' (Ne.symm h0)) hI hP hok, GetCartItemCount_eq,
              GetCartItemCount_eq]
            apply GoInt.ofInt_eq_add
            show wrap (((c.Items.set k { I with Quantity := q }).map
              (fun item : CartItem => item.Quantity.val)).sum - _) = _
            rw [sum_map_set (fun item : CartItem => item.Quantity.val) c.Items k I _ hI.1,
              GoInt.val_sub]
            show wrap (_ + (q.val - I.Quantity.val) - _) = _
            unfold wrap
            omega
      · rw [UpdateCartQuantity_noProduct foldEq c products productName q k I hn' hI hnoP]
          at herr
        exact absurd herr (by simp)
    · rw [UpdateCartQuantity_noItem foldEq c products productName q hn' hnoI] at herr
      exact absurd herr (by simp)

/-- C22, the claim as stated fails: on a catalog with the largest `int` of copies of "Dune" and
one copy of "Emma", from the empty cart, `AddToCart("Dune", maxInt)` and `AddToCart("Emma", 1)`
return no error and leave a cart whose quantities add up to 2^63, whereas `GetCartItemCount`
returns the least `int`; the second call did not raise the count by 1. -/
theorem GetCartItemCount_wraps :
    (runOps asciiFoldEq [.add "Dune" maxInt, .add "Emma" 1]
        (([⟨"b1", "Dune", "", price15, "books", maxInt⟩,
          ⟨"b2", "Emma", "", price15, "books", 1⟩] : List Product), NewCart)).2.Items
      = [⟨⟨"b1", "Dune", "", price15, "books", maxInt⟩, maxInt⟩,
          ⟨⟨"b2", "Emma", "", price15, "books", 1⟩, 1⟩]
    ∧ (([⟨⟨"b1", "Dune", "", price15, "books", maxInt⟩, maxInt⟩,
          ⟨⟨"b2", "Emma", "", price15, "books", 1⟩, 1⟩] : List CartItem).map
        (fun item => item.Quantity.val)).sum = 9223372036854775808
    ∧ (Cart.mk [⟨⟨"b1", "Dune", "", price15, "books", maxInt⟩, maxInt⟩,
          ⟨⟨"b2", "Emma", "", price15, "books", 1⟩, 1⟩]).GetCartItemCount.val
        = -9223372036854775808
    ∧ (Cart.mk [⟨⟨"b1", "Dune", "", price15, "books", maxInt⟩, maxInt⟩]).GetCartItemCount.val
        = 9223372036854775807
    ∧ ((Cart.mk [⟨⟨"b1", "Dune", "", price15, "books", maxInt⟩, maxInt⟩]).AddToCart
        asciiFoldEq [⟨"b1", "Dune", "", price15, "books", 0⟩,
          ⟨"b2", "Emma", "", price15, "books", 1⟩] "Emma" 1).err = none := by
  decide

/-- C22, amended. `GetCartItemCount` is the sum of `Quantity` over the cart's items wrapped
around as Go's `int` does, so it is that sum whenever the sum is within the range of `int`;
it is 0 for the empty cart.  An `AddToCart` with quantity `q` that returns no error changes it
to the old count `+ q` in Go's arithmetic, a `RemoveFromCart` that returns no error to the
old count `- q`, an `UpdateCartQuantity` that returns no error to the old count
`+ (newQuantity - I.Quantity)` for the first matching item `I`; each of these is a change by
exactly that amount whenever the result is within the range of `int`.  After `ClearCart` the
count is 0. -/
theorem GetCartItemCount_is_sum_of_quantities (foldEq : Char → Char → Bool) (c : Cart)
    (products : List Product) (productName : String) (q : GoInt) :
    c.GetCartItemCount = GoInt.ofInt (c.Items.map (fun item => item.Quantity.val)).sum
    ∧ (Representable (c.Items.map (fun item => item.Quantity.val)).sum →
        c.GetCartItemCount.val = (c.Items.map (fun item => item.Quantity.val)).sum)
    ∧ NewCart.GetCartItemCount = 0
    ∧ ((c.AddToCart foldEq products productName q).err = none →
        (c.AddToCart foldEq products productName q).cart.GetCartItemCount
          = c.GetCartItemCount + q
        ∧ (Representable (c.GetCartItemCount.val + q.val) →
            (c.AddToCart foldEq products productName q).cart.GetCartItemCount.val
              = c.GetCartItemCount.val + q.val))
    ∧ ((c.RemoveFromCart foldEq products productName q).err = none →
        (c.RemoveFromCart foldEq products productName q).cart.GetCartItemCount
          = c.GetCartItemCount - q
        ∧ (Representable (c.GetCartItemCount.val - q.val) →
            (c.RemoveFromCart foldEq products productName q).cart.GetCartItemCount.val
              = c.GetCartItemCount.val - q.val))
    ∧ ((c.UpdateCartQuantity foldEq products productName q).err = none →
        ∃ k I,
          IsFirst (fun J : CartItem => EqualFold foldEq J.Product.Name productName) c.Items k I
          ∧ (c.UpdateCartQuantity foldEq products productName q).cart.GetCartItemCount
              = c.GetCartItemCount + (q - I.Quantity)
          ∧ (Representable (q.val - I.Quantity.val) →
              Representable (c.GetCartItemCount.val + (q.val - I.Quantity.val)) →
              (c.UpdateCartQuantity foldEq products productName q).cart.GetCartItemCount.val
                = c.GetCartItemCount.val + (q.val - I.Quantity.val)))
    ∧ (c.ClearCart products).2.GetCartItemCount = 0 := by
  refine ⟨GetCartItemCount_eq c, ?_, rfl, ?_, ?_, ?_, rfl⟩
  · intro h
    rw [GetCartItemCount_eq, GoInt.val_ofInt, wrap_of_representable _ h]
  · intro herr
    have h := AddToCart_count foldEq c products productName q herr
    refine ⟨h, fun hfit => ?_⟩
    rw [h, GoInt.val_add_of_fits _ _ hfit]
  · intro herr
    have h := RemoveFromCart_count foldEq c products productName q herr
    refine ⟨h, fun hfit => ?_⟩
    rw [h, GoInt.val_sub_of_fits _ _ hfit]
  · intro herr
    obtain ⟨k, I, hI, h⟩ := UpdateCartQuantity_count foldEq c products productName q herr
    refine ⟨k, I, hI, h, fun hd hfit => ?_⟩
    have hdv : (q - I.Quantity).val = q.val - I.Quantity.val :=
      GoInt.val_sub_of_fits _ _ hd
    rw [h, GoInt.val_add_of_fits, hdv]
    rw [hdv]
    exact hfit

/-- An instance of C22 as amended: two copies of "Dune" added to a cart that holds three. -/
theorem GetCartItemCount_is_sum_of_quantities_witness :
    ((Cart.mk [⟨⟨"b1", "Dune", "", price15, "books", 10⟩, 3⟩]).AddToCart asciiFoldEq
        [⟨"b1", "Dune", "", price15, "books", 7⟩] "dune" 2).err = none
    ∧ Representable ((Cart.mk [⟨⟨"b1", "Dune", "", price15, "books", 10⟩, 3⟩]).GetCartItemCount.val
        + (2 : GoInt).val)
    ∧ ((Cart.mk [⟨⟨"b1", "Dune", "", price15, "books", 10⟩, 3⟩]).AddToCart asciiFoldEq
        [⟨"b1", "Dune", "", price15, "books", 7⟩] "dune" 2).cart.GetCartItemCount.val
      = (Cart.mk [⟨⟨"b1", "Dune", "", price15, "books", 10⟩, 3⟩]).GetCartItemCount.val
        + (2 : GoInt).val :=
  ⟨by decide, by decide,
    ((GetCartItemCount_is_sum_of_quantities asciiFoldEq
      (Cart.mk [⟨⟨"b1", "Dune", "", price15, "books", 10⟩, 3⟩])
      [⟨"b1", "Dune", "", price15, "books", 7⟩] "dune" 2).2.2.2.1 (by decide)).2 (by decide)⟩

/-! ## One cart item per product ID -/

theorem cartIDs_set (items : List CartItem) (k : Nat) (I : CartItem) (n : GoInt)
    (hI : items[k]? = some I) :
    cartIDs (items.set k { I with Quantity := n }) = cartIDs items := by
  apply List.ext_getElem?
  intro j
  simp only [cartIDs, List.getElem?_map]
  by_cases hkj : k = j
  · subst hkj
    simp [hI, (List.getElem?_eq_some_iff.mp hI).1]
  · rw [List.getElem?_set_ne hkj]

theorem cartIDs_delete_nodup (items : List CartItem) (k : Nat)
    (h : (cartIDs items).Nodup) :
    (cartIDs (items.take k ++ items.drop (k + 1))).Nodup := by
  rw [← List.eraseIdx_eq_take_drop_succ]
  exact List.Nodup.sublist ((List.eraseIdx_sublist items k).map _) h

theorem cartIDs_append_nodup (items : List CartItem) (P : Product) (q : GoInt)
    (h : (cartIDs items).Nodup) (hno : ∀ I ∈ items, (I.Product.ID == P.ID) = false) :
    (cartIDs (items ++ [⟨P, q⟩])).Nodup := by
  have hnot : P.ID ∉ cartIDs items := by
    intro hmem
    obtain ⟨I, hI, hid⟩ := List.mem_map.mp hmem
    have := hno I hI
    simp [hid] at this
  simp only [cartIDs, List.map_append, List.map_cons, List.map_nil]
  exact List.Nodup.append h (List.nodup_singleton _) (by
    intro x hx hx2
    rw [List.mem_singleton.mp hx2] at hx
    exact hnot hx)

theorem AddToCart_cartIDs_nodup (foldEq : Char → Char → Bool) (c : Cart)
    (products : List Product) (productName : String) (q : GoInt)
    (h : (cartIDs c.Items).Nodup) :
    (cartIDs (c.AddToCart foldEq products productName q).cart.Items).Nodup := by
  by_cases hq : q ≤ 0
  · rw [AddToCart_nonpos foldEq c products productName q hq]
    exact h
  · have hq' : 0 < q := not_le.mp hq
    rcases first_or_none (fun p : Product => EqualFold foldEq p.Name productName) products
      with ⟨i, P, hP⟩ | hno
    · by_cases hs : P.Stock < q
      · rw [AddToCart_short foldEq c products productName q i P hq' hP hs]
        exact h
      · rcases first_or_none (fun item : CartItem => item.Product.ID == P.ID) c.Items
          with ⟨k, I, hI⟩ | hnoI
        · rw [AddToCart_merge foldEq c products productName q i P k I hq' hP (not_lt.mp hs) hI]
          show (cartIDs (c.Items.set k { I with Quantity := I.Quantity + q })).Nodup
          rw [cartIDs_set c.Items k I _ hI.1]
          exact h
        · rw [AddToCart_append foldEq c products productName q i P hq' hP (not_lt.mp hs) hnoI]
          exact cartIDs_append_nodup c.Items P q h hnoI
    · rw [AddToCart_noMatch foldEq c products productName q hq' hno]
      exact h

theorem UpdateCartQuantity_cartIDs_nodup (foldEq : Char → Char → Bool) (c : Cart)
    (products : List Product) (productName : String) (n : GoInt)
    (h : (cartIDs c.Items).Nodup) :
    (cartIDs (c.UpdateCartQuantity foldEq products productName n).cart.Items).Nodup := by
  by_cases hn : n < 0
  · rw [UpdateCartQuantity_negative foldEq c products productName n hn]
    exact h
  · have hn' : 0 ≤ n := not_lt.mp hn
    rcases first_or_none (fun J : CartItem => EqualFold foldEq J.Product.Name productName)
      c.Items with ⟨k, I, hI⟩ | hnoI
    · rcases first_or_none (fun p : Product => p.ID == I.Product.ID) products
        with ⟨i, P, hP⟩ | hnoP
      · by_cases hs : 0 < n - I.Quantity ∧ P.Stock < n - I.Quantity
        · rw [UpdateCartQuantity_short foldEq c products productName n k I i P hn' hI hP
            hs.1 hs.2]
          exact h
        · have hok := stock_ok_of_not_short hs
          by_cases h0 : n = 0
          · subst h0
            rw [UpdateCartQuantity_zero foldEq c products productName k I i P hI hP hok]
            exact cartIDs_delete_nodup c.Items k h
          · rw [UpdateCartQuantity_set foldEq c products productName n k I i P
              (lt_of_le_of_ne hn' (Ne.symm h0)) hI hP hok]
            show (cartIDs (c.Items.set k { I with Quantity := n })).Nodup
            rw [cartIDs_set c.Items k I _ hI.1]
            exact h
      · rw [UpdateCartQuantity_noProduct foldEq c products productName n k I hn' hI hnoP]
        exact h
    · rw [UpdateCartQuantity_noItem foldEq c products productName n hn' hnoI]
      exact h

theorem RemoveFromCart_cartIDs_nodup (foldEq : Char → Char → Bool) (c : Cart)
    (products : List Product) (productName : String) (q : GoInt)
    (h : (cartIDs c.Items).Nodup) :
    (cartIDs (c.RemoveFromCart foldEq products productName q).cart.Items).Nodup := by
  by_cases hq : q ≤ 0
  · rw [RemoveFromCart_nonpos foldEq c products productName q hq]
    exact h
  · have hq' : 0 < q := not_le.mp hq
    rcases first_or_none (fun J : CartItem => EqualFold foldEq J.Product.Name productName)
      c.Items with ⟨k, I, hI⟩ | hnoI
    · by_cases hs : I.Quantity < q
      · rw [RemoveFromCart_tooMany foldEq c products productName q k I hq' hI hs]
        exact h
      · by_cases he : I.Quantity = q
        · rw [RemoveFromCart_all foldEq c products productName q k I hq' hI he]
          exact cartIDs_delete_nodup c.Items k h
        · rw [RemoveFromCart_some foldEq c products productName q k I hq' hI
            (lt_of_le_of_ne (not_lt.mp hs) (Ne.symm he))]
          show (cartIDs (c.Items.set k { I with Quantity := I.Quantity - q })).Nodup
          rw [cartIDs_set c.Items k I _ hI.1]
          exact h
    · rw [RemoveFromCart_noItem foldEq c products productName q hq' hnoI]
      exact h

theorem runOps_cartIDs_nodup (foldEq : Char → Char → Bool) (ops : List CartOp)
    (s : List Product × Cart) (h : (cartIDs s.2.Items).Nodup) :
    (cartIDs (runOps foldEq ops s).2.Items).Nodup := by
  induction ops generalizing s with
  | nil => exact h
  | cons op ops ih =>
    apply ih (op.apply foldEq s)
    cases op with
    | add n q => exact AddToCart_cartIDs_nodup foldEq s.2 s.1 n q h
    | update n q => exact UpdateCartQuantity_cartIDs_nodup foldEq s.2 s.1 n q h
    | remove n q => exact RemoveFromCart_cartIDs_nodup foldEq s.2 s.1 n q h
    | clear => exact List.nodup_nil

/-- C23. No duplicate cart entries: if no two items of the cart have the same product ID
before a call, then after a call of `AddToCart`, `UpdateCartQuantity`, `RemoveFromCart` or
`ClearCart`, with any catalog and any arguments, no two items of the cart have the same
product ID.  Hence after every sequence of such calls from the empty cart, on any catalog,
each product ID is in at most one item of the cart. -/
theorem no_duplicate_cart_entries (foldEq : Char → Char → Bool) (c : Cart)
    (products : List Product) (productName : String) (q : GoInt)
    (hnodup : (cartIDs c.Items).Nodup) :
    (cartIDs (c.AddToCart foldEq products productName q).cart.Items).Nodup
    ∧ (cartIDs (c.UpdateCartQuantity foldEq products productName q).cart.Items).Nodup
    ∧ (cartIDs (c.RemoveFromCart foldEq products productName q).cart.Items).Nodup
    ∧ (cartIDs (c.ClearCart products).2.Items).Nodup
    ∧ ∀ (ops : List CartOp) (catalog : List Product),
        (cartIDs (runOps foldEq ops (catalog, NewCart)).2.Items).Nodup :=
  ⟨AddToCart_cartIDs_nodup foldEq c products productName q hnodup,
    UpdateCartQuantity_cartIDs_nodup foldEq c products productName q hnodup,
    RemoveFromCart_cartIDs_nodup foldEq c products productName q hnodup,
    List.nodup_nil,
    fun ops catalog => runOps_cartIDs_nodup foldEq ops (catalog, NewCart) List.nodup_nil⟩

/-- An instance of C23: a second `AddToCart` of "Dune" to a cart that holds it leaves one
item for the ID "b1". -/
theorem no_duplicate_cart_entries_witness :
    (cartIDs (Cart.mk [⟨⟨"b1", "Dune", "", price15, "books", 10⟩, 3⟩]).Items).Nodup
    ∧ (cartIDs ((Cart.mk [⟨⟨"b1", "Dune", "", price15, "books", 10⟩, 3⟩]).AddToCart asciiFoldEq
        [⟨"b1", "Dune", "", price15, "books", 7⟩] "Dune" 2).cart.Items).Nodup :=
  ⟨by decide,
    (no_duplicate_cart_entries asciiFoldEq
      (Cart.mk [⟨⟨"b1", "Dune", "", price15, "books", 10⟩, 3⟩])
      [⟨"b1", "Dune", "", price15, "books", 7⟩] "Dune" 2 (by decide)).1⟩

/-! ## `RemoveFromCart` and `UpdateCartQuantity` -/

/-- C24. `RemoveFromCart` agrees with `UpdateCartQuantity`: let `I` be the first cart item
whose product name equals `productName` under case folding, and `0 < d <= I.Quantity`.  When
some catalog product has `I`'s product ID, `RemoveFromCart(productName, d)` and
`UpdateCartQuantity(productName, I.Quantity - d)` both return no error and leave the same
catalog and the same cart.  When no catalog product has that ID, `RemoveFromCart` returns no
error and `UpdateCartQuantity` returns an error of kind `ProductNotFound`. -/
theorem RemoveFromCart_agrees_with_UpdateCartQuantity (foldEq : Char → Char → Bool)
    (c : Cart) (products : List Product) (productName : String) (d : GoInt) (k : Nat)
    (I : CartItem)
    (hI : IsFirst (fun J : CartItem => EqualFold foldEq J.Product.Name productName) c.Items k I)
    (hd : 0 < d) (hle : d ≤ I.Quantity) :
    ((∃ p ∈ products, p.ID = I.Product.ID) →
        (c.RemoveFromCart foldEq products productName d).err = none
        ∧ (c.UpdateCartQuantity foldEq products productName (I.Quantity - d)).err = none
        ∧ (c.RemoveFromCart foldEq products productName d).products
            = (c.UpdateCartQuantity foldEq products productName (I.Quantity - d)).products
        ∧ (c.RemoveFromCart foldEq products productName d).cart
            = (c.UpdateCartQuantity foldEq products productName (I.Quantity - d)).cart)
    ∧ ((∀ p ∈ products, p.ID ≠ I.Product.ID) →
        (c.RemoveFromCart foldEq products productName d).err = none
        ∧ (c.UpdateCartQuantity foldEq products productName (I.Quantity - d)).err.map
            CartError.kind = some .ProductNotFound) := by
  have hd0 : (0 : Int) < d.val := hd
  have hle0 : d.val ≤ I.Quantity.val := hle
  have hdr := d.inRange
  have hIr := I.Quantity.inRange
  have hsub : (I.Quantity - d).val = I.Quantity.val - d.val :=
    GoInt.val_sub_of_le I.Quantity d hd hle
  have hnonneg : 0 ≤ I.Quantity - d := by
    show (0 : GoInt).val ≤ (I.Quantity - d).val
    rw [hsub, GoInt.val_zero]
    omega
  have hdelta : I.Quantity - d - I.Quantity ≤ 0 := by
    show (I.Quantity - d - I.Quantity).val ≤ (0 : GoInt).val
    rw [GoInt.val_sub, hsub, GoInt.val_zero]
    unfold wrap
    omega
  constructor
  · rintro ⟨p, hp, hid⟩
    rcases first_or_none (fun p : Product => p.ID == I.Product.ID) products
      with ⟨i, P, hP⟩ | hnoP
    · by_cases he : I.Quantity = d
      · have hn0 : I.Quantity - d = 0 := by
          rw [he]
          exact GoInt.sub_self d
        rw [hn0] at hdelta
        rw [hn0, RemoveFromCart_all foldEq c products productName d k I hd hI he,
          restoreStock_first products I.Product.ID d i P hP,
          UpdateCartQuantity_zero foldEq c products productName k I i P hI hP
            (Or.inl hdelta)]
        refine ⟨rfl, rfl, ?_, rfl⟩
        show products.set i { P with Stock := P.Stock + d }
          = products.set i { P with Stock := P.Stock - (0 - I.Quantity) }
        congr 2
        apply GoInt.ext
        rw [he]
        simp only [GoInt.val_add, GoInt.val_sub, GoInt.val_zero]
        unfold wrap
        omega
      · have hpos : 0 < I.Quantity - d := by
          show (0 : GoInt).val < (I.Quantity - d).val
          have hne : I.Quantity.val ≠ d.val := fun h2 => he (GoInt.ext h2)
          rw [hsub, GoInt.val_zero]
          omega
        rw [RemoveFromCart_some foldEq c products productName d k I hd hI
            (lt_of_le_of_ne hle (Ne.symm he)),
          restoreStock_first products I.Product.ID d i P hP,
          UpdateCartQuantity_set foldEq c products productName (I.Quantity - d) k I i P
            hpos hI hP (Or.inl hdelta)]
        refine ⟨rfl, rfl, ?_, rfl⟩
        show products.set i { P with Stock := P.Stock + d }
          = products.set i { P with Stock := P.Stock - (I.Quantity - d - I.Quantity) }
        congr 2
        apply GoInt.ext
        simp only [GoInt.val_add, GoInt.val_sub]
        unfold wrap
        omega
    · have := hnoP p hp
      simp [hid] at this
  · intro hno
    have hno2 : ∀ p ∈ products, (p.ID == I.Product.ID) = false := by
      intro p hp
      simpa using hno p hp
    refine ⟨RemoveFromCart_err_none foldEq c products productName d k I hd hI hle, ?_⟩
    rw [UpdateCartQuantity_noProduct foldEq c products productName (I.Quantity - d) k I
      hnonneg hI hno2]
    rfl

/-- An instance of C24: removing two of five copies of "Dune" and updating to three copies
leave the same cart. -/
theorem RemoveFromCart_agrees_with_UpdateCartQuantity_witness :
    ((Cart.mk [⟨⟨"b1", "Dune", "", price15, "books", 10⟩, 5⟩]).RemoveFromCart asciiFoldEq
        [⟨"b1", "Dune", "", price15, "books", 5⟩] "Dune" 2).cart
      = ((Cart.mk [⟨⟨"b1", "Dune", "", price15, "books", 10⟩, 5⟩]).UpdateCartQuantity asciiFoldEq
        [⟨"b1", "Dune", "", price15, "books", 5⟩] "Dune" (5 - 2)).cart :=
  ((RemoveFromCart_agrees_with_UpdateCartQuantity asciiFoldEq
      (Cart.mk [⟨⟨"b1", "Dune", "", price15, "books", 10⟩, 5⟩])
      [⟨"b1", "Dune", "", price15, "books", 5⟩] "Dune" 2 0
      ⟨⟨"b1", "Dune", "", price15, "books", 10⟩, 5⟩ (by decide) (by decide) (by decide)).1
    ⟨⟨"b1", "Dune", "", price15, "books", 5⟩, by decide, by decide⟩).2.2.2

end FunctionCalling
